import Mathlib

/-!
# qshaderedit: the GLSL effect (`glsleffect.cpp`)

A shallow embedding of `GLSLEffect` and of the anonymous-namespace class
`GLSLParameter`, followed by theorems about building, parameter
introspection, rendering and the file format, and about the calls that
`qshaderedit.cpp` makes on the effect factories.

Conventions of the embedding.

* `QByteArray` and `QString` are lists of characters.  A byte is a character
  below 256; the Latin-1 conversions between the two types are the identity on
  such characters (`QString.toLatin1` replaces every other character by `?`).
* A `QFile` opened for reading is the list of bytes still to be read; a file
  opened for writing is the list of bytes written.
* The OpenGL driver is an explicit argument (`Driver`): it says which handles the
  `glCreate*` calls return, what compiling a source text and linking two of
  them report, and what the introspection calls answer.
* The calls that change the state of the driver or of the message panel are
  collected, in program order, in a list of `Call`s.
* Heap objects carry a number (`GLSLParameter.obj`); `new GLSLParameter` takes
  the next free number from `GLSLEffect.heap`, so that two parameters are the
  same object exactly when their numbers agree.
-/

namespace GLSL

/-! ## Qt value types -/

abbrev QString := List Char
abbrev QByteArray := List Char

/-- A C `double`, kept as its 64 bit pattern. Arithmetic on it is never needed. -/
structure QDouble where
  bits : Nat
deriving DecidableEq, Repr

/-- Qt's conversions between `double` and text (`QVariant(double).toString()` and
`QString::toDouble`). They are library code working on floating point numbers
and are taken as a parameter of every function that reaches them. -/
structure QLocale where
  doubleToString : QDouble → QString
  toDouble : QString → QDouble

/-- Modelled from the spec: `GLTexture` of `texmanager.h`, which is not among the
sources. The spec describes the texture cache as `open(path) -> TextureHandle`,
content-addressed; the handle is represented by the path it was opened from,
which is what `GLTexture::name()` hands to `getParameterAssignment`. -/
structure GLTexture where
  name : QString
deriving DecidableEq, Repr

/-- Modelled from the spec: the default constructed `GLTexture()` names no image. -/
def GLTexture.default : GLTexture := ⟨[]⟩

/-- Modelled from the spec: `GLTexture::open(path)`. -/
def GLTexture.open (path : QString) : GLTexture := ⟨path⟩

/-- The element of a `QVariantList` as `glsleffect.cpp` builds them. -/
inductive QScalar where
  | double (d : QDouble)
  | int (i : Int)
  | bool (b : Bool)
  | string (s : QString)
deriving DecidableEq, Repr

/-- The `QVariant` values the effect stores in a parameter. -/
inductive QVariant where
  | invalid
  | double (d : QDouble)
  | int (i : Int)
  | bool (b : Bool)
  | list (l : List QScalar)
  | texture (t : GLTexture)
deriving DecidableEq, Repr

/-- `QString::number(int)`: the decimal spelling. -/
def QString.number (i : Int) : QString :=
  if i < 0 then '-' :: Nat.toDigits 10 i.natAbs else Nat.toDigits 10 i.toNat

/-- `QChar::isSpace()` of Qt 4: the controls 9..13 and the Unicode separators. -/
def QChar.isSpace (c : Char) : Bool :=
  let n := c.toNat
  (9 ≤ n && n ≤ 13) || n == 0x20 || n == 0xA0 || n == 0x1680 || n == 0x180E ||
  (0x2000 ≤ n && n ≤ 0x200A) || n == 0x2028 || n == 0x2029 || n == 0x202F ||
  n == 0x205F || n == 0x3000

/-- The class `\w` of `QRegExp` (letter, number or underscore) on Latin-1 text,
which is all `parseParameter` ever sees: its line comes out of a byte array. -/
def QChar.isWord (c : Char) : Bool :=
  let n := c.toNat
  (0x30 ≤ n && n ≤ 0x39) || (0x41 ≤ n && n ≤ 0x5A) || n == 0x5F || (0x61 ≤ n && n ≤ 0x7A) ||
  n == 0xAA || n == 0xB2 || n == 0xB3 || n == 0xB5 || n == 0xB9 || n == 0xBA ||
  (0xBC ≤ n && n ≤ 0xBE) || (0xC0 ≤ n && n ≤ 0xD6) || (0xD8 ≤ n && n ≤ 0xF6) ||
  (0xF8 ≤ n && n ≤ 0xFF)

/-- `QChar::toLower()` on Latin-1 text (uniform names come from a `char` buffer). -/
def QChar.toLower (c : Char) : Char :=
  let n := c.toNat
  if (0x41 ≤ n && n ≤ 0x5A) || (0xC0 ≤ n && n ≤ 0xDE && n != 0xD7) then Char.ofNat (n + 32) else c

/-- `QString::toLower()`. -/
def QString.toLower (s : QString) : QString := s.map QChar.toLower

/-- `QString::startsWith` / `QByteArray::startsWith`. -/
def startsWith (s t : List Char) : Bool := t.isPrefixOf s

/-- `QByteArray::endsWith(char)`. -/
def endsWithChar (s : List Char) (c : Char) : Bool := s.getLast? == some c

/-- `QString::trimmed()`. -/
def QString.trimmed (s : QString) : QString :=
  ((s.dropWhile QChar.isSpace).reverse.dropWhile QChar.isSpace).reverse

/-- `QString::toLatin1()`. -/
def QString.toLatin1 (s : QString) : QByteArray :=
  s.map fun c => if c.toNat < 256 then c else '?'

/-- The implicit `QString(const QByteArray &)`: Latin-1, up to the first NUL. -/
def QString.fromByteArray (b : QByteArray) : QString := b.takeWhile fun c => c != Char.ofNat 0

/-- Value of a run of decimal digits, `none` when it is empty or holds another character. -/
def digitsValue : List Char → Option Nat
  | [] => none
  | cs => cs.foldl (fun acc c => acc.bind fun n =>
      if c.isDigit then some (10 * n + (c.toNat - 48)) else none) (some 0)

/-- `QString::toInt()`: optional surrounding white space, an optional sign and
decimal digits that fit a 32 bit `int`; `0` for everything else. -/
def QString.toInt (s : QString) : Int :=
  let body (neg : Bool) (ds : List Char) : Int :=
    match digitsValue ds with
    | none => 0
    | some n =>
      let v : Int := if neg then - (n : Int) else (n : Int)
      if -2147483648 ≤ v ∧ v ≤ 2147483647 then v else 0
  match QString.trimmed s with
  | '-' :: ds => body true ds
  | '+' :: ds => body false ds
  | ds => body false ds

/-- `QString::indexOf(QChar)`, `-1` when the character does not occur. -/
def QString.indexOf (s : QString) (c : Char) : Int :=
  match s.indexOf? c with
  | some i => (i : Int)
  | none => -1

/-- `QString::mid(position, n)` of Qt 4. -/
def QString.mid (s : QString) (position n : Int) : QString :=
  if position ≥ s.length then []
  else
    let n1 := if n < 0 then (s.length : Int) - position else n
    let n2 := if position < 0 then n1 + position else n1
    let p := if position < 0 then 0 else position
    let n3 := if n2 + p > s.length then (s.length : Int) - p else n2
    (s.drop p.toNat).take n3.toNat

/-- `QString::split(sep)` for a one character separator, empty parts kept. -/
def QString.split (sep : Char) : QString → List QString
  | [] => [[]]
  | c :: cs =>
    match QString.split sep cs with
    | [] => [[c]]
    | w :: ws => if c = sep then [] :: w :: ws else (c :: w) :: ws

/-- `QVariant::toString()` on a list element. -/
def QScalar.toString (q : QLocale) : QScalar → QString
  | .double d => q.doubleToString d
  | .int i => QString.number i
  | .bool b => if b then "true".toList else "false".toList
  | .string s => s

/-- `QVariant::toString()`. -/
def QVariant.toString (q : QLocale) : QVariant → QString
  | .double d => q.doubleToString d
  | .int i => QString.number i
  | .bool b => if b then "true".toList else "false".toList
  | _ => []

/-- `QVariant::toStringList()`. -/
def QVariant.toStringList (q : QLocale) : QVariant → List QString
  | .list l => l.map (QScalar.toString q)
  | _ => []

/-- `QVariant::value<GLTexture>()`: a default constructed texture unless the
variant holds one. -/
def QVariant.toTexture : QVariant → GLTexture
  | .texture t => t
  | _ => GLTexture.default

/-- `QStringList::join`. -/
def QStringList.join (sep : QString) : List QString → QString
  | [] => []
  | [s] => s
  | s :: t :: rest => s ++ sep ++ QStringList.join sep (t :: rest)

/-! ## OpenGL constants (`GL/glew.h`) -/

def GL_ZERO : Nat := 0
def GL_FALSE : Int := 0
def GL_INT : Nat := 0x1404
def GL_FLOAT : Nat := 0x1406
def GL_FLOAT_VEC2_ARB : Nat := 0x8B50
def GL_FLOAT_VEC3_ARB : Nat := 0x8B51
def GL_FLOAT_VEC4_ARB : Nat := 0x8B52
def GL_INT_VEC2_ARB : Nat := 0x8B53
def GL_INT_VEC3_ARB : Nat := 0x8B54
def GL_INT_VEC4_ARB : Nat := 0x8B55
def GL_BOOL_ARB : Nat := 0x8B56
def GL_BOOL : Nat := 0x8B56
def GL_BOOL_VEC2_ARB : Nat := 0x8B57
def GL_BOOL_VEC3_ARB : Nat := 0x8B58
def GL_BOOL_VEC4_ARB : Nat := 0x8B59
def GL_FLOAT_MAT2_ARB : Nat := 0x8B5A
def GL_FLOAT_MAT3_ARB : Nat := 0x8B5B
def GL_FLOAT_MAT4_ARB : Nat := 0x8B5C
def GL_SAMPLER_1D_ARB : Nat := 0x8B5D
def GL_SAMPLER_2D_ARB : Nat := 0x8B5E
def GL_SAMPLER_3D_ARB : Nat := 0x8B5F
def GL_SAMPLER_CUBE_ARB : Nat := 0x8B60
def GL_SAMPLER_1D_SHADOW_ARB : Nat := 0x8B61
def GL_SAMPLER_2D_SHADOW_ARB : Nat := 0x8B62
def GL_SAMPLER_2D_RECT_ARB : Nat := 0x8B63
def GL_SAMPLER_2D_RECT_SHADOW_ARB : Nat := 0x8B64
def GL_VERTEX_SHADER_ARB : Nat := 0x8B31
def GL_FRAGMENT_SHADER_ARB : Nat := 0x8B30

/-! ## Parameters -/

/-- `GLSLParameter` with the members it inherits from `Parameter`. -/
structure GLSLParameter where
  /-- number of the heap object (its identity) -/
  obj : Nat
  name : QString
  description : QString
  value : QVariant
  minValue : QVariant
  maxValue : QVariant
  glType : Nat
  location : Int
  texUnit : Int
deriving DecidableEq, Repr

/-- The constructor `GLSLParameter(name, type, location)` run on heap object `obj`. -/
def GLSLParameter.mk3 (obj : Nat) (name : QString) (type : Nat) (location : Int) : GLSLParameter :=
  { obj := obj, name := name, description := [], value := .invalid, minValue := .invalid,
    maxValue := .invalid, glType := type, location := location, texUnit := 0 }

/-- `GLSLParameter::setLocation`. -/
def GLSLParameter.setLocation (p : GLSLParameter) (location : Int) : GLSLParameter :=
  { p with location := location }

/-- Modelled from the spec: `Parameter::setValue`, declared in `parameter.h` and
defined in a file that is not among the sources. The spec gives it "no side
effects beyond internal state mutation": it stores the value. -/
def GLSLParameter.setValue (p : GLSLParameter) (v : QVariant) : GLSLParameter :=
  { p with value := v }

/-- `GLSLParameter::setTextureUnit`. -/
def GLSLParameter.setTextureUnit (p : GLSLParameter) (unit : Int) : GLSLParameter :=
  { p with texUnit := unit }

/-- `GLSLParameter::isTexture`. -/
def GLSLParameter.isTexture (p : GLSLParameter) : Bool :=
  p.glType == GL_SAMPLER_1D_ARB || p.glType == GL_SAMPLER_2D_ARB || p.glType == GL_SAMPLER_3D_ARB ||
  p.glType == GL_SAMPLER_CUBE_ARB || p.glType == GL_SAMPLER_2D_RECT_ARB

/-! ## The driver and the message panel -/

/-- One answer of `glGetActiveUniformARB`. -/
structure ActiveUniform where
  name : QString
  size : Int
  type : Nat
deriving DecidableEq, Repr

/-- What the driver reports about a compiled shader object. -/
structure Shader where
  compileStatus : Int
  infoLog : QByteArray

/-- What the driver reports about a program object after `glLinkProgramARB`. -/
structure Program where
  linkStatus : Int
  infoLog : QByteArray
  activeUniforms : List ActiveUniform
  uniformLocation : QString → Int
  /-- `glGetUniformfvARB`: component `i` of the uniform at a location -/
  uniformfv : Int → Nat → QDouble
  /-- `glGetUniformivARB`: component `i` of the uniform at a location -/
  uniformiv : Int → Nat → Int

/-- The OpenGL driver as one call of `build` meets it. -/
structure Driver where
  createVertexShader : Nat
  createFragmentShader : Nat
  createProgram : Nat
  compileVertex : QByteArray → Shader
  compileFragment : QByteArray → Shader
  link : QByteArray → QByteArray → Program
  maxTextureImageUnits : Int

/-- Where the number passed to a `glUniform` call is taken from: the value of the
parameter or an element of its list. -/
inductive Source where
  | variant (v : QVariant)
  | element (s : QScalar)
deriving DecidableEq, Repr

/-- An argument of a `glUniform` call. The conversions of Qt (`toDouble`, `toInt`,
`toBool`) and the narrowing to `float` are not carried out: the argument names
the conversion and what it is applied to. -/
inductive UniformArg where
  /-- the number `float(x.toDouble())` -/
  | toFloat (x : Source)
  /-- the number `x.toInt()` -/
  | toInt (x : Source)
  /-- the number `x.toBool()` -/
  | toBool (x : Source)
  /-- a texture unit -/
  | unit (n : Int)
  /-- the number `0.001f * ms` for a reading `ms` of the clock `m_time` -/
  | seconds (ms : Int)
deriving DecidableEq, Repr

/-- The state changing calls made on the driver and on the `MessagePanel`.
`glUniformf` stands for `glUniform1fARB` to `glUniform4fARB` and `glUniformi`
for `glUniform1iARB` to `glUniform4iARB`, according to the number of arguments;
`glBindTexture texture` stands for `glBindTexture(texture.target(), texture.object())`. -/
inductive Call where
  | glCreateShaderObject (type : Nat) (handle : Nat)
  | glCreateProgramObject (handle : Nat)
  | glShaderSource (shader : Nat) (source : QByteArray)
  | glCompileShader (shader : Nat)
  | glAttachObject (program shader : Nat)
  | glLinkProgram (program : Nat)
  | glDetachObject (program shader : Nat)
  | glDeleteObject (handle : Nat)
  | outputClear
  | outputInfo (text : QString)
  | outputLog (log : QByteArray) (input : Int)
  | outputError (text : QString)
  | glEnable (cap : Nat)
  | glDepthFunc (func : Nat)
  | glUseProgramObject (program : Nat)
  | glUniformf (location : Int) (args : List UniformArg)
  | glUniformi (location : Int) (args : List UniformArg)
  | glActiveTexture (texture : Int)
  | glBindTexture (texture : GLTexture)
deriving DecidableEq, Repr

/-- The calls made on the `MessagePanel`. -/
def Call.isOutput : Call → Bool
  | .outputClear => true
  | .outputInfo _ => true
  | .outputLog _ _ => true
  | .outputError _ => true
  | _ => false

/-- The calls of `MessagePanel::log`. -/
def Call.isLog : Call → Bool
  | .outputLog _ _ => true
  | _ => false

/-- The calls of `MessagePanel::error`. -/
def Call.isError : Call → Bool
  | .outputError _ => true
  | _ => false

/-! ## The effect -/

def s_vertexShaderText : QByteArray :=
  ("varying vec3 v_V;\n" ++ "varying vec3 v_N;\n\n" ++ "void main() \x7b\n" ++
   "\tgl_Position = ftransform();\n" ++ "\tv_V = (gl_ModelViewMatrix[3] - gl_Vertex).xyz;\n" ++
   "\tv_N = gl_NormalMatrix * gl_Normal;\n" ++ "\x7d\n").toList

def s_fragmentShaderText : QByteArray :=
  ("varying vec3 v_V;\n" ++ "varying vec3 v_N;\n\n" ++ "void main() \x7b\n" ++
   "\tvec3 N = normalize(v_N);\n" ++ "\tvec3 V = normalize(v_V);\n" ++ "\tvec3 R = reflect(V, N);\n" ++
   "\tvec3 L = normalize(vec3(gl_LightSource[0].position));\n\n" ++
   "\tvec4 ambient = gl_FrontMaterial.ambient;\n" ++
   "\tvec4 diffuse = gl_FrontMaterial.diffuse * max(dot(L, N), 0.0);\n" ++
   "\tvec4 specular = gl_FrontMaterial.specular * pow(max(dot(R, L), 0.0), gl_FrontMaterial.shininess);\n\n" ++
   "\tgl_FragColor = ambient + diffuse + specular;\n" ++ "\x7d\n").toList

def s_vertexShaderTag : QByteArray := "[VertexShader]\n".toList
def s_fragmentShaderTag : QByteArray := "[FragmentShader]\n".toList
def s_parametersTag : QByteArray := "[Parameters]\n".toList

/-- The data members of `GLSLEffect` (the clock and the output parser, which no
function below reads, are left out) and the allocation counter of the heap. -/
structure GLSLEffect where
  m_vertexShader : Nat
  m_fragmentShader : Nat
  m_program : Nat
  m_vertexShaderText : QByteArray
  m_fragmentShaderText : QByteArray
  m_timeUniform : Int
  m_parameterArray : List GLSLParameter
  heap : Nat
deriving DecidableEq, Repr

/-- The constructor `GLSLEffect::GLSLEffect`. -/
def GLSLEffect.ctor : GLSLEffect :=
  { m_vertexShader := 0, m_fragmentShader := 0, m_program := 0,
    m_vertexShaderText := s_vertexShaderText, m_fragmentShaderText := s_fragmentShaderText,
    m_timeUniform := -1, m_parameterArray := [], heap := 0 }

/-- `GLSLEffect::parameterCount`. -/
def parameterCount (e : GLSLEffect) : Nat := e.m_parameterArray.length

/-- `GLSLEffect::isValid`. -/
def isValid (e : GLSLEffect) : Bool := e.m_program != 0

/-- `GLSLEffect::isAnimated`. -/
def isAnimated (e : GLSLEffect) : Bool := e.m_timeUniform != -1

/-! ## Building -/

/-- `GLSLEffect::deleteProgram`. -/
def deleteProgram (e : GLSLEffect) : GLSLEffect × List Call :=
  let c1 : List Call :=
    if e.m_program != 0 then
      (if e.m_vertexShader != 0 then [Call.glDetachObject e.m_program e.m_vertexShader] else []) ++
      (if e.m_fragmentShader != 0 then [Call.glDetachObject e.m_program e.m_fragmentShader] else []) ++
      [Call.glDeleteObject e.m_program]
    else []
  let c2 : List Call := if e.m_vertexShader != 0 then [Call.glDeleteObject e.m_vertexShader] else []
  let c3 : List Call := if e.m_fragmentShader != 0 then [Call.glDeleteObject e.m_fragmentShader] else []
  ({ e with m_program := 0, m_vertexShader := 0, m_fragmentShader := 0 }, c1 ++ c2 ++ c3)

/-- `GLSLEffect::getParameterValue`, reading program `prog`. -/
def getParameterValue (prog : Program) (param : GLSLParameter) : QVariant :=
  let f (i : Nat) : QScalar := .double (prog.uniformfv param.location i)
  let n (i : Nat) : QScalar := .int (prog.uniformiv param.location i)
  let b (i : Nat) : QScalar := .bool (prog.uniformiv param.location i != 0)
  if param.glType = GL_FLOAT then .double (prog.uniformfv param.location 0)
  else if param.glType = GL_FLOAT_VEC2_ARB then .list [f 0, f 1]
  else if param.glType = GL_FLOAT_VEC3_ARB then .list [f 0, f 1, f 2]
  else if param.glType = GL_FLOAT_VEC4_ARB then .list [f 0, f 1, f 2, f 3]
  else if param.glType = GL_INT then .int (prog.uniformiv param.location 0)
  else if param.glType = GL_INT_VEC2_ARB then .list [n 0, n 1]
  else if param.glType = GL_INT_VEC3_ARB then .list [n 0, n 1, n 2]
  else if param.glType = GL_INT_VEC4_ARB then .list [n 0, n 1, n 2, n 3]
  else if param.glType = GL_BOOL_ARB then .bool (prog.uniformiv param.location 0 != 0)
  else if param.glType = GL_BOOL_VEC2_ARB then .list [b 0, b 1]
  else if param.glType = GL_BOOL_VEC3_ARB then .list [b 0, b 1, b 2]
  else if param.glType = GL_BOOL_VEC4_ARB then .list [b 0, b 1, b 2, b 3]
  else if param.glType = GL_FLOAT_MAT2_ARB then .list ((List.range (2*2)).map f)
  else if param.glType = GL_FLOAT_MAT3_ARB then .list ((List.range (3*3)).map f)
  else if param.glType = GL_FLOAT_MAT4_ARB then .list ((List.range (4*4)).map f)
  else if param.glType = GL_SAMPLER_1D_ARB ∨ param.glType = GL_SAMPLER_2D_ARB ∨
      param.glType = GL_SAMPLER_3D_ARB ∨ param.glType = GL_SAMPLER_CUBE_ARB ∨
      param.glType = GL_SAMPLER_2D_RECT_ARB then .texture GLTexture.default
  else .invalid

/-- The search of `initParameters` for the old value (the loop over `n`, lines
503-512): the first entry of the old array that is not `NULL` and has the name
and the type asked for gets the new location and is handed over; its slot in
the old array is set to `NULL`. `none` when the loop ends with `found == false`. -/
def findOld (name : QString) (type : Nat) (location : Int) :
    List (Option GLSLParameter) → Option (GLSLParameter × List (Option GLSLParameter))
  | [] => none
  | none :: rest =>
    (findOld name type location rest).map fun r => (r.1, none :: r.2)
  | some param :: rest =>
    if param.name = name ∧ param.glType = type then
      some (param.setLocation location, none :: rest)
    else
      (findOld name type location rest).map fun r => (r.1, some param :: r.2)

/-- The local state of the loop over the active uniforms in `initParameters`. -/
structure InitState where
  /-- `m_parameterArray`, whose entries the search may set to `NULL` -/
  old : List (Option GLSLParameter)
  newParameterArray : List GLSLParameter
  m_timeUniform : Int
  heap : Nat

/-- The parameters made for a uniform that has no old value (lines 514-529):
one when `size == 1`, otherwise one for each `i < size`, named `name[i]`. Heap
objects are numbered from `heap` on. -/
def addParameters (prog : Program) (heap : Nat) (name : QString) (size : Int) (type : Nat)
    (location : Int) : List GLSLParameter :=
  if size = 1 then
    let param := GLSLParameter.mk3 heap name type location
    [param.setValue (getParameterValue prog param)]
  else
    (List.range size.toNat).map fun i =>
      let param := GLSLParameter.mk3 (heap + i)
        (name ++ "[".toList ++ QString.number (i : Int) ++ "]".toList) type location
      param.setValue (getParameterValue prog param)

/-- One turn of the loop over the active uniforms (lines 479-530). -/
def initStep (prog : Program) (st : InitState) (u : ActiveUniform) : InitState :=
  if startsWith u.name "gl_".toList then st
  else if QString.toLower u.name = "time".toList then
    { st with m_timeUniform := prog.uniformLocation u.name }
  else
    let location := prog.uniformLocation u.name
    match findOld u.name u.type location st.old with
    | some (param, old) =>
      { st with old := old, newParameterArray := st.newParameterArray ++ [param] }
    | none =>
      let added := addParameters prog st.heap u.name u.size u.type location
      { st with newParameterArray := st.newParameterArray ++ added, heap := st.heap + added.length }

/-- The loop over the active uniforms (lines 479-530), run over the answers `us`
of `glGetActiveUniformARB`. -/
def initLoop (prog : Program) (st : InitState) (us : List ActiveUniform) : InitState :=
  us.foldl (initStep prog) st

/-- The loop over the parameters that hands out texture units (lines 540-558),
started with `unit` units in use. -/
def initTextureUnits (texUnitNum : Int) (output : Bool) :
    Int → List GLSLParameter → List GLSLParameter × List Call
  | _, [] => ([], [])
  | unit, parameter :: rest =>
    if parameter.isTexture then
      if unit < texUnitNum then
        let r := initTextureUnits texUnitNum output (unit + 1) rest
        (parameter.setTextureUnit unit :: r.1, r.2)
      else
        let r := initTextureUnits texUnitNum output unit rest
        (parameter :: r.1,
          (if output then
            [Call.outputError ("Texture unit limit hit, ignoring parameter '".toList ++
              parameter.name ++ "'".toList)]
           else []) ++ r.2)
    else
      let r := initTextureUnits texUnitNum output unit rest
      (parameter :: r.1, r.2)

/-- `GLSLEffect::initParameters`; `prog` is what the driver reports about
`m_program`, `texUnitNum` its answer for `GL_MAX_TEXTURE_IMAGE_UNITS_ARB`, and
`output` says whether a message panel was passed. -/
def initParameters (prog : Program) (texUnitNum : Int) (output : Bool) (e : GLSLEffect) :
    GLSLEffect × List Call :=
  if e.m_program = 0 then ({ e with m_timeUniform := -1 }, [])
  else
    let st := initLoop prog
      { old := e.m_parameterArray.map some, newParameterArray := [], m_timeUniform := -1,
        heap := e.heap } prog.activeUniforms
    let r := initTextureUnits texUnitNum output 0 st.newParameterArray
    ({ e with m_timeUniform := st.m_timeUniform, m_parameterArray := r.1, heap := st.heap }, r.2)

/-- What `build` returns, the effect it leaves and the calls it made. -/
structure BuildResult where
  result : Bool
  effect : GLSLEffect
  calls : List Call

/-- The calls of `build` up to the check of the compile status (lines 279-316). -/
def compileCalls (gl : Driver) (output : Bool) (e : GLSLEffect) : List Call :=
  [Call.glCreateShaderObject GL_VERTEX_SHADER_ARB gl.createVertexShader,
   Call.glCreateShaderObject GL_FRAGMENT_SHADER_ARB gl.createFragmentShader,
   Call.glCreateProgramObject gl.createProgram] ++
  (if output then [Call.outputClear, Call.outputInfo "Compiling vertex shader...".toList] else []) ++
  [Call.glShaderSource gl.createVertexShader e.m_vertexShaderText,
   Call.glCompileShader gl.createVertexShader] ++
  (if output then
    [Call.outputLog (gl.compileVertex e.m_vertexShaderText).infoLog 0,
     Call.outputInfo "Compiling fragment shader...".toList] else []) ++
  [Call.glShaderSource gl.createFragmentShader e.m_fragmentShaderText,
   Call.glCompileShader gl.createFragmentShader] ++
  (if output then [Call.outputLog (gl.compileFragment e.m_fragmentShaderText).infoLog 1] else [])

/-- The calls of `build` that link the program (lines 331-344). -/
def linkCalls (gl : Driver) (output : Bool) (e : GLSLEffect) : List Call :=
  (if output then [Call.outputInfo "Linking...".toList] else []) ++
  [Call.glAttachObject gl.createProgram gl.createVertexShader,
   Call.glAttachObject gl.createProgram gl.createFragmentShader,
   Call.glLinkProgram gl.createProgram] ++
  (if output then
    [Call.outputLog (gl.link e.m_vertexShaderText e.m_fragmentShaderText).infoLog (-1)] else [])

/-- `GLSLEffect::build`; `output` says whether a message panel was passed. -/
def build (gl : Driver) (output : Bool) (e : GLSLEffect) : BuildResult :=
  let d := deleteProgram e
  let e1 : GLSLEffect :=
    { d.1 with m_vertexShader := gl.createVertexShader,
               m_fragmentShader := gl.createFragmentShader,
               m_program := gl.createProgram }
  let c1 := d.2 ++ compileCalls gl output e
  if (gl.compileVertex e.m_vertexShaderText).compileStatus = GL_FALSE then ⟨false, e1, c1⟩
  else if (gl.compileFragment e.m_fragmentShaderText).compileStatus = GL_FALSE then ⟨false, e1, c1⟩
  else
    let prog := gl.link e.m_vertexShaderText e.m_fragmentShaderText
    let c2 := c1 ++ linkCalls gl output e
    if prog.linkStatus = GL_FALSE then ⟨false, e1, c2⟩
    else
      let r := initParameters prog gl.maxTextureImageUnits output e1
      ⟨true, r.1, c2 ++ r.2⟩

/-! ## The file format -/

/-- `GLSLEffect::getTypeName`. -/
def getTypeName (type : Nat) : QString :=
  if type = GL_FLOAT then "float".toList
  else if type = GL_FLOAT_VEC2_ARB then "vec2".toList
  else if type = GL_FLOAT_VEC3_ARB then "vec3".toList
  else if type = GL_FLOAT_VEC4_ARB then "vec4".toList
  else if type = GL_INT then "int".toList
  else if type = GL_INT_VEC2_ARB then "ivec2".toList
  else if type = GL_INT_VEC3_ARB then "ivec3".toList
  else if type = GL_INT_VEC4_ARB then "ivec4".toList
  else if type = GL_BOOL_ARB then "bool".toList
  else if type = GL_BOOL_VEC2_ARB then "bvec2".toList
  else if type = GL_BOOL_VEC3_ARB then "bvec3".toList
  else if type = GL_BOOL_VEC4_ARB then "bvec4".toList
  else if type = GL_FLOAT_MAT2_ARB then "mat2".toList
  else if type = GL_FLOAT_MAT3_ARB then "mat3".toList
  else if type = GL_FLOAT_MAT4_ARB then "mat4".toList
  else if type = GL_SAMPLER_1D_ARB then "sampler1D".toList
  else if type = GL_SAMPLER_2D_ARB then "sampler2D".toList
  else if type = GL_SAMPLER_3D_ARB then "sampler3D".toList
  else if type = GL_SAMPLER_CUBE_ARB then "samplerCUBE".toList
  else if type = GL_SAMPLER_2D_RECT_ARB then "samplerRECT".toList
  else if type = GL_SAMPLER_1D_SHADOW_ARB then "sampler1DShadow".toList
  else if type = GL_SAMPLER_2D_SHADOW_ARB then "sampler2DShadow".toList
  else if type = GL_SAMPLER_2D_RECT_SHADOW_ARB then "samplerRECTShadow".toList
  else []

/-- `GLSLEffect::getType`. -/
def getType (str : QString) : Nat :=
  if str = "float".toList then GL_FLOAT
  else if str = "vec2".toList then GL_FLOAT_VEC2_ARB
  else if str = "vec3".toList then GL_FLOAT_VEC3_ARB
  else if str = "vec4".toList then GL_FLOAT_VEC4_ARB
  else if str = "int".toList then GL_INT
  else if str = "ivec2".toList then GL_INT_VEC2_ARB
  else if str = "ivec3".toList then GL_INT_VEC3_ARB
  else if str = "ivec4".toList then GL_INT_VEC4_ARB
  else if str = "bool".toList then GL_BOOL
  else if str = "bvec2".toList then GL_BOOL_VEC2_ARB
  else if str = "bvec3".toList then GL_BOOL_VEC3_ARB
  else if str = "bvec4".toList then GL_BOOL_VEC4_ARB
  else if str = "mat2".toList then GL_FLOAT_MAT2_ARB
  else if str = "mat3".toList then GL_FLOAT_MAT3_ARB
  else if str = "mat4".toList then GL_FLOAT_MAT4_ARB
  else if str = "sampler1D".toList then GL_SAMPLER_1D_ARB
  else if str = "sampler2D".toList then GL_SAMPLER_2D_ARB
  else if str = "sampler3D".toList then GL_SAMPLER_3D_ARB
  else if str = "samplerCUBE".toList then GL_SAMPLER_CUBE_ARB
  else if str = "samplerRECT".toList then GL_SAMPLER_2D_RECT_ARB
  else if str = "sampler1DShadow".toList then GL_SAMPLER_1D_SHADOW_ARB
  else if str = "sampler2DShadow".toList then GL_SAMPLER_2D_SHADOW_ARB
  else if str = "samplerRECTShadow".toList then GL_SAMPLER_2D_RECT_SHADOW_ARB
  else GL_ZERO

/-- `GLSLEffect::getBaseType`. -/
def getBaseType (type : Nat) : Nat :=
  if type = GL_FLOAT ∨ type = GL_FLOAT_VEC2_ARB ∨ type = GL_FLOAT_VEC3_ARB ∨
      type = GL_FLOAT_VEC4_ARB ∨ type = GL_FLOAT_MAT2_ARB ∨ type = GL_FLOAT_MAT3_ARB ∨
      type = GL_FLOAT_MAT4_ARB then GL_FLOAT
  else if type = GL_INT ∨ type = GL_INT_VEC2_ARB ∨ type = GL_INT_VEC3_ARB ∨
      type = GL_INT_VEC4_ARB then GL_INT
  else if type = GL_BOOL_ARB ∨ type = GL_BOOL_VEC2_ARB ∨ type = GL_BOOL_VEC3_ARB ∨
      type = GL_BOOL_VEC4_ARB then GL_BOOL_ARB
  else type

/-- `GLSLEffect::getParameterAssignment`. -/
def getParameterAssignment (q : QLocale) (param : GLSLParameter) : QString :=
  let typeName := getTypeName param.glType
  let t := param.glType
  if t = GL_FLOAT ∨ t = GL_INT ∨ t = GL_BOOL_ARB then
    typeName ++ " ".toList ++ param.name ++ " = ".toList ++ param.value.toString q ++ ";\n".toList
  else if t = GL_FLOAT_VEC2_ARB ∨ t = GL_FLOAT_VEC3_ARB ∨ t = GL_FLOAT_VEC4_ARB ∨
      t = GL_INT_VEC2_ARB ∨ t = GL_INT_VEC3_ARB ∨ t = GL_INT_VEC4_ARB ∨
      t = GL_BOOL_VEC2_ARB ∨ t = GL_BOOL_VEC3_ARB ∨ t = GL_BOOL_VEC4_ARB ∨
      t = GL_FLOAT_MAT2_ARB ∨ t = GL_FLOAT_MAT3_ARB ∨ t = GL_FLOAT_MAT4_ARB then
    let list := param.value.toStringList q
    let value := QStringList.join ", ".toList list
    typeName ++ " ".toList ++ param.name ++ " = ".toList ++ typeName ++ "(".toList ++ value ++
      ");\n".toList
  else if t = GL_SAMPLER_1D_ARB ∨ t = GL_SAMPLER_2D_ARB ∨ t = GL_SAMPLER_3D_ARB ∨
      t = GL_SAMPLER_CUBE_ARB ∨ t = GL_SAMPLER_2D_RECT_ARB ∨ t = GL_SAMPLER_1D_SHADOW_ARB ∨
      t = GL_SAMPLER_2D_SHADOW_ARB ∨ t = GL_SAMPLER_2D_RECT_SHADOW_ARB then
    let tex := param.value.toTexture
    typeName ++ " ".toList ++ param.name ++ " = load(\"".toList ++ tex.name ++ "\");\n".toList
  else []

/-- The pattern `^\s*(\w+)\s+(\w+)\s*=(.*);\s*$` of `parseParameter` under
`QRegExp::exactMatch`: the three captured texts when the line matches. The
classes `\s` and `\w` are disjoint and hold neither `=` nor `;`, so the pattern
can match a line in one way only: each run is taken whole, and the `;` is the
last character before the trailing white space. -/
def paramRegExp (line : QString) : Option (QString × QString × QString) :=
  let s0 := line.dropWhile QChar.isSpace
  let w1 := s0.takeWhile QChar.isWord
  let s1 := s0.dropWhile QChar.isWord
  let sp := s1.takeWhile QChar.isSpace
  let s2 := s1.dropWhile QChar.isSpace
  let w2 := s2.takeWhile QChar.isWord
  let s3 := s2.dropWhile QChar.isWord
  if w1 = [] ∨ sp = [] ∨ w2 = [] then none
  else
    match s3.dropWhile QChar.isSpace with
    | '=' :: rest =>
      match rest.reverse.dropWhile QChar.isSpace with
      | ';' :: v => some (w1, w2, v.reverse)
      | _ => none
    | _ => none

/-- The pattern `^\s*load\("(.*)"\)\s*$` of `parseParameter` under
`QRegExp::exactMatch`: the captured path when the text matches. -/
def loadRegExp (s : QString) : Option QString :=
  let s0 := s.dropWhile QChar.isSpace
  if startsWith s0 "load(\"".toList then
    match (s0.drop 6).reverse.dropWhile QChar.isSpace with
    | ')' :: '"' :: path => some path.reverse
    | _ => none
  else none

/-- The conversion of the components in `parseParameter` (lines 1037-1051). -/
def parseComponent (q : QLocale) (baseType : Nat) (arg : QString) : QScalar :=
  if baseType = GL_FLOAT then .double (q.toDouble arg)
  else if baseType = GL_INT then .int (QString.toInt arg)
  else if baseType = GL_BOOL then .bool (QString.trimmed arg = "true".toList)
  else .string (QString.trimmed arg)

/-- `GLSLEffect::parseParameter`. -/
def parseParameter (q : QLocale) (line : QString) (e : GLSLEffect) : GLSLEffect :=
  if startsWith line "//".toList then e
  else
    match paramRegExp line with
    | none => e
    | some (tok1, tok2, tok3) =>
      let param := GLSLParameter.mk3 e.heap tok2 (getType tok1) (-1)
      let value := QString.trimmed tok3
      let append (p : GLSLParameter) : GLSLEffect :=
        { e with m_parameterArray := e.m_parameterArray ++ [p], heap := e.heap + 1 }
      if param.glType = GL_FLOAT then append (param.setValue (.double (q.toDouble value)))
      else if param.glType = GL_INT then append (param.setValue (.int (QString.toInt value)))
      else if param.glType = GL_BOOL then append (param.setValue (.bool (value = "true".toList)))
      else if startsWith value tok1 then
        let begin_ := QString.indexOf value '('
        let end_ := QString.indexOf value ')'
        let args := QString.split ',' (QString.mid value (begin_ + 1) (end_ - begin_ - 1))
        let baseType := getBaseType param.glType
        append (param.setValue (.list (args.map (parseComponent q baseType))))
      else if param.isTexture then
        match loadRegExp tok3 with
        | none => { e with heap := e.heap + 1 }
        | some path => append (param.setValue (.texture (GLTexture.open path)))
      else append param

/-- The results of the successive `QFile::readLine` calls on a file: every line
with its terminating newline, the last one possibly without. -/
def readLines : QByteArray → List QByteArray
  | [] => []
  | c :: cs =>
    if c = '\n' then [c] :: readLines cs
    else
      match readLines cs with
      | [] => [[c]]
      | l :: ls => (c :: l) :: ls

/-- The loop of `load` that is running: none of the inner ones (control is at the
head of the outer loop), or the one reading a section. -/
inductive Section where
  | none
  | vertex
  | fragment
  | parameters
deriving DecidableEq, Repr

/-- The three tests of the outer loop of `load` on the variable `line`. -/
def sectionOf (line : QByteArray) : Section :=
  if startsWith line s_vertexShaderTag then .vertex
  else if startsWith line s_fragmentShaderTag then .fragment
  else if startsWith line s_parametersTag then .parameters
  else .none

/-- The local state of `load` between two calls of `readLine`: the variable
`line`, the loop that is running and the effect. -/
structure LoadState where
  line : QByteArray
  inner : Section
  effect : GLSLEffect

/-- One step of the loops of `load` (lines 153-196): what happens from one call
of `readLine` to the next, `l` being the line that is read.

At the head of the outer loop a `line` that carries a tag starts the inner loop
of that section, which reads `l` at once; any other `line` is replaced by `l`.
An inner loop leaves a line that starts with `[` in `line` and gives control
back to the outer loop, and stores any other line. -/
def loadStep (q : QLocale) (st : LoadState) (l : QByteArray) : LoadState :=
  let running := match st.inner with
    | .none => sectionOf st.line
    | s => s
  match running with
  | .none => ⟨l, .none, st.effect⟩
  | .vertex =>
    if startsWith l ['['] then ⟨l, .none, st.effect⟩
    else ⟨l, .vertex,
      { st.effect with m_vertexShaderText := st.effect.m_vertexShaderText ++ l }⟩
  | .fragment =>
    if startsWith l ['['] then ⟨l, .none, st.effect⟩
    else ⟨l, .fragment,
      { st.effect with m_fragmentShaderText := st.effect.m_fragmentShaderText ++ l }⟩
  | .parameters =>
    if startsWith l ['['] then ⟨l, .none, st.effect⟩
    else ⟨l, .parameters, parseParameter q (QString.fromByteArray l) st.effect⟩

/-- The loops of `load` run over the lines still in the file; every loop ends
when `atEnd()` holds, that is when no line is left. -/
def loadLoop (q : QLocale) (st : LoadState) (lines : List QByteArray) : LoadState :=
  lines.foldl (loadStep q) st

/-- `GLSLEffect::load` on a file holding `file`. -/
def load (q : QLocale) (file : QByteArray) (e : GLSLEffect) : GLSLEffect :=
  (loadLoop q ⟨[], .none, { e with m_vertexShaderText := [], m_fragmentShaderText := [] }⟩
    (readLines file)).effect

/-- The loop of `save` over the parameters (lines 224-227): the bytes it writes. -/
def saveParameters (q : QLocale) (parameters : List GLSLParameter) : QByteArray :=
  (parameters.map fun p => QString.toLatin1 (getParameterAssignment q p)).flatten

/-- `GLSLEffect::save`: the bytes written to the file. -/
def save (q : QLocale) (e : GLSLEffect) : QByteArray :=
  s_vertexShaderTag ++ e.m_vertexShaderText ++
  (if !endsWithChar e.m_vertexShaderText '\n' then "\n".toList else []) ++
  s_fragmentShaderTag ++ e.m_fragmentShaderText ++
  (if !endsWithChar e.m_fragmentShaderText '\n' then "\n".toList else []) ++
  (if parameterCount e > 0 then s_parametersTag ++ saveParameters q e.m_parameterArray else [])

/-! ## Inputs used in examples -/

/-- A stand-in for Qt's number conversions where an example needs one: every
double is spelled `0` and every text reads as the double with bit pattern 0. -/
def exLocale : QLocale := ⟨fun _ => "0".toList, fun _ => ⟨0⟩⟩

/-- A linked program with the active uniforms `us`; the location of a uniform is
the length of its name and every uniform reads as zero. -/
def exProgram (us : List ActiveUniform) : Program :=
  { linkStatus := 1, infoLog := [], activeUniforms := us,
    uniformLocation := fun name => (name.length : Int),
    uniformfv := fun _ _ => ⟨0⟩, uniformiv := fun _ _ => 0 }

/-- A driver that hands out the handles 1, 2 and 3, rejects exactly the sources
that start with the directive `#error`, links every pair of shaders it compiled
to a program with the active uniforms `us`, and has 8 texture image units. -/
def exDriver (us : List ActiveUniform) : Driver :=
  { createVertexShader := 1, createFragmentShader := 2, createProgram := 3,
    compileVertex := fun src => ⟨if startsWith src "#error".toList then 0 else 1, []⟩,
    compileFragment := fun src => ⟨if startsWith src "#error".toList then 0 else 1, []⟩,
    link := fun _ _ => exProgram us,
    maxTextureImageUnits := 8 }

/-- `GLSLEffect::setInput`. -/
def setInput (i : Nat) (txt : QByteArray) (e : GLSLEffect) : GLSLEffect :=
  if i = 0 then { e with m_vertexShaderText := txt } else { e with m_fragmentShaderText := txt }

/-- The float parameter `brightness`, as a file line `float brightness = ...;` leaves it. -/
def exBrightness : GLSLParameter :=
  (GLSLParameter.mk3 0 "brightness".toList GL_FLOAT (-1)).setValue (.double ⟨7⟩)

/-- A new effect whose fragment source has been replaced by one that does not compile. -/
def exBrokenFragment : GLSLEffect :=
  setInput 1 "#error\n".toList GLSLEffect.ctor

/-- An effect holding one parameter whose fragment source does not compile. -/
def exBrokenWithParameter : GLSLEffect :=
  { exBrokenFragment with m_parameterArray := [exBrightness], heap := 1 }

/-- The uniform `uniform float time;`. -/
def exTime : ActiveUniform := ⟨"time".toList, 1, GL_FLOAT⟩

/-- The state after this history: a new effect is built with a driver whose
linked program has the active uniform `time`, then the fragment source is
replaced by one that does not compile. -/
def exAnimatedThenBroken : GLSLEffect :=
  setInput 1 "#error\n".toList (build (exDriver [exTime]) false GLSLEffect.ctor).effect

/-- The uniform `uniform float weight[3];`. -/
def exWeight : ActiveUniform := ⟨"weight".toList, 3, GL_FLOAT⟩

/-- A new effect after a successful build of a program with the active uniform
`weight`, an array of three floats. -/
def exWeights : GLSLEffect := (build (exDriver [exWeight]) false GLSLEffect.ctor).effect

/-- The effect of the format example: vertex text `A`, fragment text `B`. -/
def exAB : GLSLEffect :=
  setInput 1 "B".toList (setInput 0 "A".toList GLSLEffect.ctor)

/-! ## Notions used to state the properties of `initParameters` -/

/-- A user uniform: one that the loop of `initParameters` neither skips for its
`gl_` prefix nor takes for the time uniform. -/
def isUserUniform (u : ActiveUniform) : Bool :=
  !startsWith u.name "gl_".toList && !(QString.toLower u.name == "time".toList)

/-- The entry that the search of `initParameters` stops at: the first one that is
not `NULL` and has the name and the type asked for. -/
def firstOld (name : QString) (type : Nat) : List (Option GLSLParameter) → Option GLSLParameter
  | [] => none
  | none :: rest => firstOld name type rest
  | some param :: rest =>
    if param.name = name ∧ param.glType = type then some param else firstOld name type rest

/-- The state in which `initParameters` starts its loop over the active uniforms. -/
def initState (e : GLSLEffect) : InitState :=
  { old := e.m_parameterArray.map some, newParameterArray := [], m_timeUniform := -1,
    heap := e.heap }

/-- The name `name[i]` given to element `i` of an array uniform. -/
def elementName (name : QString) (i : Nat) : QString :=
  name ++ "[".toList ++ QString.number (i : Int) ++ "]".toList

/-- How the loop of `initParameters` can have come to a parameter `p` of the new
array for the uniform `u`: it took an entry of the old array with the name and
the type of `u` and gave it the location of `u`, or it made `p` on the heap
(object number `heap` or above) under the name of `u` or of one of its elements. -/
def Origin (prog : Program) (old : List (Option GLSLParameter)) (heap : Nat) (u : ActiveUniform)
    (p : GLSLParameter) : Prop :=
  (∃ o, some o ∈ old ∧ o.name = u.name ∧ o.glType = u.type ∧
    p = o.setLocation (prog.uniformLocation u.name)) ∨
  (heap ≤ p.obj ∧ (p.name = u.name ∨ ∃ i : Nat, p.name = elementName u.name i))

/-- The uniform `uniform float brightness;`. -/
def exBrightnessUniform : ActiveUniform := ⟨"brightness".toList, 1, GL_FLOAT⟩

/-- A new effect that holds the parameter `brightness` read from a file. -/
def exWithBrightness : GLSLEffect :=
  { GLSLEffect.ctor with m_parameterArray := [exBrightness], heap := 1 }

/-- The uniform `uniform vec3 brightness;`. -/
def exBrightnessVec3 : ActiveUniform := ⟨"brightness".toList, 1, GL_FLOAT_VEC3_ARB⟩

/-- The float parameter `weight`, as a file line `float weight = ...;` leaves it. -/
def exWeightParameter : GLSLParameter :=
  (GLSLParameter.mk3 0 "weight".toList GL_FLOAT (-1)).setValue (.double ⟨1⟩)

/-- A new effect that holds the parameter `weight` read from a file. -/
def exWithWeight : GLSLEffect :=
  { GLSLEffect.ctor with m_parameterArray := [exWeightParameter], heap := 1 }

/-- What the loop of `initParameters` guarantees of the parameter `p` it puts in
the new array for the uniform `u` when it does not expand an array: the name,
the type and the location of `u`. -/
def Matches (prog : Program) (u : ActiveUniform) (p : GLSLParameter) : Prop :=
  p.name = u.name ∧ p.glType = u.type ∧ p.location = prog.uniformLocation u.name

/-- The effect after the first lines of `build` (276-285): the handles of the
previous build are gone and the three new ones are in place. -/
def withHandles (gl : Driver) (e : GLSLEffect) : GLSLEffect :=
  { e with m_vertexShader := gl.createVertexShader,
           m_fragmentShader := gl.createFragmentShader,
           m_program := gl.createProgram }

/-- The uniform `uniform float k;`. -/
def exK : ActiveUniform := ⟨"k".toList, 1, GL_FLOAT⟩

/-- The uniform `uniform sampler2D tex;`. -/
def exTex : ActiveUniform := ⟨"tex".toList, 1, GL_SAMPLER_2D_ARB⟩

/-- A new effect that holds two parameters read from a file, one named `gl_Color`
and one named `Time`. -/
def exWithReservedNames : GLSLEffect :=
  { GLSLEffect.ctor with
    m_parameterArray :=
      [(GLSLParameter.mk3 0 "gl_Color".toList GL_FLOAT_VEC4_ARB (-1)).setValue (.list []),
       (GLSLParameter.mk3 1 "Time".toList GL_FLOAT (-1)).setValue (.double ⟨1⟩)],
    heap := 2 }

/-- The error that `initParameters` reports for a texture parameter `name` when
no texture unit is left (line 555). -/
def textureLimitError (name : QString) : Call :=
  Call.outputError ("Texture unit limit hit, ignoring parameter '".toList ++ name ++ "'".toList)

/-- The uniform `uniform sampler2D tex2;`. -/
def exTex2 : ActiveUniform := ⟨"tex2".toList, 1, GL_SAMPLER_2D_ARB⟩

/-- The driver `exDriver us` on hardware with a single texture image unit. -/
def exDriverOneUnit (us : List ActiveUniform) : Driver :=
  { exDriver us with maxTextureImageUnits := 1 }

/-! ## Rendering -/

def GL_CULL_FACE : Nat := 0x0B44
def GL_DEPTH_TEST : Nat := 0x0B71
def GL_LEQUAL : Nat := 0x0203
def GL_TEXTURE0_ARB : Int := 0x84C0

/-- The cases of `setParameter` that assert a list of `n` elements
(`Q_ASSERT(param->value().canConvert(QVariant::List))`, then
`Q_ASSERT(list.count() == n)`) and pass the converted elements to one
`glUniform` call; `none` when an assertion fails. -/
def setVector (call : List UniformArg → Call) (conv : Source → UniformArg) (n : Nat)
    (value : QVariant) : Option (List Call) :=
  match value with
  | .list l => if l.length = n then some [call (l.map fun s => conv (.element s))] else none
  | _ => none

/-- The cases `GL_FLOAT_VEC3_ARB` and `GL_FLOAT_VEC4_ARB` of `setParameter`,
which test `param->type() == QVariant::List` before they assert the length. A
value that is no list makes no call (the branch for a `QColor`, a value that
only the parameter panel stores, is outside the values modelled here). -/
def setVectorOrColor (location : Int) (n : Nat) (value : QVariant) : Option (List Call) :=
  match value with
  | .list l =>
    if l.length = n then
      some [Call.glUniformf location (l.map fun s => UniformArg.toFloat (.element s))]
    else none
  | _ => some []

/-- `GLSLEffect::setParameter`: the calls it makes, `none` when a `Q_ASSERT` fails. -/
def setParameter (param : GLSLParameter) : Option (List Call) :=
  let t := param.glType
  if t = GL_FLOAT then
    some [Call.glUniformf param.location [UniformArg.toFloat (.variant param.value)]]
  else if t = GL_FLOAT_VEC2_ARB then
    setVector (Call.glUniformf param.location) UniformArg.toFloat 2 param.value
  else if t = GL_FLOAT_VEC3_ARB then setVectorOrColor param.location 3 param.value
  else if t = GL_FLOAT_VEC4_ARB then setVectorOrColor param.location 4 param.value
  else if t = GL_INT then
    some [Call.glUniformi param.location [UniformArg.toInt (.variant param.value)]]
  else if t = GL_INT_VEC2_ARB then
    setVector (Call.glUniformi param.location) UniformArg.toInt 2 param.value
  else if t = GL_INT_VEC3_ARB then
    setVector (Call.glUniformi param.location) UniformArg.toInt 3 param.value
  else if t = GL_INT_VEC4_ARB then
    setVector (Call.glUniformi param.location) UniformArg.toInt 4 param.value
  else if t = GL_BOOL_ARB then
    some [Call.glUniformi param.location [UniformArg.toBool (.variant param.value)]]
  else if t = GL_BOOL_VEC2_ARB then
    setVector (Call.glUniformi param.location) UniformArg.toBool 2 param.value
  else if t = GL_BOOL_VEC3_ARB then
    setVector (Call.glUniformi param.location) UniformArg.toBool 3 param.value
  else if t = GL_BOOL_VEC4_ARB then
    setVector (Call.glUniformi param.location) UniformArg.toBool 4 param.value
  else if t = GL_SAMPLER_1D_ARB ∨ t = GL_SAMPLER_2D_ARB ∨ t = GL_SAMPLER_3D_ARB ∨
      t = GL_SAMPLER_CUBE_ARB ∨ t = GL_SAMPLER_2D_RECT_ARB then
    let tex := param.value.toTexture
    some [Call.glUniformi param.location [UniformArg.unit param.texUnit],
          Call.glActiveTexture (GL_TEXTURE0_ARB + param.texUnit),
          Call.glBindTexture tex]
  else some []

/-- The loop of `setParameters` over the parameters. -/
def setUserParameters : List GLSLParameter → Option (List Call)
  | [] => some []
  | p :: rest =>
    match setParameter p, setUserParameters rest with
    | some c, some cs => some (c ++ cs)
    | _, _ => none

/-- `GLSLEffect::setParameters`; `elapsed` is what `m_time.elapsed()` returns. -/
def setParameters (elapsed : Int) (e : GLSLEffect) : Option (List Call) :=
  (setUserParameters e.m_parameterArray).map fun cs =>
    cs ++ (if e.m_timeUniform != -1 then
      [Call.glUniformf e.m_timeUniform [UniformArg.seconds elapsed]] else [])

/-- `GLSLEffect::begin`: the calls it makes, `none` when a `Q_ASSERT` fails. -/
def begin (elapsed : Int) (e : GLSLEffect) : Option (List Call) :=
  if e.m_program = 0 then none
  else
    (setParameters elapsed e).map fun cs =>
      [Call.glEnable GL_CULL_FACE, Call.glEnable GL_DEPTH_TEST, Call.glDepthFunc GL_LEQUAL,
       Call.glUseProgramObject e.m_program] ++ cs

/-- A new effect after a successful build, on hardware with one texture image
unit, of a program with the samplers `tex` and `tex2`. -/
def exTwoTextures : GLSLEffect :=
  (build (exDriverOneUnit [exTex, exTex2]) true GLSLEffect.ctor).effect

/-! ## Notions used to state the properties of the file format -/

/-- The types that `getParameterAssignment` writes as a bare value. -/
def isScalarType (t : Nat) : Prop := t = GL_FLOAT ∨ t = GL_INT ∨ t = GL_BOOL_ARB

/-- The vector and matrix types. -/
def isVectorType (t : Nat) : Prop :=
  t = GL_FLOAT_VEC2_ARB ∨ t = GL_FLOAT_VEC3_ARB ∨ t = GL_FLOAT_VEC4_ARB ∨
  t = GL_INT_VEC2_ARB ∨ t = GL_INT_VEC3_ARB ∨ t = GL_INT_VEC4_ARB ∨
  t = GL_BOOL_VEC2_ARB ∨ t = GL_BOOL_VEC3_ARB ∨ t = GL_BOOL_VEC4_ARB ∨
  t = GL_FLOAT_MAT2_ARB ∨ t = GL_FLOAT_MAT3_ARB ∨ t = GL_FLOAT_MAT4_ARB

/-- The sampler types, shadow samplers included. -/
def isSamplerType (t : Nat) : Prop :=
  t = GL_SAMPLER_1D_ARB ∨ t = GL_SAMPLER_2D_ARB ∨ t = GL_SAMPLER_3D_ARB ∨
  t = GL_SAMPLER_CUBE_ARB ∨ t = GL_SAMPLER_2D_RECT_ARB ∨ t = GL_SAMPLER_1D_SHADOW_ARB ∨
  t = GL_SAMPLER_2D_SHADOW_ARB ∨ t = GL_SAMPLER_2D_RECT_SHADOW_ARB

instance (t : Nat) : Decidable (isScalarType t) := by unfold isScalarType; infer_instance
instance (t : Nat) : Decidable (isVectorType t) := by unfold isVectorType; infer_instance
instance (t : Nat) : Decidable (isSamplerType t) := by unfold isSamplerType; infer_instance

/-- The text that `getParameterAssignment` puts for the value of a parameter:
the value itself, the components between the type name and brackets, or the
path of the texture inside `load("...")`. -/
def valueLiteral (q : QLocale) (param : GLSLParameter) : QString :=
  if isScalarType param.glType then param.value.toString q
  else if isVectorType param.glType then
    getTypeName param.glType ++ "(".toList ++
      QStringList.join ", ".toList (param.value.toStringList q) ++ ")".toList
  else "load(\"".toList ++ param.value.toTexture.name ++ "\")".toList

/-- The double 1.0. -/
def exOne : QDouble := ⟨0x3FF0000000000000⟩

/-- A stand-in for Qt's number conversions that spells every double `1`. -/
def exLocaleOne : QLocale := ⟨fun _ => "1".toList, fun _ => exOne⟩

/-- The effect of the format example: vertex text `A`, fragment text `B` and the
float parameter `k` with the value 1. -/
def exABk : GLSLEffect :=
  { exAB with
    m_parameterArray := [(GLSLParameter.mk3 0 "k".toList GL_FLOAT 0).setValue (.double exOne)],
    heap := 1 }

/-- The ivec3 parameter `v` with the value (1, -2, 3). -/
def exIVec3 : GLSLParameter :=
  (GLSLParameter.mk3 0 "v".toList GL_INT_VEC3_ARB 0).setValue
    (.list [.int 1, .int (-2), .int 3])

/-! ## The forms of a parameter line -/

/-- The text `line` is made of the white space `ws0`, the word `type`, the
white space `ws1`, the word `name`, the white space `ws2`, the sign `=`, the
text `value`, a semicolon and the white space `ws3`; the two words and `ws1`
are not empty. -/
def LineForm (ws0 type ws1 name ws2 value ws3 line : QString) : Prop :=
  line = ws0 ++ type ++ ws1 ++ name ++ ws2 ++ "=".toList ++ value ++ ";".toList ++ ws3 ∧
  (∀ c ∈ ws0, QChar.isSpace c = true) ∧
  type ≠ [] ∧ (∀ c ∈ type, QChar.isWord c = true) ∧
  ws1 ≠ [] ∧ (∀ c ∈ ws1, QChar.isSpace c = true) ∧
  name ≠ [] ∧ (∀ c ∈ name, QChar.isWord c = true) ∧
  (∀ c ∈ ws2, QChar.isSpace c = true) ∧
  (∀ c ∈ ws3, QChar.isSpace c = true)

/-- A parameter line `type name = value;`, white space allowed before the type,
around the name and after the semicolon. -/
def IsParameterLine (line type name value : QString) : Prop :=
  ∃ ws0 ws1 ws2 ws3, LineForm ws0 type ws1 name ws2 value ws3 line

/-- The form `type name = value;` that starts with the type: a word, white
space, a word, optional white space, `=`, any text, `;` and optional trailing
white space. -/
def HasStatedForm (line : QString) : Prop :=
  ∃ type ws1 name ws2 value ws3, LineForm [] type ws1 name ws2 value ws3 line

/-- The form `type name = value;` with optional white space before the type. -/
def HasForm (line : QString) : Prop :=
  ∃ type name value, IsParameterLine line type name value

/-- The text `s` is `load("path")`, white space allowed before and after. -/
def IsLoad (s path : QString) : Prop :=
  ∃ ws1 ws2, s = ws1 ++ "load(\"".toList ++ path ++ "\")".toList ++ ws2 ∧
    (∀ c ∈ ws1, QChar.isSpace c = true) ∧ (∀ c ∈ ws2, QChar.isSpace c = true)

/-- The names of the types for which `isTexture()` holds. -/
def textureTypeNames : List QString :=
  ["sampler1D".toList, "sampler2D".toList, "sampler3D".toList, "samplerCUBE".toList,
   "samplerRECT".toList]

/-- The text is `load("path")` for some path. -/
def HasLoadForm (s : QString) : Prop := ∃ path, IsLoad s path

/-- The state of `load` is inside the loop that reads the `[Parameters]`
section, or at the head of the outer loop with the tag of that section in
`line`. -/
def LoadState.readsParameters (st : LoadState) : Prop :=
  st.inner = .parameters ∨ (st.inner = .none ∧ sectionOf st.line = .parameters)

/-- A parameter line with white space before the type. -/
def exIndented : QString := " float k = 1;\n".toList

/-- A line that is not an assignment. -/
def exMalformed : QString := "float k 1\n".toList

/-- A comment line. -/
def exComment : QString := "// float k = 1;\n".toList

/-- A shadow sampler line whose value is a number. -/
def exShadowLine : QString := "sampler2DShadow s = 5;\n".toList

/-- A texture line whose value is a number. -/
def exTextureNumberLine : QString := "sampler2D tex = 5;\n".toList

/-- A texture line that loads an image. -/
def exTextureLine : QString := "sampler2D tex = load(\"a.png\");\n".toList

/-! ## The life of the handles -/

/-- The destructor `GLSLEffect::~GLSLEffect`: the calls it makes on the driver
(it then frees the output parser and the parameters). -/
def GLSLEffect.dtor (e : GLSLEffect) : List Call := (deleteProgram e).2

/-- A sequence of `build()` calls on an effect, each with the driver it meets and
with or without a message panel: the effect it leaves and all the calls made. -/
def runBuilds : GLSLEffect → List (Driver × Bool) → GLSLEffect × List Call
  | e, [] => (e, [])
  | e, b :: rest =>
    let r := build b.1 b.2 e
    let s := runBuilds r.effect rest
    (s.1, r.calls ++ s.2)

/-- The calls of the whole life of an effect: construction, the builds `bs`
and destruction. -/
def lifetime (bs : List (Driver × Bool)) : List Call :=
  (runBuilds GLSLEffect.ctor bs).2 ++ (runBuilds GLSLEffect.ctor bs).1.dtor

/-- The objects of the driver that are alive, one place for the program and one
for each stage; `0` says that there is none. -/
structure Live where
  program : Nat
  vertex : Nat
  fragment : Nat
deriving DecidableEq, Repr

/-- No object is alive. -/
def Live.empty : Live := ⟨0, 0, 0⟩

/-- The handles an effect holds. -/
def Live.of (e : GLSLEffect) : Live := ⟨e.m_program, e.m_vertexShader, e.m_fragmentShader⟩

/-- The handle is that of an object that is alive. -/
def Live.holds (s : Live) (h : Nat) : Bool :=
  h != 0 && (s.program == h || s.vertex == h || s.fragment == h)

/-- What a call does to the objects that are alive, and `none` when the call
breaks the discipline of the handles: it creates an object of a kind of which
one is alive, or the handle it receives is that of an object that is alive, or
it deletes a handle that is not alive. A `glCreate` call that returns `0` has
made no object. -/
def Live.step (s : Live) : Call → Option Live
  | .glCreateShaderObject type h =>
    if s.holds h then none
    else if type = GL_VERTEX_SHADER_ARB then
      if s.vertex = 0 then some { s with vertex := h } else none
    else if type = GL_FRAGMENT_SHADER_ARB then
      if s.fragment = 0 then some { s with fragment := h } else none
    else none
  | .glCreateProgramObject h =>
    if s.holds h then none
    else if s.program = 0 then some { s with program := h } else none
  | .glDeleteObject h =>
    if h = 0 then none
    else if s.program = h then some { s with program := 0 }
    else if s.vertex = h then some { s with vertex := 0 }
    else if s.fragment = h then some { s with fragment := 0 }
    else none
  | _ => some s

/-- The objects alive after a list of calls, `none` when one of the calls breaks
the discipline. -/
def Live.run (s : Live) : List Call → Option Live
  | [] => some s
  | c :: cs => (s.step c).bind fun s1 => Live.run s1 cs

/-- The calls that create an object. -/
def Call.isCreate : Call → Bool
  | .glCreateShaderObject _ _ => true
  | .glCreateProgramObject _ => true
  | _ => false

/-- The calls that create or delete an object. -/
def Call.isLife : Call → Bool
  | .glCreateShaderObject _ _ => true
  | .glCreateProgramObject _ => true
  | .glDeleteObject _ => true
  | _ => false

/-- The driver never hands out the handle of an object that is alive: the
handles that one `build` receives differ from each other, except for `0`, which
reports that nothing was created. -/
def Driver.Fresh (gl : Driver) : Prop :=
  (gl.createFragmentShader ≠ 0 → gl.createFragmentShader ≠ gl.createVertexShader) ∧
  (gl.createProgram ≠ 0 →
    gl.createProgram ≠ gl.createVertexShader ∧ gl.createProgram ≠ gl.createFragmentShader)

instance (gl : Driver) : Decidable gl.Fresh := by unfold Driver.Fresh; infer_instance

/-- A driver that hands out the handles 4, 5 and 6, compiles every source and
links no program. -/
def exDriverNoLink : Driver :=
  { createVertexShader := 4, createFragmentShader := 5, createProgram := 6,
    compileVertex := fun _ => ⟨1, []⟩,
    compileFragment := fun _ => ⟨1, []⟩,
    link := fun _ _ => { exProgram [] with linkStatus := 0 },
    maxTextureImageUnits := 8 }

/-- Three builds: one that succeeds, one whose link fails and one that succeeds
and receives the handles of the first again. -/
def exBuilds : List (Driver × Bool) :=
  [(exDriver [exK], true), (exDriverNoLink, false), (exDriver [exK], true)]

/-! ## The table of the types -/

/-- The 23 types that `getTypeName` lists, in the order of its cases. -/
def uniformTypes : List Nat :=
  [GL_FLOAT, GL_FLOAT_VEC2_ARB, GL_FLOAT_VEC3_ARB, GL_FLOAT_VEC4_ARB, GL_INT, GL_INT_VEC2_ARB,
   GL_INT_VEC3_ARB, GL_INT_VEC4_ARB, GL_BOOL_ARB, GL_BOOL_VEC2_ARB, GL_BOOL_VEC3_ARB,
   GL_BOOL_VEC4_ARB, GL_FLOAT_MAT2_ARB, GL_FLOAT_MAT3_ARB, GL_FLOAT_MAT4_ARB,
   GL_SAMPLER_1D_ARB, GL_SAMPLER_2D_ARB, GL_SAMPLER_3D_ARB, GL_SAMPLER_CUBE_ARB,
   GL_SAMPLER_2D_RECT_ARB, GL_SAMPLER_1D_SHADOW_ARB, GL_SAMPLER_2D_SHADOW_ARB,
   GL_SAMPLER_2D_RECT_SHADOW_ARB]

/-- The 23 names that `getType` lists, in the order of its tests. -/
def typeNames : List QString :=
  ["float".toList, "vec2".toList, "vec3".toList, "vec4".toList, "int".toList, "ivec2".toList,
   "ivec3".toList, "ivec4".toList, "bool".toList, "bvec2".toList, "bvec3".toList,
   "bvec4".toList, "mat2".toList, "mat3".toList, "mat4".toList, "sampler1D".toList,
   "sampler2D".toList, "sampler3D".toList, "samplerCUBE".toList, "samplerRECT".toList,
   "sampler1DShadow".toList, "sampler2DShadow".toList, "samplerRECTShadow".toList]

/-! ## Notions used to state what `parseParameter` reads -/

/-- A text that `QString::toInt` reads as a number: decimal digits, at least one,
after an optional sign and between optional white space. -/
def IsIntegerText (s : QString) : Prop :=
  ∃ sign digits, QString.trimmed s = sign ++ digits ∧
    (sign = [] ∨ sign = ['-'] ∨ sign = ['+']) ∧ digits ≠ [] ∧ ∀ c ∈ digits, c.isDigit = true

/-- The value that `parseParameter` gives to a parameter whose type is none of
`float`, `int` and `bool` and for which `isTexture()` is false: the list of the
components when the trimmed text starts with the type word (lines 1029-1053),
no value otherwise (line 1068). -/
def parsedComponents (q : QLocale) (type value : QString) : QVariant :=
  if startsWith (QString.trimmed value) type then
    .list ((QString.split ','
      (QString.mid (QString.trimmed value) (QString.indexOf (QString.trimmed value) '(' + 1)
        (QString.indexOf (QString.trimmed value) ')' -
          QString.indexOf (QString.trimmed value) '(' - 1))).map
      (parseComponent q (getBaseType (getType type))))
  else .invalid

/-- A line whose type word is not a type name. -/
def exUnknownTypeLine : QString := "double d = 1.5;\n".toList

/-- An `int` line whose value is not a number. -/
def exIntWordLine : QString := "int n = many;\n".toList

/-- The names of the vector and matrix types. -/
def vectorTypeNames : List QString :=
  ["vec2".toList, "vec3".toList, "vec4".toList, "ivec2".toList, "ivec3".toList, "ivec4".toList,
   "bvec2".toList, "bvec3".toList, "bvec4".toList, "mat2".toList, "mat3".toList, "mat4".toList]

/-- The text `type(a1,...,ak)`: the type word, an opening bracket, the texts of
`args` with a comma between two of them, and a closing bracket. -/
def constructorText (type : QString) (args : List QString) : QString :=
  type ++ "(".toList ++ QStringList.join ",".toList args ++ ")".toList

/-- A line that gives an `ivec3` its three components. -/
def exIVec3Line : QString := "ivec3 v = ivec3(1, -2, x);\n".toList

/-! ## Notions used to state the round trip of the sources -/

/-- The bytes that `save` writes before the `[Parameters]` section (lines
205-218): the two shader sections. -/
def saveShaders (e : GLSLEffect) : QByteArray :=
  s_vertexShaderTag ++ e.m_vertexShaderText ++
  (if !endsWithChar e.m_vertexShaderText '\n' then "\n".toList else []) ++
  s_fragmentShaderTag ++ e.m_fragmentShaderText ++
  (if !endsWithChar e.m_fragmentShaderText '\n' then "\n".toList else [])

/-- A source text as `save` writes it: with a newline at its end. -/
def withNewline (text : QByteArray) : QByteArray :=
  if endsWithChar text '\n' then text else text ++ "\n".toList

/-- An effect with the sources `A` and `B`, each on a line of its own, and a
texture parameter whose image file has a name of three lines, the second being
`[VertexShader]`. -/
def exTexturePathLines : GLSLEffect :=
  { setInput 1 "B\n".toList (setInput 0 "A\n".toList GLSLEffect.ctor) with
    m_parameterArray :=
      [(GLSLParameter.mk3 0 "tex".toList GL_SAMPLER_2D_ARB 0).setValue
        (.texture (GLTexture.open "a\n[VertexShader]\nX".toList))],
    heap := 1 }

/-! ## Notions used to state what `begin` writes -/

/-- The vector types that are not matrices. -/
def isPlainVectorType (t : Nat) : Prop :=
  t = GL_FLOAT_VEC2_ARB ∨ t = GL_FLOAT_VEC3_ARB ∨ t = GL_FLOAT_VEC4_ARB ∨
  t = GL_INT_VEC2_ARB ∨ t = GL_INT_VEC3_ARB ∨ t = GL_INT_VEC4_ARB ∨
  t = GL_BOOL_VEC2_ARB ∨ t = GL_BOOL_VEC3_ARB ∨ t = GL_BOOL_VEC4_ARB

/-- The matrix types. -/
def isMatrixType (t : Nat) : Prop :=
  t = GL_FLOAT_MAT2_ARB ∨ t = GL_FLOAT_MAT3_ARB ∨ t = GL_FLOAT_MAT4_ARB

/-- The shadow sampler types. -/
def isShadowSamplerType (t : Nat) : Prop :=
  t = GL_SAMPLER_1D_SHADOW_ARB ∨ t = GL_SAMPLER_2D_SHADOW_ARB ∨
  t = GL_SAMPLER_2D_RECT_SHADOW_ARB

instance (t : Nat) : Decidable (isPlainVectorType t) := by
  unfold isPlainVectorType; infer_instance
instance (t : Nat) : Decidable (isMatrixType t) := by unfold isMatrixType; infer_instance
instance (t : Nat) : Decidable (isShadowSamplerType t) := by
  unfold isShadowSamplerType; infer_instance

/-- The number of components of a scalar or vector type (0 for the other types). -/
def componentCount (t : Nat) : Nat :=
  if t = GL_FLOAT ∨ t = GL_INT ∨ t = GL_BOOL_ARB then 1
  else if t = GL_FLOAT_VEC2_ARB ∨ t = GL_INT_VEC2_ARB ∨ t = GL_BOOL_VEC2_ARB then 2
  else if t = GL_FLOAT_VEC3_ARB ∨ t = GL_INT_VEC3_ARB ∨ t = GL_BOOL_VEC3_ARB then 3
  else if t = GL_FLOAT_VEC4_ARB ∨ t = GL_INT_VEC4_ARB ∨ t = GL_BOOL_VEC4_ARB then 4
  else 0

/-- The one uniform write that suits the declared type of a parameter: at the
location of the parameter, of as many components as there are `sources`, each
converted to a float when the base type is float, to an int when it is int and
to a bool, passed as an int, when it is bool. -/
def uniformWrite (p : GLSLParameter) (sources : List Source) : Call :=
  if getBaseType p.glType = GL_FLOAT then
    Call.glUniformf p.location (sources.map UniformArg.toFloat)
  else if getBaseType p.glType = GL_INT then
    Call.glUniformi p.location (sources.map UniformArg.toInt)
  else Call.glUniformi p.location (sources.map UniformArg.toBool)

/-- The value of a vector parameter has the shape that `setParameter` asserts: a
list with as many elements as the type has components. -/
def HasVectorValue (p : GLSLParameter) : Prop :=
  ∃ l, p.value = .list l ∧ l.length = componentCount p.glType

instance (p : GLSLParameter) : Decidable (HasVectorValue p) :=
  match h : p.value with
  | .list l =>
    if hl : l.length = componentCount p.glType then isTrue ⟨l, h, hl⟩
    else isFalse fun ⟨l1, h1, hl1⟩ => by
      rw [h] at h1
      cases h1
      exact hl hl1
  | .invalid => isFalse fun ⟨l1, h1, _⟩ => by rw [h] at h1; cases h1
  | .double _ => isFalse fun ⟨l1, h1, _⟩ => by rw [h] at h1; cases h1
  | .int _ => isFalse fun ⟨l1, h1, _⟩ => by rw [h] at h1; cases h1
  | .bool _ => isFalse fun ⟨l1, h1, _⟩ => by rw [h] at h1; cases h1
  | .texture _ => isFalse fun ⟨l1, h1, _⟩ => by rw [h] at h1; cases h1

/-- What `begin` does for one parameter `p` when it makes the calls `cs`. -/
def WritesParameter (p : GLSLParameter) (cs : List Call) : Prop :=
  (isScalarType p.glType → cs = [uniformWrite p [.variant p.value]]) ∧
  (isPlainVectorType p.glType →
    ∃ l, p.value = .list l ∧ l.length = componentCount p.glType ∧
      cs = [uniformWrite p (l.map Source.element)]) ∧
  (isMatrixType p.glType ∨ isShadowSamplerType p.glType → cs = []) ∧
  (p.isTexture = true →
    cs = [Call.glUniformi p.location [UniformArg.unit p.texUnit],
          Call.glActiveTexture (GL_TEXTURE0_ARB + p.texUnit),
          Call.glBindTexture p.value.toTexture]) ∧
  (p.glType ∉ uniformTypes → cs = [])

/-- The uniform `uniform vec3 v;`. -/
def exV3 : ActiveUniform := ⟨"v".toList, 1, GL_FLOAT_VEC3_ARB⟩

/-- The state after this history: a file whose `[Parameters]` section has the
line `vec3 v = 1;` is loaded into a new effect, and the effect is built with a
driver whose linked program has the active uniform `v`, a `vec3`. -/
def exVec3NoList : GLSLEffect :=
  (build (exDriver [exV3]) true
    (load exLocale "[Parameters]\nvec3 v = 1;\n".toList GLSLEffect.ctor)).effect

/-- The state after a build of a new effect with a driver whose linked program
has the active uniforms `k`, `v`, `tex` and `time`. -/
def exRendered : GLSLEffect :=
  (build (exDriver [exK, exV3, exTex, exTime]) true GLSLEffect.ctor).effect

/-! ## The factories and the application (`qshaderedit.cpp`) -/

/-- Modelled from the spec: `EffectFactory` of `effect.h`, which is not among the
sources, as far as `qshaderedit.cpp` reads it: the answer of `isSupported()`
in the current graphics context ("pure capability probe"), `name()` and
`extension()` ("stable identity strings"). -/
structure EffectFactory where
  isSupported : Bool
  name : QString
  extension : QString
deriving DecidableEq, Repr

/-- Modelled from the spec: `EffectFactory::factoryForExtension` of `effect.cpp`,
which is not among the sources. The spec says of the registry: "lookup is by
exact name or by case-sensitive file extension"; the result is `NULL` when no
factory of the registry claims the extension. -/
def EffectFactory.factoryForExtension (factoryList : List EffectFactory) (ext : QString) :
    Option EffectFactory :=
  factoryList.find? fun factory => factory.extension == ext

/-- `GLSLEffectFactory::createEffect`: `none` when `Q_ASSERT(isSupported())` fails. -/
def EffectFactory.createEffect (factory : EffectFactory) : Option GLSLEffect :=
  if factory.isSupported then some GLSLEffect.ctor else none

/-- `QString::lastIndexOf(QChar)`, `-1` when the character does not occur. -/
def QString.lastIndexOf (s : QString) (c : Char) : Int :=
  match s.reverse.indexOf? c with
  | some i => (s.length : Int) - 1 - i
  | none => -1

/-- `QShaderEdit::newFile`: the factory it hands to `newEffect`, which calls
`createEffect()` on it; `none` when it does not call `newEffect`. `dialog` is
the selection made in the `NewDialog`, `none` when the dialog is rejected. -/
def QShaderEdit.newFile (effectFactoryList : List EffectFactory) (dialog : Option QString) :
    Option EffectFactory :=
  let count := (effectFactoryList.filter fun ef => ef.isSupported).length
  if count = 0 then none
  else if count = 1 then effectFactoryList.find? fun ef => ef.isSupported
  else
    match dialog with
    | some selection => effectFactoryList.find? fun ef => ef.isSupported && ef.name == selection
    | none => none

/-- `QShaderEdit::load`: the factory on which it calls `createEffect()`, `none`
when it makes no such call. -/
def QShaderEdit.load (factoryList : List EffectFactory) (fileName : QString) :
    Option EffectFactory :=
  let idx := QString.lastIndexOf fileName '.'
  let fileExtension := QString.mid fileName (idx + 1) (-1)
  EffectFactory.factoryForExtension factoryList fileExtension

/-- The factory of the GLSL effects in a graphics context without the shader
extensions. -/
def exGLSLFactoryUnsupported : EffectFactory :=
  ⟨false, "GLSL Shader".toList, "glsl".toList⟩

/-! ## Notions used to state the order of the new parameter list -/

/-- The parameters that one turn of the loop of `initParameters` puts in the new
array for the user uniform `u`: the entry of the old array that has the name
and the type of `u`, with the location of `u`; or, when the search finds none,
the parameters that `addParameters` makes on the heap. -/
def Block (prog : Program) (old : List (Option GLSLParameter)) (heap : Nat) (u : ActiveUniform)
    (b : List GLSLParameter) : Prop :=
  (∃ o, some o ∈ old ∧ o.name = u.name ∧ o.glType = u.type ∧
    b = [o.setLocation (prog.uniformLocation u.name)]) ∨
  (∃ h, heap ≤ h ∧
    b = addParameters prog h u.name u.size u.type (prog.uniformLocation u.name))

/-- The parameter `p1` is `p` but for its texture unit. -/
def SameButUnit (p p1 : GLSLParameter) : Prop := ∃ k, p1 = { p with texUnit := k }

/-- The parameters that a successful build leaves in the list for the user
uniform `u`: those of the loop over the uniforms, with the texture units that
the loop over the parameters hands out. -/
def BuiltBlock (prog : Program) (old : List (Option GLSLParameter)) (heap : Nat)
    (u : ActiveUniform) (b : List GLSLParameter) : Prop :=
  ∃ b0, Block prog old heap u b0 ∧ List.Forall₂ SameButUnit b0 b

/-- The parameter `p` is the parameter `o` of the previous list: the same
object with its name, type and value, at a location and with a texture unit
that may be new. -/
def SameButPlace (o p : GLSLParameter) : Prop :=
  ∃ (l : Int) (k : Int), p = { o with location := l, texUnit := k }

/-- The uniform `u` has the name and the type of the parameter `o`. -/
def MatchesUniform (o : GLSLParameter) (u : ActiveUniform) : Prop :=
  o.name = u.name ∧ o.glType = u.type

/-- A new effect that holds the float parameter `weight[0]`, as an earlier build of
an array leaves it. -/
def exWithElement : GLSLEffect :=
  { GLSLEffect.ctor with
    m_parameterArray := [GLSLParameter.mk3 0 "weight[0]".toList GL_FLOAT 6],
    heap := 1 }

/-- The parameter `p` of the new list stands for the user uniform `u`: it is a
parameter of the previous list `old` that has the name and the type of `u`,
moved to the location of `u`; or it was made on the heap (object number `heap`
or above) with the type and the location of `u`, under the name of `u` or of
one of its elements. -/
def ParameterFor (prog : Program) (old : List GLSLParameter) (heap : Nat) (u : ActiveUniform)
    (p : GLSLParameter) : Prop :=
  (∃ o ∈ old, MatchesUniform o u ∧ SameButPlace o p ∧
    p.location = prog.uniformLocation u.name) ∨
  (heap ≤ p.obj ∧ p.glType = u.type ∧ p.location = prog.uniformLocation u.name ∧
    (p.name = u.name ∨ ∃ i : Nat, p.name = elementName u.name i))

/-- A file whose `[Parameters]` section sets the parameter `k` twice. -/
def exTwiceK : QByteArray := "[Parameters]\nfloat k = 1;\nfloat k = 2;\n".toList

/-! ## The `ok` flag of `QString::toDouble` -/

/-- The contract of Qt's `QString::toDouble(bool *ok)`: `read` is the conversion
together with its `ok` flag (`none` when the text is not a number, that is when
`ok` comes back false), and the conversion of `q` returns the number read, or
the double 0.0 (bit pattern 0) when the conversion fails. -/
def QLocale.ReadsWith (q : QLocale) (read : QString → Option QDouble) : Prop :=
  ∀ s, q.toDouble s = (read s).getD ⟨0⟩

/-- A `float` line whose value is not a number. -/
def exFloatWordLine : QString := "float f = much;\n".toList

/-- The double 0.5. -/
def exHalf : QDouble := ⟨0x3FE0000000000000⟩

/-- A stand-in for Qt's reading of a double where an example needs one: the texts
`1` and `0.5` are read as these numbers and every other text fails. -/
def exRead (s : QString) : Option QDouble :=
  if s = "1".toList then some exOne
  else if s = "0.5".toList then some exHalf
  else none

/-- The number conversions whose `toDouble` is `exRead`, with 0.0 for a failure. -/
def exLocaleRead : QLocale := ⟨fun _ => "0".toList, fun s => (exRead s).getD ⟨0⟩⟩

/-! ## Building: results and validity -/

theorem deleteProgram_calls (e : GLSLEffect) (c : Call) (hc : c ∈ (deleteProgram e).2) :
    (∃ p s, c = Call.glDetachObject p s) ∨ (∃ h, c = Call.glDeleteObject h) := by
  unfold deleteProgram at hc
  simp only [List.mem_append] at hc
  rcases hc with (hc | hc) | hc
  · split at hc
    · simp only [List.mem_append, List.mem_singleton] at hc
      rcases hc with (hc | hc) | hc
      · split at hc
        · simp only [List.mem_singleton] at hc; exact Or.inl ⟨_, _, hc⟩
        · simp at hc
      · split at hc
        · simp only [List.mem_singleton] at hc; exact Or.inl ⟨_, _, hc⟩
        · simp at hc
      · exact Or.inr ⟨_, hc⟩
    · simp at hc
  · split at hc
    · simp only [List.mem_singleton] at hc; exact Or.inr ⟨_, hc⟩
    · simp at hc
  · split at hc
    · simp only [List.mem_singleton] at hc; exact Or.inr ⟨_, hc⟩
    · simp at hc

theorem deleteProgram_no_link (e : GLSLEffect) (p : Nat) :
    Call.glLinkProgram p ∉ (deleteProgram e).2 := by
  intro h
  rcases deleteProgram_calls e _ h with ⟨_, _, h⟩ | ⟨_, h⟩ <;> cases h

theorem compileCalls_no_link (gl : Driver) (output : Bool) (e : GLSLEffect) (p : Nat) :
    Call.glLinkProgram p ∉ compileCalls gl output e := by
  unfold compileCalls
  cases output <;> simp

theorem linkCalls_link (gl : Driver) (output : Bool) (e : GLSLEffect) :
    Call.glLinkProgram gl.createProgram ∈ linkCalls gl output e := by
  unfold linkCalls
  cases output <;> simp

/-- C1 (the code departs from the claim): when a stage does not compile or the
link fails, `build` returns false but leaves the three handles it has just
created in the effect, so that `isValid()` is true afterwards. -/
theorem build_failure_leaves_handles (gl : Driver) (output : Bool) (e : GLSLEffect)
    (hprog : gl.createProgram ≠ 0)
    (hfail : (gl.compileVertex e.m_vertexShaderText).compileStatus = GL_FALSE ∨
      (gl.compileFragment e.m_fragmentShaderText).compileStatus = GL_FALSE ∨
      (gl.link e.m_vertexShaderText e.m_fragmentShaderText).linkStatus = GL_FALSE) :
    (build gl output e).result = false ∧
    isValid (build gl output e).effect = true ∧
    (build gl output e).effect.m_program = gl.createProgram ∧
    (build gl output e).effect.m_vertexShader = gl.createVertexShader ∧
    (build gl output e).effect.m_fragmentShader = gl.createFragmentShader := by
  have hv : ∀ e1 : GLSLEffect, e1.m_program = gl.createProgram → isValid e1 = true := by
    intro e1 h1
    simp [isValid, h1, hprog]
  unfold build
  simp only []
  split
  · exact ⟨rfl, hv _ rfl, rfl, rfl, rfl⟩
  · split
    · exact ⟨rfl, hv _ rfl, rfl, rfl, rfl⟩
    · split
      · exact ⟨rfl, hv _ rfl, rfl, rfl, rfl⟩
      · rename_i h1 h2 h3
        rcases hfail with h | h | h
        · exact absurd h h1
        · exact absurd h h2
        · exact absurd h h3

theorem build_failure_leaves_handles_witness :
    (build (exDriver []) true exBrokenFragment).result = false ∧
    isValid (build (exDriver []) true exBrokenFragment).effect = true ∧
    (build (exDriver []) true exBrokenFragment).effect.m_program = 3 ∧
    (build (exDriver []) true exBrokenFragment).effect.m_vertexShader = 1 ∧
    (build (exDriver []) true exBrokenFragment).effect.m_fragmentShader = 2 :=
  build_failure_leaves_handles (exDriver []) true exBrokenFragment (by decide)
    (Or.inr (Or.inl (by decide)))

theorem build_result_true_iff (gl : Driver) (output : Bool) (e : GLSLEffect) :
    (build gl output e).result = true ↔
      ((gl.compileVertex e.m_vertexShaderText).compileStatus ≠ GL_FALSE ∧
       (gl.compileFragment e.m_fragmentShaderText).compileStatus ≠ GL_FALSE ∧
       (gl.link e.m_vertexShaderText e.m_fragmentShaderText).linkStatus ≠ GL_FALSE) := by
  unfold build
  simp only []
  split
  · rename_i h1
    exact ⟨fun h => (by cases h), fun h => absurd h1 h.1⟩
  · split
    · rename_i h1 h2
      exact ⟨fun h => (by cases h), fun h => absurd h2 h.2.1⟩
    · rename_i h1 h2
      split
      · rename_i h3
        exact ⟨fun h => (by cases h), fun h => absurd h3 h.2.2⟩
      · rename_i h3
        exact ⟨fun _ => ⟨h1, h2, h3⟩, fun _ => rfl⟩

theorem build_link_called_iff (gl : Driver) (output : Bool) (e : GLSLEffect) :
    (∃ p, Call.glLinkProgram p ∈ (build gl output e).calls) ↔
      ((gl.compileVertex e.m_vertexShaderText).compileStatus ≠ GL_FALSE ∧
       (gl.compileFragment e.m_fragmentShaderText).compileStatus ≠ GL_FALSE) := by
  have hno : ∀ p, Call.glLinkProgram p ∉ (deleteProgram e).2 ++ compileCalls gl output e := by
    intro p hp
    rcases List.mem_append.1 hp with h | h
    · exact deleteProgram_no_link e p h
    · exact compileCalls_no_link gl output e p h
  unfold build
  simp only []
  split
  · rename_i h1
    exact ⟨fun ⟨p, hp⟩ => absurd hp (hno p), fun h => absurd h1 h.1⟩
  · split
    · rename_i h1 h2
      exact ⟨fun ⟨p, hp⟩ => absurd hp (hno p), fun h => absurd h2 h.2⟩
    · rename_i h1 h2
      have hl : Call.glLinkProgram gl.createProgram ∈
          ((deleteProgram e).2 ++ compileCalls gl output e) ++ linkCalls gl output e :=
        List.mem_append.2 (Or.inr (linkCalls_link gl output e))
      split
      · exact ⟨fun _ => ⟨h1, h2⟩, fun _ => ⟨_, hl⟩⟩
      · exact ⟨fun _ => ⟨h1, h2⟩, fun _ => ⟨_, List.mem_append.2 (Or.inl hl)⟩⟩

/-- C2: `build` returns true exactly when the vertex stage compiles, the fragment
stage compiles and the link succeeds (it returns false in every other case), and
it calls `glLinkProgramARB` exactly when both stages compiled. -/
theorem build_result_iff (gl : Driver) (output : Bool) (e : GLSLEffect) :
    ((build gl output e).result = true ↔
      ((gl.compileVertex e.m_vertexShaderText).compileStatus ≠ GL_FALSE ∧
       (gl.compileFragment e.m_fragmentShaderText).compileStatus ≠ GL_FALSE ∧
       (gl.link e.m_vertexShaderText e.m_fragmentShaderText).linkStatus ≠ GL_FALSE)) ∧
    ((∃ p, Call.glLinkProgram p ∈ (build gl output e).calls) ↔
      ((gl.compileVertex e.m_vertexShaderText).compileStatus ≠ GL_FALSE ∧
       (gl.compileFragment e.m_fragmentShaderText).compileStatus ≠ GL_FALSE)) :=
  ⟨build_result_true_iff gl output e, build_link_called_iff gl output e⟩

/-- A failed `build` leaves the parameter array and the time uniform alone. -/
theorem build_failure_frame (gl : Driver) (output : Bool) (e : GLSLEffect)
    (h : (build gl output e).result = false) :
    (build gl output e).effect.m_parameterArray = e.m_parameterArray ∧
    (build gl output e).effect.m_timeUniform = e.m_timeUniform := by
  unfold build at h ⊢
  simp only [] at h ⊢
  split
  · exact ⟨rfl, rfl⟩
  · split
    · exact ⟨rfl, rfl⟩
    · split
      · exact ⟨rfl, rfl⟩
      · rename_i h1 h2 h3
        simp [h1, h2, h3] at h

/-- C9 as stated fails: an effect that holds a parameter still holds it after a
build whose fragment stage does not compile. -/
theorem parameterCount_after_fragment_failure_counterexample :
    ((exDriver []).compileFragment exBrokenWithParameter.m_fragmentShaderText).compileStatus
      = GL_FALSE ∧
    parameterCount (build (exDriver []) true exBrokenWithParameter).effect = 1 := by
  decide

/-- C9 (amended): after a build in which the fragment stage fails to compile,
`parameterCount()` is what it was before the call; it is 0 when the effect held
no parameter. -/
theorem parameterCount_after_fragment_failure (gl : Driver) (output : Bool) (e : GLSLEffect)
    (hfrag : (gl.compileFragment e.m_fragmentShaderText).compileStatus = GL_FALSE) :
    parameterCount (build gl output e).effect = parameterCount e ∧
    (e.m_parameterArray = [] → parameterCount (build gl output e).effect = 0) := by
  have hres : (build gl output e).result = false := by
    cases hr : (build gl output e).result
    · rfl
    · exact absurd hfrag ((build_result_true_iff gl output e).1 hr).2.1
  have hpar := (build_failure_frame gl output e hres).1
  refine ⟨by simp [parameterCount, hpar], fun h0 => by simp [parameterCount, hpar, h0]⟩

theorem parameterCount_after_fragment_failure_witness :
    parameterCount (build (exDriver []) true exBrokenFragment).effect
      = parameterCount exBrokenFragment ∧
    (exBrokenFragment.m_parameterArray = [] →
      parameterCount (build (exDriver []) true exBrokenFragment).effect = 0) :=
  parameterCount_after_fragment_failure (exDriver []) true exBrokenFragment (by decide)

/-- C10 (the code departs from the claim): an effect that was built with a program
declaring `time` and whose next build fails is still animated. -/
theorem isAnimated_after_failed_build :
    (build (exDriver [exTime]) false GLSLEffect.ctor).result = true ∧
    (build (exDriver [exTime]) false exAnimatedThenBroken).result = false ∧
    isAnimated (build (exDriver [exTime]) false exAnimatedThenBroken).effect = true := by
  decide

/-! ## Saving and loading -/

theorem readLines_ne_nil (c : Char) (cs : QByteArray) : readLines (c :: cs) ≠ [] := by
  unfold readLines
  split
  · simp
  · split <;> simp

theorem readLines_append_newline (a b : QByteArray) :
    readLines (a ++ '\n' :: b) = readLines (a ++ ['\n']) ++ readLines b := by
  induction a with
  | nil => simp [readLines]
  | cons c a ih =>
    by_cases hc : c = '\n'
    · simp [readLines, hc, ih]
    · have hne : readLines (a ++ ['\n']) ≠ [] := by
        cases a with
        | nil => simp [readLines]
        | cons d a => exact readLines_ne_nil d _
      obtain ⟨l, ls, hl⟩ := List.exists_cons_of_ne_nil hne
      simp [readLines, hc, ih, hl]

theorem readLines_flatten (a : QByteArray) : (readLines a).flatten = a := by
  induction a with
  | nil => simp [readLines]
  | cons c a ih =>
    unfold readLines
    split
    · rename_i hc
      simp [ih, hc]
    · split
      · rename_i h
        rw [h] at ih
        simp at ih
        simp [← ih]
      · rename_i l ls h
        rw [h] at ih
        simp at ih
        simp [← ih]

theorem endsWithChar_split (a : QByteArray) (c : Char) (h : endsWithChar a c = true) :
    ∃ b, a = b ++ [c] := by
  unfold endsWithChar at h
  rcases List.eq_nil_or_concat a with h0 | ⟨b, d, hb⟩
  · subst h0
    simp at h
  · subst hb
    simp at h
    exact ⟨b, by simp [h]⟩

theorem parseParameter_texts (q : QLocale) (line : QString) (e : GLSLEffect) :
    (parseParameter q line e).m_vertexShaderText = e.m_vertexShaderText ∧
    (parseParameter q line e).m_fragmentShaderText = e.m_fragmentShaderText := by
  unfold parseParameter
  simp only []
  repeat' split
  all_goals exact ⟨rfl, rfl⟩

theorem loadLoop_append (q : QLocale) (st : LoadState) (l1 l2 : List QByteArray) :
    loadLoop q st (l1 ++ l2) = loadLoop q (loadLoop q st l1) l2 := by
  simp [loadLoop, List.foldl_append]

theorem loadLoop_cons (q : QLocale) (st : LoadState) (l : QByteArray) (ls : List QByteArray) :
    loadLoop q st (l :: ls) = loadLoop q (loadStep q st l) ls := rfl

/-- The inner loop of the vertex section stores every line that does not start
with `[`. -/
theorem loadLoop_vertex (q : QLocale) (lines : List QByteArray)
    (h : ∀ l ∈ lines, startsWith l ['['] = false) :
    ∀ (line : QByteArray) (e : GLSLEffect), ∃ line1,
      loadLoop q ⟨line, .vertex, e⟩ lines =
        ⟨line1, .vertex, { e with m_vertexShaderText := e.m_vertexShaderText ++ lines.flatten }⟩ := by
  induction lines with
  | nil => intro line e; exact ⟨line, by simp [loadLoop]⟩
  | cons l ls ih =>
    intro line e
    have hl : startsWith l ['['] = false := h l (List.mem_cons_self _ _)
    obtain ⟨line1, h1⟩ := ih (fun x hx => h x (List.mem_cons_of_mem _ hx)) l
      { e with m_vertexShaderText := e.m_vertexShaderText ++ l }
    refine ⟨line1, ?_⟩
    rw [loadLoop_cons]
    simp only [loadStep, hl]
    simp only [Bool.false_eq_true, if_false]
    rw [h1]
    simp [List.append_assoc]

/-- The inner loop of the fragment section stores every line that does not start
with `[`. -/
theorem loadLoop_fragment (q : QLocale) (lines : List QByteArray)
    (h : ∀ l ∈ lines, startsWith l ['['] = false) :
    ∀ (line : QByteArray) (e : GLSLEffect), ∃ line1,
      loadLoop q ⟨line, .fragment, e⟩ lines =
        ⟨line1, .fragment,
          { e with m_fragmentShaderText := e.m_fragmentShaderText ++ lines.flatten }⟩ := by
  induction lines with
  | nil => intro line e; exact ⟨line, by simp [loadLoop]⟩
  | cons l ls ih =>
    intro line e
    have hl : startsWith l ['['] = false := h l (List.mem_cons_self _ _)
    obtain ⟨line1, h1⟩ := ih (fun x hx => h x (List.mem_cons_of_mem _ hx)) l
      { e with m_fragmentShaderText := e.m_fragmentShaderText ++ l }
    refine ⟨line1, ?_⟩
    rw [loadLoop_cons]
    simp only [loadStep, hl]
    simp only [Bool.false_eq_true, if_false]
    rw [h1]
    simp [List.append_assoc]

/-- Lines that carry neither shader tag leave both source buffers alone when the
loop of `load` is outside the two shader sections. -/
theorem loadLoop_parameters_texts (q : QLocale) (lines : List QByteArray)
    (h : ∀ l ∈ lines, sectionOf l ≠ .vertex ∧ sectionOf l ≠ .fragment) :
    ∀ (st : LoadState),
      ((st.inner = .none ∧ sectionOf st.line ≠ .vertex ∧ sectionOf st.line ≠ .fragment) ∨
        st.inner = .parameters) →
      (loadLoop q st lines).effect.m_vertexShaderText = st.effect.m_vertexShaderText ∧
      (loadLoop q st lines).effect.m_fragmentShaderText = st.effect.m_fragmentShaderText := by
  induction lines with
  | nil => intro st _; simp [loadLoop]
  | cons l ls ih =>
    intro st hs
    have hl := h l (List.mem_cons_self _ _)
    have ih1 := ih (fun x hx => h x (List.mem_cons_of_mem _ hx))
    rw [loadLoop_cons]
    have hstep : (((loadStep q st l).inner = .none ∧ (loadStep q st l).line = l) ∨
          (loadStep q st l).inner = .parameters) ∧
        (loadStep q st l).effect.m_vertexShaderText = st.effect.m_vertexShaderText ∧
        (loadStep q st l).effect.m_fragmentShaderText = st.effect.m_fragmentShaderText := by
      have hpt := parseParameter_texts q (QString.fromByteArray l) st.effect
      rcases hs with ⟨hs, hv, hf⟩ | hs
      · cases hsec : sectionOf st.line
        · simp [loadStep, hs, hsec]
        · exact absurd hsec hv
        · exact absurd hsec hf
        · by_cases hb : startsWith l ['['] = true
          · simp [loadStep, hs, hsec, hb]
          · simp [loadStep, hs, hsec, hb, hpt]
      · by_cases hb : startsWith l ['['] = true
        · simp [loadStep, hs, hb]
        · simp [loadStep, hs, hb, hpt]
    obtain ⟨hmode, hv, hf⟩ := hstep
    have h2 := ih1 (loadStep q st l) (by
      rcases hmode with ⟨hm, hline⟩ | hm
      · exact Or.inl ⟨hm, by rw [hline]; exact hl⟩
      · exact Or.inr hm)
    exact ⟨h2.1.trans hv, h2.2.trans hf⟩

theorem readLines_append_of_endsWith (a b : QByteArray) (h : endsWithChar a '\n' = true) :
    readLines (a ++ b) = readLines a ++ readLines b := by
  obtain ⟨a1, rfl⟩ := endsWithChar_split a '\n' h
  rw [List.append_assoc]
  exact readLines_append_newline a1 b

theorem readLines_ne_nil_of_endsWith (a : QByteArray) (h : endsWithChar a '\n' = true) :
    readLines a ≠ [] := by
  obtain ⟨a1, rfl⟩ := endsWithChar_split a '\n' h
  cases a1 with
  | nil => simp [readLines]
  | cons c cs => exact readLines_ne_nil c _

theorem loadLoop_enter (q : QLocale) (line : QByteArray) (e : GLSLEffect)
    (lines : List QByteArray) (h : lines ≠ []) :
    loadLoop q ⟨line, .none, e⟩ lines = loadLoop q ⟨line, sectionOf line, e⟩ lines := by
  cases lines with
  | nil => exact absurd rfl h
  | cons l ls =>
    rw [loadLoop_cons, loadLoop_cons]
    congr 1
    cases hs : sectionOf line <;> simp [loadStep, hs]

/-- What `load` makes of the lines of a shader section followed by the lines
`rest`: the section is stored whole and `rest` is met with the first of its
lines still to be read by the inner loop. -/
theorem loadLoop_vertex_section (q : QLocale) (e : GLSLEffect) (text : QByteArray)
    (rest : List QByteArray)
    (hend : endsWithChar text '\n' = true)
    (hl : ∀ l ∈ readLines text, startsWith l ['['] = false) :
    ∃ line1, loadLoop q ⟨s_vertexShaderTag, .none, e⟩ (readLines text ++ rest) =
      loadLoop q ⟨line1, .vertex,
        { e with m_vertexShaderText := e.m_vertexShaderText ++ text }⟩ rest := by
  obtain ⟨line1, h1⟩ := loadLoop_vertex q (readLines text) hl s_vertexShaderTag e
  refine ⟨line1, ?_⟩
  rw [loadLoop_append, loadLoop_enter q _ _ _ (readLines_ne_nil_of_endsWith text hend)]
  have hs : sectionOf s_vertexShaderTag = .vertex := by decide
  rw [hs, h1, readLines_flatten]

theorem loadLoop_fragment_section (q : QLocale) (e : GLSLEffect) (text : QByteArray)
    (rest : List QByteArray)
    (hend : endsWithChar text '\n' = true)
    (hl : ∀ l ∈ readLines text, startsWith l ['['] = false) :
    ∃ line1, loadLoop q ⟨s_fragmentShaderTag, .none, e⟩ (readLines text ++ rest) =
      loadLoop q ⟨line1, .fragment,
        { e with m_fragmentShaderText := e.m_fragmentShaderText ++ text }⟩ rest := by
  obtain ⟨line1, h1⟩ := loadLoop_fragment q (readLines text) hl s_fragmentShaderTag e
  refine ⟨line1, ?_⟩
  rw [loadLoop_append, loadLoop_enter q _ _ _ (readLines_ne_nil_of_endsWith text hend)]
  have hs : sectionOf s_fragmentShaderTag = .fragment := by decide
  rw [hs, h1, readLines_flatten]

/-- C3 as stated fails: the effect with vertex text `A` and fragment text `B` is
saved with a newline after each text, and loading gives the texts back with
that newline. -/
theorem load_save_sources_counterexample :
    save exLocale exAB = "[VertexShader]\nA\n[FragmentShader]\nB\n".toList ∧
    (load exLocale (save exLocale exAB) GLSLEffect.ctor).m_vertexShaderText = "A\n".toList ∧
    (load exLocale (save exLocale exAB) GLSLEffect.ctor).m_vertexShaderText
      ≠ exAB.m_vertexShaderText := by
  decide

/-- C3 (amended): when the vertex and the fragment source each end with a newline
and have no line starting with `[`, and no line written for the parameters
starts with the tag `[VertexShader]` or `[FragmentShader]`, then loading the
bytes written by `save` into any effect gives source buffers equal to the saved
ones. -/
theorem load_save_sources (q : QLocale) (e e0 : GLSLEffect)
    (hv : endsWithChar e.m_vertexShaderText '\n' = true)
    (hvl : ∀ l ∈ readLines e.m_vertexShaderText, startsWith l ['['] = false)
    (hf : endsWithChar e.m_fragmentShaderText '\n' = true)
    (hfl : ∀ l ∈ readLines e.m_fragmentShaderText, startsWith l ['['] = false)
    (hp : ∀ l ∈ readLines (saveParameters q e.m_parameterArray),
      sectionOf l ≠ .vertex ∧ sectionOf l ≠ .fragment) :
    (load q (save q e) e0).m_vertexShaderText = e.m_vertexShaderText ∧
    (load q (save q e) e0).m_fragmentShaderText = e.m_fragmentShaderText := by
  have hvt : endsWithChar s_vertexShaderTag '\n' = true := by decide
  have hft : endsWithChar s_fragmentShaderTag '\n' = true := by decide
  have hpt : endsWithChar s_parametersTag '\n' = true := by decide
  have hvr : readLines s_vertexShaderTag = [s_vertexShaderTag] := by decide
  have hfr : readLines s_fragmentShaderTag = [s_fragmentShaderTag] := by decide
  have hpr : readLines s_parametersTag = [s_parametersTag] := by decide
  -- the lines of the file
  have hlines : ∃ tail : List QByteArray,
      readLines (save q e) = s_vertexShaderTag :: (readLines e.m_vertexShaderText ++
        s_fragmentShaderTag :: (readLines e.m_fragmentShaderText ++ tail)) ∧
      (tail = [] ∨ tail = s_parametersTag :: readLines (saveParameters q e.m_parameterArray)) := by
    unfold save
    simp only [hv, hf, Bool.not_true, Bool.false_eq_true, if_false, List.append_nil,
      List.append_assoc]
    rw [readLines_append_of_endsWith _ _ hvt, readLines_append_of_endsWith _ _ hv,
      readLines_append_of_endsWith _ _ hft, readLines_append_of_endsWith _ _ hf, hvr, hfr]
    split
    · refine ⟨_, rfl, Or.inr ?_⟩
      rw [readLines_append_of_endsWith _ _ hpt, hpr]
      rfl
    · exact ⟨[], by simp [readLines], Or.inl rfl⟩
  obtain ⟨tail, hl, htail⟩ := hlines
  unfold load
  rw [hl, loadLoop_cons]
  have h0 : loadStep q ⟨[], .none,
      { e0 with m_vertexShaderText := [], m_fragmentShaderText := [] }⟩ s_vertexShaderTag
      = ⟨s_vertexShaderTag, .none,
        { e0 with m_vertexShaderText := [], m_fragmentShaderText := [] }⟩ := by
    have : sectionOf [] = .none := by decide
    simp [loadStep, this]
  rw [h0]
  obtain ⟨line1, h1⟩ := loadLoop_vertex_section q
    { e0 with m_vertexShaderText := [], m_fragmentShaderText := [] } e.m_vertexShaderText
    (s_fragmentShaderTag :: (readLines e.m_fragmentShaderText ++ tail)) hv hvl
  rw [h1, loadLoop_cons]
  have hb : startsWith s_fragmentShaderTag ['['] = true := by decide
  simp only [loadStep, hb, if_true]
  obtain ⟨line2, h2⟩ := loadLoop_fragment_section q
    { e0 with m_vertexShaderText := [] ++ e.m_vertexShaderText, m_fragmentShaderText := [] }
    e.m_fragmentShaderText tail hf hfl
  rw [h2]
  rcases htail with rfl | rfl
  · simp [loadLoop]
  · rw [loadLoop_cons]
    have hb2 : startsWith s_parametersTag ['['] = true := by decide
    simp only [loadStep, hb2, if_true]
    have hsec : sectionOf s_parametersTag ≠ .vertex ∧ sectionOf s_parametersTag ≠ .fragment := by
      decide
    have h3 := loadLoop_parameters_texts q _ hp
      ⟨s_parametersTag, .none,
        { e0 with m_vertexShaderText := [] ++ e.m_vertexShaderText,
                  m_fragmentShaderText := [] ++ e.m_fragmentShaderText }⟩ (Or.inl ⟨rfl, hsec⟩)
    simpa using h3

/-- The default effect with one parameter, as a file may supply it. -/
theorem load_save_sources_witness :
    (load exLocale (save exLocale exBrokenWithParameter) exAB).m_vertexShaderText
      = exBrokenWithParameter.m_vertexShaderText ∧
    (load exLocale (save exLocale exBrokenWithParameter) exAB).m_fragmentShaderText
      = exBrokenWithParameter.m_fragmentShaderText :=
  load_save_sources exLocale exBrokenWithParameter exAB (by decide) (by decide) (by decide)
    (by decide) (by decide)

set_option maxRecDepth 100000 in
/-- C4 (the code departs from the claim): the parameters that `build` makes for
the array `uniform float weight[3]` are written by `save` under their bracketed
names, and `load` drops each of these lines. -/
theorem load_save_array_parameters_lost :
    exWeights.m_parameterArray.map (fun p => p.name)
      = ["weight[0]".toList, "weight[1]".toList, "weight[2]".toList] ∧
    save exLocale exWeights = (s_vertexShaderTag ++ s_vertexShaderText ++ s_fragmentShaderTag ++
      s_fragmentShaderText ++ "[Parameters]\nfloat weight[0] = 0;\n".toList ++
      "float weight[1] = 0;\nfloat weight[2] = 0;\n".toList) ∧
    (load exLocale (save exLocale exWeights) GLSLEffect.ctor).m_parameterArray = [] := by
  decide


/-! ## The search for the old value -/

theorem findOld_none_iff (n : QString) (t : Nat) (l : Int) (old : List (Option GLSLParameter)) :
    findOld n t l old = none ↔ firstOld n t old = none := by
  induction old with
  | nil => simp [findOld, firstOld]
  | cons x rest ih =>
    cases x with
    | none => simp [findOld, firstOld, ih]
    | some p =>
      by_cases h : p.name = n ∧ p.glType = t
      · simp [findOld, firstOld, h]
      · simp [findOld, firstOld, h, ih]

theorem findOld_some (n : QString) (t : Nat) (l : Int) (old : List (Option GLSLParameter))
    (p : GLSLParameter) (old1 : List (Option GLSLParameter))
    (h : findOld n t l old = some (p, old1)) :
    ∃ q, firstOld n t old = some q ∧ p = q.setLocation l := by
  induction old generalizing p old1 with
  | nil => simp [findOld] at h
  | cons x rest ih =>
    cases x with
    | none =>
      simp only [findOld, Option.map_eq_some'] at h
      obtain ⟨r, hr, hr2⟩ := h
      obtain ⟨q, hq, hp⟩ := ih r.1 r.2 hr
      refine ⟨q, by simpa [firstOld] using hq, ?_⟩
      rw [← hp]
      exact (congrArg Prod.fst hr2).symm
    | some y =>
      by_cases hy : y.name = n ∧ y.glType = t
      · simp only [findOld, hy, and_self, if_true, Option.some.injEq, Prod.mk.injEq] at h
        exact ⟨y, by simp [firstOld, hy], h.1.symm⟩
      · simp only [findOld, hy, if_false, Option.map_eq_some'] at h
        obtain ⟨r, hr, hr2⟩ := h
        obtain ⟨q, hq, hp⟩ := ih r.1 r.2 hr
        refine ⟨q, by simpa [firstOld, hy] using hq, ?_⟩
        rw [← hp]
        exact (congrArg Prod.fst hr2).symm

theorem firstOld_some (n : QString) (t : Nat) (old : List (Option GLSLParameter))
    (p : GLSLParameter) (h : firstOld n t old = some p) :
    some p ∈ old ∧ p.name = n ∧ p.glType = t := by
  induction old with
  | nil => simp [firstOld] at h
  | cons x rest ih =>
    cases x with
    | none =>
      simp only [firstOld] at h
      obtain ⟨h1, h2⟩ := ih h
      exact ⟨List.mem_cons_of_mem _ h1, h2⟩
    | some y =>
      by_cases hy : y.name = n ∧ y.glType = t
      · simp only [firstOld, hy, and_self, if_true, Option.some.injEq] at h
        subst h
        exact ⟨List.mem_cons_self _ _, hy⟩
      · simp only [firstOld, hy, if_false] at h
        obtain ⟨h1, h2⟩ := ih h
        exact ⟨List.mem_cons_of_mem _ h1, h2⟩

theorem firstOld_none (n : QString) (t : Nat) (old : List (Option GLSLParameter))
    (h : ∀ p, some p ∈ old → ¬ (p.name = n ∧ p.glType = t)) : firstOld n t old = none := by
  induction old with
  | nil => simp [firstOld]
  | cons x rest ih =>
    have ih1 := ih (fun p hp => h p (List.mem_cons_of_mem _ hp))
    cases x with
    | none => simpa [firstOld] using ih1
    | some y =>
      have hy := h y (List.mem_cons_self _ _)
      simpa [firstOld, hy] using ih1

theorem findOld_rest_mem (n : QString) (t : Nat) (l : Int) (old : List (Option GLSLParameter))
    (p : GLSLParameter) (old1 : List (Option GLSLParameter))
    (h : findOld n t l old = some (p, old1)) (o : GLSLParameter) (ho : some o ∈ old1) :
    some o ∈ old := by
  induction old generalizing p old1 with
  | nil => simp [findOld] at h
  | cons x rest ih =>
    cases x with
    | none =>
      simp only [findOld, Option.map_eq_some'] at h
      obtain ⟨r, hr, hr2⟩ := h
      have h2 : old1 = none :: r.2 := (congrArg Prod.snd hr2).symm
      subst h2
      simp only [List.mem_cons] at ho
      rcases ho with ho | ho
      · cases ho
      · exact List.mem_cons_of_mem _ (ih r.1 r.2 hr ho)
    | some y =>
      by_cases hy : y.name = n ∧ y.glType = t
      · simp only [findOld, hy, and_self, if_true, Option.some.injEq, Prod.mk.injEq] at h
        obtain ⟨_, h2⟩ := h
        subst h2
        simp only [List.mem_cons] at ho
        rcases ho with ho | ho
        · cases ho
        · exact List.mem_cons_of_mem _ ho
      · simp only [findOld, hy, if_false, Option.map_eq_some'] at h
        obtain ⟨r, hr, hr2⟩ := h
        have h2 : old1 = some y :: r.2 := (congrArg Prod.snd hr2).symm
        subst h2
        simp only [List.mem_cons] at ho
        rcases ho with ho | ho
        · rw [ho]; exact List.mem_cons_self _ _
        · exact List.mem_cons_of_mem _ (ih r.1 r.2 hr ho)

/-- Taking an entry for one name and type leaves the search for another name or
type with the same result. -/
theorem firstOld_after_findOld (n : QString) (t : Nat) (l : Int)
    (old : List (Option GLSLParameter)) (p : GLSLParameter) (old1 : List (Option GLSLParameter))
    (h : findOld n t l old = some (p, old1)) (n2 : QString) (t2 : Nat)
    (hne : ¬ (n2 = n ∧ t2 = t)) :
    firstOld n2 t2 old1 = firstOld n2 t2 old := by
  induction old generalizing p old1 with
  | nil => simp [findOld] at h
  | cons x rest ih =>
    cases x with
    | none =>
      simp only [findOld, Option.map_eq_some'] at h
      obtain ⟨r, hr, hr2⟩ := h
      have h2 : old1 = none :: r.2 := (congrArg Prod.snd hr2).symm
      subst h2
      simpa [firstOld] using ih r.1 r.2 hr
    | some y =>
      by_cases hy : y.name = n ∧ y.glType = t
      · simp only [findOld, hy, and_self, if_true, Option.some.injEq, Prod.mk.injEq] at h
        obtain ⟨_, h2⟩ := h
        subst h2
        have : ¬ (y.name = n2 ∧ y.glType = t2) := by
          rintro ⟨a, b⟩
          exact hne ⟨a.symm.trans hy.1, b.symm.trans hy.2⟩
        simp [firstOld, this]
      · simp only [findOld, hy, if_false, Option.map_eq_some'] at h
        obtain ⟨r, hr, hr2⟩ := h
        have h2 : old1 = some y :: r.2 := (congrArg Prod.snd hr2).symm
        subst h2
        simp only [firstOld]
        rw [ih r.1 r.2 hr]

theorem firstOld_map_some (n : QString) (t : Nat) (l : List GLSLParameter) :
    firstOld n t (l.map some) = l.find? (fun p => decide (p.name = n ∧ p.glType = t)) := by
  induction l with
  | nil => simp [firstOld]
  | cons y rest ih =>
    by_cases hy : y.name = n ∧ y.glType = t
    · simp [firstOld, hy, List.find?]
    · simp only [List.map_cons, firstOld, hy, if_false, ih]
      simp [List.find?, hy]

/-! ## The loop over the active uniforms -/

theorem isUserUniform_iff (u : ActiveUniform) :
    isUserUniform u = true ↔
      startsWith u.name "gl_".toList = false ∧ QString.toLower u.name ≠ "time".toList := by
  simp [isUserUniform]

theorem initStep_not_user (prog : Program) (st : InitState) (u : ActiveUniform)
    (h : isUserUniform u = false) :
    (initStep prog st u).old = st.old ∧
    (initStep prog st u).newParameterArray = st.newParameterArray ∧
    (initStep prog st u).heap = st.heap := by
  unfold initStep
  by_cases hgl : startsWith u.name "gl_".toList = true
  · rw [if_pos hgl]
    exact ⟨rfl, rfl, rfl⟩
  · by_cases ht : QString.toLower u.name = "time".toList
    · rw [if_neg hgl, if_pos ht]
      exact ⟨rfl, rfl, rfl⟩
    · exfalso
      have : isUserUniform u = true := (isUserUniform_iff u).2 ⟨by simpa using hgl, ht⟩
      rw [h] at this
      cases this

theorem initStep_found (prog : Program) (st : InitState) (u : ActiveUniform)
    (p : GLSLParameter) (old1 : List (Option GLSLParameter))
    (hu : isUserUniform u = true)
    (h : findOld u.name u.type (prog.uniformLocation u.name) st.old = some (p, old1)) :
    initStep prog st u =
      { st with old := old1, newParameterArray := st.newParameterArray ++ [p] } := by
  obtain ⟨hgl, ht⟩ := (isUserUniform_iff u).1 hu
  have hgl1 : ¬ startsWith u.name "gl_".toList = true := by
    rw [hgl]
    exact Bool.false_ne_true
  unfold initStep
  rw [if_neg hgl1, if_neg ht]
  simp only [h]

theorem initStep_fresh (prog : Program) (st : InitState) (u : ActiveUniform)
    (hu : isUserUniform u = true)
    (h : findOld u.name u.type (prog.uniformLocation u.name) st.old = none) :
    initStep prog st u =
      { st with
        newParameterArray := st.newParameterArray ++
          addParameters prog st.heap u.name u.size u.type (prog.uniformLocation u.name),
        heap := st.heap +
          (addParameters prog st.heap u.name u.size u.type (prog.uniformLocation u.name)).length } := by
  obtain ⟨hgl, ht⟩ := (isUserUniform_iff u).1 hu
  have hgl1 : ¬ startsWith u.name "gl_".toList = true := by
    rw [hgl]
    exact Bool.false_ne_true
  unfold initStep
  rw [if_neg hgl1, if_neg ht]
  simp only [h]

theorem initLoop_cons (prog : Program) (st : InitState) (u : ActiveUniform)
    (us : List ActiveUniform) :
    initLoop prog st (u :: us) = initLoop prog (initStep prog st u) us := rfl

theorem initLoop_append (prog : Program) (st : InitState) (us1 us2 : List ActiveUniform) :
    initLoop prog st (us1 ++ us2) = initLoop prog (initLoop prog st us1) us2 := by
  simp [initLoop, List.foldl_append]

theorem addParameters_spec (prog : Program) (heap : Nat) (name : QString) (size : Int)
    (type : Nat) (location : Int) (p : GLSLParameter)
    (hp : p ∈ addParameters prog heap name size type location) :
    heap ≤ p.obj ∧ p.obj < heap + (addParameters prog heap name size type location).length ∧
    p.glType = type ∧ p.location = location ∧
    (p.name = name ∨ ∃ i : Nat, p.name = elementName name i) ∧
    p.value = getParameterValue prog (GLSLParameter.mk3 p.obj p.name type location) := by
  unfold addParameters at hp ⊢
  by_cases hs : size = 1
  · simp only [hs, if_true, List.mem_singleton] at hp ⊢
    subst hp
    simp [GLSLParameter.setValue, GLSLParameter.mk3]
  · simp only [hs, if_false, List.mem_map, List.mem_range] at hp ⊢
    obtain ⟨i, hi, rfl⟩ := hp
    simp only [List.length_map, List.length_range]
    refine ⟨by simp [GLSLParameter.setValue, GLSLParameter.mk3], ?_, rfl, rfl,
      Or.inr ⟨i, rfl⟩, rfl⟩
    simp only [GLSLParameter.setValue, GLSLParameter.mk3]
    omega

/-- The loop only appends to the new array, and each parameter it appends has
an origin in one of the user uniforms it ran over. -/
theorem initLoop_added (prog : Program) (us : List ActiveUniform) :
    ∀ st : InitState, ∃ added,
      (initLoop prog st us).newParameterArray = st.newParameterArray ++ added ∧
      (∀ p ∈ added, ∃ u ∈ us, isUserUniform u = true ∧ Origin prog st.old st.heap u p) ∧
      st.heap ≤ (initLoop prog st us).heap ∧
      (∀ o, some o ∈ (initLoop prog st us).old → some o ∈ st.old) := by
  induction us with
  | nil => intro st; exact ⟨[], by simp [initLoop], by simp, by simp [initLoop], by simp [initLoop]⟩
  | cons u us ih =>
    intro st
    obtain ⟨added1, hnew1, horig1, hheap1, hold1⟩ := ih (initStep prog st u)
    rw [initLoop_cons]
    by_cases hu : isUserUniform u = true
    · cases hf : findOld u.name u.type (prog.uniformLocation u.name) st.old with
      | none =>
        have hst := initStep_fresh prog st u hu hf
        rw [hst] at hnew1 horig1 hheap1 hold1 ⊢
        simp only [] at hnew1 horig1 hheap1 hold1 ⊢
        refine ⟨addParameters prog st.heap u.name u.size u.type (prog.uniformLocation u.name)
          ++ added1, by rw [hnew1, List.append_assoc], ?_, by omega, hold1⟩
        intro p hp
        rcases List.mem_append.1 hp with hp | hp
        · have hs := addParameters_spec prog _ _ _ _ _ p hp
          exact ⟨u, List.mem_cons_self _ _, hu, Or.inr ⟨hs.1, hs.2.2.2.2.1⟩⟩
        · obtain ⟨u1, hu1, huser, ho⟩ := horig1 p hp
          refine ⟨u1, List.mem_cons_of_mem _ hu1, huser, ?_⟩
          rcases ho with ho | ⟨hh, hn⟩
          · exact Or.inl ho
          · exact Or.inr ⟨by omega, hn⟩
      | some r =>
        obtain ⟨q, old1⟩ := r
        have hst := initStep_found prog st u q old1 hu hf
        rw [hst] at hnew1 horig1 hheap1 hold1 ⊢
        simp only [] at hnew1 horig1 hheap1 hold1 ⊢
        refine ⟨q :: added1, by rw [hnew1]; simp, ?_, hheap1,
          fun o ho => findOld_rest_mem _ _ _ _ _ _ hf o (hold1 o ho)⟩
        intro p hp
        rcases List.mem_cons.1 hp with hp | hp
        · subst hp
          obtain ⟨o, ho, hpo⟩ := findOld_some _ _ _ _ _ _ hf
          obtain ⟨hmem, hn, ht⟩ := firstOld_some _ _ _ _ ho
          exact ⟨u, List.mem_cons_self _ _, hu, Or.inl ⟨o, hmem, hn, ht, hpo⟩⟩
        · obtain ⟨u1, hu1, huser, ho⟩ := horig1 p hp
          refine ⟨u1, List.mem_cons_of_mem _ hu1, huser, ?_⟩
          rcases ho with ⟨o, hmem, hrest⟩ | ho
          · exact Or.inl ⟨o, findOld_rest_mem _ _ _ _ _ _ hf o hmem, hrest⟩
          · exact Or.inr ho
    · have hu0 : isUserUniform u = false := by simpa using hu
      obtain ⟨h1, h2, h3⟩ := initStep_not_user prog st u hu0
      rw [h1] at horig1 hold1
      rw [h2] at hnew1
      rw [h3] at horig1 hheap1
      refine ⟨added1, hnew1, ?_, hheap1, hold1⟩
      intro p hp
      obtain ⟨u1, hu1, huser, ho⟩ := horig1 p hp
      exact ⟨u1, List.mem_cons_of_mem _ hu1, huser, ho⟩

theorem initLoop_new_mono (prog : Program) (us : List ActiveUniform) (st : InitState)
    (p : GLSLParameter) (hp : p ∈ st.newParameterArray) :
    p ∈ (initLoop prog st us).newParameterArray := by
  obtain ⟨added, hnew, _⟩ := initLoop_added prog us st
  rw [hnew]
  exact List.mem_append_left _ hp

/-- The entry that the search finds for a user uniform when the loop starts ends
up in the new array, with the location of that uniform. -/
theorem initLoop_carry (prog : Program) (us : List ActiveUniform) :
    ∀ (st : InitState) (u : ActiveUniform) (p : GLSLParameter),
      u ∈ us → isUserUniform u = true → firstOld u.name u.type st.old = some p →
      p.setLocation (prog.uniformLocation u.name) ∈ (initLoop prog st us).newParameterArray := by
  induction us with
  | nil => intro st u p hu; cases hu
  | cons u0 us ih =>
    intro st u p hu huser hfirst
    rw [initLoop_cons]
    by_cases hu0 : isUserUniform u0 = true
    · cases hf : findOld u0.name u0.type (prog.uniformLocation u0.name) st.old with
      | none =>
        have hne : u ≠ u0 := by
          rintro rfl
          rw [(findOld_none_iff _ _ _ _).1 hf] at hfirst
          cases hfirst
        have hmem : u ∈ us := by
          rcases List.mem_cons.1 hu with h | h
          · exact absurd h hne
          · exact h
        have hst := initStep_fresh prog st u0 hu0 hf
        have hold : (initStep prog st u0).old = st.old := by rw [hst]
        exact ih _ u p hmem huser (by rw [hold]; exact hfirst)
      | some r =>
        obtain ⟨q, old1⟩ := r
        have hst := initStep_found prog st u0 q old1 hu0 hf
        by_cases hsame : u.name = u0.name ∧ u.type = u0.type
        · obtain ⟨o, ho, hq⟩ := findOld_some _ _ _ _ _ _ hf
          rw [← hsame.1, ← hsame.2, hfirst] at ho
          cases ho
          apply initLoop_new_mono
          rw [hst]
          simp only [List.mem_append, List.mem_singleton]
          right
          rw [hq, hsame.1]
        · have hne : u ≠ u0 := by
            rintro rfl
            exact hsame ⟨rfl, rfl⟩
          have hmem : u ∈ us := by
            rcases List.mem_cons.1 hu with h | h
            · exact absurd h hne
            · exact h
          have hold : (initStep prog st u0).old = old1 := by rw [hst]
          refine ih _ u p hmem huser ?_
          rw [hold, firstOld_after_findOld _ _ _ _ _ _ hf _ _ hsame]
          exact hfirst
    · have hu00 : isUserUniform u0 = false := by simpa using hu0
      obtain ⟨h1, _, _⟩ := initStep_not_user prog st u0 hu00
      have hne : u ≠ u0 := by
        rintro rfl
        rw [huser] at hu00
        cases hu00
      have hmem : u ∈ us := by
        rcases List.mem_cons.1 hu with h | h
        · exact absurd h hne
        · exact h
      exact ih _ u p hmem huser (by rw [h1]; exact hfirst)

/-! ## The texture units -/

theorem initTextureUnits_mem (t : Int) (output : Bool) (l : List GLSLParameter) :
    ∀ (unit : Int) (p : GLSLParameter), p ∈ l →
      ∃ k, { p with texUnit := k } ∈ (initTextureUnits t output unit l).1 := by
  induction l with
  | nil => intro unit p hp; cases hp
  | cons x rest ih =>
    intro unit p hp
    have hx : ∀ (y : GLSLParameter) (u1 : Int), (y = x ∨ y = x.setTextureUnit unit) →
        ∃ k, { p with texUnit := k } ∈ y :: (initTextureUnits t output u1 rest).1 := by
      intro y u1 hy
      rcases List.mem_cons.1 hp with h | h
      · rw [h]
        rcases hy with hy | hy
        · rw [hy]
          exact ⟨x.texUnit, List.mem_cons_self _ _⟩
        · rw [hy]
          exact ⟨unit, List.mem_cons_self _ _⟩
      · obtain ⟨k, hk⟩ := ih u1 p h
        exact ⟨k, List.mem_cons_of_mem _ hk⟩
    unfold initTextureUnits
    split
    · split
      · exact hx _ _ (Or.inr rfl)
      · exact hx _ _ (Or.inl rfl)
    · exact hx _ _ (Or.inl rfl)

theorem initTextureUnits_mem_inv (t : Int) (output : Bool) (l : List GLSLParameter) :
    ∀ (unit : Int) (p1 : GLSLParameter), p1 ∈ (initTextureUnits t output unit l).1 →
      ∃ p ∈ l, ∃ k, p1 = { p with texUnit := k } := by
  induction l with
  | nil => intro unit p1 hp; simp [initTextureUnits] at hp
  | cons x rest ih =>
    intro unit p1 hp
    have hx : ∀ (y : GLSLParameter) (u1 : Int), (y = x ∨ y = x.setTextureUnit unit) →
        p1 ∈ y :: (initTextureUnits t output u1 rest).1 →
        ∃ p ∈ x :: rest, ∃ k, p1 = { p with texUnit := k } := by
      intro y u1 hy h
      rcases List.mem_cons.1 h with h | h
      · rw [h]
        rcases hy with hy | hy
        · rw [hy]
          exact ⟨x, List.mem_cons_self _ _, x.texUnit, rfl⟩
        · rw [hy]
          exact ⟨x, List.mem_cons_self _ _, unit, rfl⟩
      · obtain ⟨p, hp1, k, hk⟩ := ih u1 p1 h
        exact ⟨p, List.mem_cons_of_mem _ hp1, k, hk⟩
    unfold initTextureUnits at hp
    split at hp
    · split at hp
      · exact hx _ _ (Or.inr rfl) hp
      · exact hx _ _ (Or.inl rfl) hp
    · exact hx _ _ (Or.inl rfl) hp

theorem initTextureUnits_names (t : Int) (output : Bool) (l : List GLSLParameter) :
    ∀ unit : Int, (initTextureUnits t output unit l).1.map (fun p => p.name)
      = l.map (fun p => p.name) := by
  induction l with
  | nil => intro unit; simp [initTextureUnits]
  | cons x rest ih =>
    intro unit
    unfold initTextureUnits
    split
    · split <;> simp [ih, GLSLParameter.setTextureUnit]
    · simp [ih]

/-- The parameter array that a successful `build` leaves. -/
theorem build_success_parameters (gl : Driver) (output : Bool) (e : GLSLEffect)
    (hres : (build gl output e).result = true) (hprog : gl.createProgram ≠ 0) :
    (build gl output e).effect.m_parameterArray =
      (initTextureUnits gl.maxTextureImageUnits output 0
        (initLoop (gl.link e.m_vertexShaderText e.m_fragmentShaderText) (initState e)
          (gl.link e.m_vertexShaderText e.m_fragmentShaderText).activeUniforms
          ).newParameterArray).1 := by
  obtain ⟨h1, h2, h3⟩ := (build_result_true_iff gl output e).1 hres
  simp [build, h1, h2, h3, initParameters, hprog, deleteProgram, initState]

/-! ## Carry-over and new parameters -/

theorem getParameterValue_congr (prog : Program) (p p1 : GLSLParameter)
    (ht : p.glType = p1.glType) (hl : p.location = p1.location) :
    getParameterValue prog p = getParameterValue prog p1 := by
  unfold getParameterValue
  rw [ht, hl]

/-- C5: after a successful build (of a program with a non-zero handle), for every
enumerated user uniform, the parameter that the previous list holds for its name
and type (the first one, should there be several) is in the new list: the same
object, with its name, type, value, range and description unchanged, and with
the location of the uniform in the newly linked program. -/
theorem build_carries_over (gl : Driver) (output : Bool) (e : GLSLEffect) (u : ActiveUniform)
    (p : GLSLParameter)
    (hres : (build gl output e).result = true) (hprog : gl.createProgram ≠ 0)
    (hu : u ∈ (gl.link e.m_vertexShaderText e.m_fragmentShaderText).activeUniforms)
    (huser : isUserUniform u = true)
    (hfind : e.m_parameterArray.find? (fun x => decide (x.name = u.name ∧ x.glType = u.type))
      = some p) :
    ∃ unit, { p with
        location := (gl.link e.m_vertexShaderText e.m_fragmentShaderText).uniformLocation u.name,
        texUnit := unit } ∈ (build gl output e).effect.m_parameterArray := by
  rw [build_success_parameters gl output e hres hprog]
  have hfirst : firstOld u.name u.type (initState e).old = some p := by
    simp only [initState]
    rw [firstOld_map_some]
    exact hfind
  have hmem := initLoop_carry (gl.link e.m_vertexShaderText e.m_fragmentShaderText) _
    (initState e) u p hu huser hfirst
  exact initTextureUnits_mem gl.maxTextureImageUnits output _ 0 _ hmem

theorem build_carries_over_witness :
    ∃ unit, { exBrightness with
        location := ((exDriver [exBrightnessUniform]).link exWithBrightness.m_vertexShaderText
          exWithBrightness.m_fragmentShaderText).uniformLocation exBrightnessUniform.name,
        texUnit := unit } ∈
      (build (exDriver [exBrightnessUniform]) true exWithBrightness).effect.m_parameterArray :=
  build_carries_over (exDriver [exBrightnessUniform]) true exWithBrightness exBrightnessUniform
    exBrightness (by decide) (by decide) (by decide) (by decide) (by decide)

theorem prefix_bracket (c : Char) (n : QString) :
    ∀ (m rest : QString), c ∉ n → c ∉ m → (n ++ [c]) <+: (m ++ c :: rest) → n = m := by
  induction n with
  | nil =>
    intro m rest _ hm h
    cases m with
    | nil => rfl
    | cons d m1 =>
      exfalso
      simp only [List.nil_append, List.cons_append] at h
      have := (List.cons_prefix_cons.1 h).1
      exact hm (by rw [this]; exact List.mem_cons_self _ _)
  | cons a n1 ih =>
    intro m rest hn hm h
    cases m with
    | nil =>
      exfalso
      simp only [List.nil_append, List.cons_append] at h
      have := (List.cons_prefix_cons.1 h).1
      exact hn (by rw [← this]; exact List.mem_cons_self _ _)
    | cons d m1 =>
      simp only [List.cons_append] at h
      obtain ⟨had, hrest⟩ := List.cons_prefix_cons.1 h
      rw [had, ih m1 rest (fun hc => hn (List.mem_cons_of_mem _ hc))
        (fun hc => hm (List.mem_cons_of_mem _ hc)) hrest]

/-- The test that picks the parameters of the array uniform `name` out of a
list: the name itself or a name that starts with `name[`. -/
theorem elementName_test (name : QString) (i : Nat) :
    (decide (elementName name i = name) || startsWith (elementName name i) (name ++ "[".toList))
      = true := by
  have : startsWith (elementName name i) (name ++ "[".toList) = true := by
    unfold startsWith elementName
    rw [List.isPrefixOf_iff_prefix, List.append_assoc]
    exact List.prefix_append _ _
  rw [this, Bool.or_true]

theorem other_name_test (n m name : QString) (hn : '[' ∉ n) (hm : '[' ∉ m) (hne : m ≠ n)
    (h : name = m ∨ ∃ i : Nat, name = elementName m i) :
    (decide (name = n) || startsWith name (n ++ "[".toList)) = false := by
  have hb : "[".toList = ['['] := rfl
  rw [Bool.or_eq_false_iff]
  rcases h with rfl | ⟨i, rfl⟩
  · constructor
    · simpa using hne
    · rw [Bool.eq_false_iff, Ne, startsWith, List.isPrefixOf_iff_prefix]
      rintro ⟨t, ht⟩
      apply hm
      rw [← ht, hb]
      simp
  · constructor
    · rw [decide_eq_false_iff_not]
      intro h
      apply hn
      rw [← h, elementName, hb]
      simp
    · rw [Bool.eq_false_iff, Ne, startsWith, List.isPrefixOf_iff_prefix, elementName, hb,
        List.append_assoc, List.append_assoc]
      intro h
      exact hne (prefix_bracket '[' n m _ hn hm h).symm

theorem origin_name (prog : Program) (old : List (Option GLSLParameter)) (heap : Nat)
    (u : ActiveUniform) (p : GLSLParameter) (h : Origin prog old heap u p) :
    p.name = u.name ∨ ∃ i : Nat, p.name = elementName u.name i := by
  rcases h with ⟨o, _, hn, _, hp⟩ | ⟨_, h⟩
  · left
    rw [hp]
    exact hn
  · exact h

theorem filter_name (test : QString → Bool) (l : List GLSLParameter) :
    (l.filter (fun p => test p.name)).map (fun p => p.name) =
      (l.map (fun p => p.name)).filter test := by
  induction l with
  | nil => rfl
  | cons x rest ih =>
    simp only [List.filter_cons, List.map_cons]
    split
    · rw [List.map_cons, ih]
    · exact ih

/-- C8 (the code departs from the claim): when the previous list holds a float
parameter named `weight`, a successful build of a program with the uniform
`float weight[3]` keeps that one parameter and makes none of `weight[0]`,
`weight[1]`, `weight[2]`. -/
theorem build_array_not_expanded :
    (build (exDriver [exWeight]) false exWithWeight).result = true ∧
    (build (exDriver [exWeight]) false exWithWeight).effect.m_parameterArray.map
      (fun p => p.name) = ["weight".toList] := by
  decide

/-- Array expansion where the search finds nothing: after a successful build (of
a program with a non-zero handle), for every enumerated user uniform with name
`n` declared as an array of size `K > 1`, if the previous list holds no
parameter with the name `n` and the type of the uniform, no other enumerated
uniform is named `n` and no enumerated name contains `[`, then the parameters of
the resulting list named `n` or `n[...]` are exactly `K`, named `n[0]`, ...,
`n[K-1]` in that order; none is named `n`. -/
theorem build_expands_array (gl : Driver) (output : Bool) (e : GLSLEffect) (u : ActiveUniform)
    (us1 us2 : List ActiveUniform)
    (hres : (build gl output e).result = true) (hprog : gl.createProgram ≠ 0)
    (hsplit : (gl.link e.m_vertexShaderText e.m_fragmentShaderText).activeUniforms
      = us1 ++ u :: us2)
    (huser : isUserUniform u = true) (hsize : 1 < u.size)
    (hnone : ∀ p ∈ e.m_parameterArray, ¬ (p.name = u.name ∧ p.glType = u.type))
    (hother : ∀ u1 ∈ us1 ++ us2, u1.name ≠ u.name)
    (hbracket : ∀ u1 ∈ us1 ++ u :: us2, '[' ∉ u1.name) :
    ((build gl output e).effect.m_parameterArray.filter (fun p =>
        decide (p.name = u.name) || startsWith p.name (u.name ++ "[".toList))).map
      (fun p => p.name)
      = (List.range u.size.toNat).map (elementName u.name) := by
  rw [build_success_parameters gl output e hres hprog]
  generalize hprogdef : gl.link e.m_vertexShaderText e.m_fragmentShaderText = prog at *
  have hfm : ∀ l : List GLSLParameter,
      (l.filter (fun p => decide (p.name = u.name) || startsWith p.name (u.name ++ "[".toList))).map
        (fun p => p.name) =
      (l.map (fun p => p.name)).filter (fun s =>
        decide (s = u.name) || startsWith s (u.name ++ "[".toList)) := by
    intro l
    exact filter_name (fun s => decide (s = u.name) || startsWith s (u.name ++ "[".toList)) l
  rw [hfm, initTextureUnits_names, hsplit, initLoop_append, initLoop_cons]
  obtain ⟨added1, hnew1, horig1, _, hold1⟩ := initLoop_added prog us1 (initState e)
  have hold0 : ∀ o, some o ∈ (initState e).old → o ∈ e.m_parameterArray := by
    intro o ho
    simpa [initState] using ho
  have hf : findOld u.name u.type (prog.uniformLocation u.name)
      (initLoop prog (initState e) us1).old = none := by
    rw [findOld_none_iff]
    exact firstOld_none _ _ _ (fun p hp => hnone p (hold0 p (hold1 p hp)))
  have hst := initStep_fresh prog (initLoop prog (initState e) us1) u huser hf
  obtain ⟨added2, hnew2, horig2, _, _⟩ := initLoop_added prog us2
    (initStep prog (initLoop prog (initState e) us1) u)
  rw [hnew2, hst]
  simp only []
  rw [hnew1]
  simp only [initState, List.nil_append, List.map_append, List.filter_append]
  have hun : '[' ∉ u.name := hbracket u (by simp)
  have h1 : (added1.map (fun p => p.name)).filter (fun s =>
      decide (s = u.name) || startsWith s (u.name ++ "[".toList)) = [] := by
    rw [List.filter_eq_nil_iff]
    intro s hs
    obtain ⟨p, hp, rfl⟩ := List.mem_map.1 hs
    obtain ⟨u1, hu1, _, ho⟩ := horig1 p hp
    rw [other_name_test u.name u1.name p.name hun (hbracket u1 (by simp [hu1]))
      (hother u1 (by simp [hu1])) (origin_name _ _ _ _ _ ho)]
    exact Bool.false_ne_true
  have h2 : (added2.map (fun p => p.name)).filter (fun s =>
      decide (s = u.name) || startsWith s (u.name ++ "[".toList)) = [] := by
    rw [List.filter_eq_nil_iff]
    intro s hs
    obtain ⟨p, hp, rfl⟩ := List.mem_map.1 hs
    obtain ⟨u1, hu1, _, ho⟩ := horig2 p hp
    rw [other_name_test u.name u1.name p.name hun (hbracket u1 (by simp [hu1]))
      (hother u1 (by simp [hu1])) (origin_name _ _ _ _ _ ho)]
    exact Bool.false_ne_true
  have hne1 : u.size ≠ 1 := by omega
  have h3 : (addParameters prog (initLoop prog
        { old := List.map some e.m_parameterArray, newParameterArray := [], m_timeUniform := -1,
          heap := e.heap } us1).heap u.name u.size u.type (prog.uniformLocation u.name)).map
      (fun p => p.name) = (List.range u.size.toNat).map (elementName u.name) := by
    simp only [addParameters, hne1, if_false, List.map_map]
    rfl
  rw [h1, h2, h3, List.nil_append, List.append_nil, List.filter_eq_self]
  intro s hs
  obtain ⟨i, _, rfl⟩ := List.mem_map.1 hs
  exact elementName_test u.name i

set_option maxRecDepth 100000 in
theorem build_expands_array_witness :
    ((build (exDriver [exWeight]) true GLSLEffect.ctor).effect.m_parameterArray.filter (fun p =>
        decide (p.name = exWeight.name) || startsWith p.name (exWeight.name ++ "[".toList))).map
      (fun p => p.name)
      = (List.range exWeight.size.toNat).map (elementName exWeight.name) :=
  build_expands_array (exDriver [exWeight]) true GLSLEffect.ctor exWeight [] []
    (by decide) (by decide) (by decide) (by decide) (by decide) (by decide) (by decide)
    (by decide)

/-! ## Building twice -/

theorem initStep_time (prog : Program) (st : InitState) (u : ActiveUniform) :
    (initStep prog st u).m_timeUniform =
      if startsWith u.name "gl_".toList = true then st.m_timeUniform
      else if QString.toLower u.name = "time".toList then prog.uniformLocation u.name
      else st.m_timeUniform := by
  unfold initStep
  split
  · rfl
  · split
    · rfl
    · dsimp only
      split <;> rfl

theorem initLoop_time (prog : Program) (us : List ActiveUniform) :
    ∀ st st1 : InitState, st.m_timeUniform = st1.m_timeUniform →
      (initLoop prog st us).m_timeUniform = (initLoop prog st1 us).m_timeUniform := by
  induction us with
  | nil => intro st st1 h; exact h
  | cons u us ih =>
    intro st st1 h
    rw [initLoop_cons, initLoop_cons]
    apply ih
    rw [initStep_time, initStep_time, h]

/-- Without arrays, the loop puts one parameter in the new array for each user
uniform, in order, with the name, the type and the location of the uniform. -/
theorem initLoop_matches (prog : Program) (us : List ActiveUniform)
    (hsize : ∀ u ∈ us, isUserUniform u = true → u.size = 1) :
    ∀ st : InitState, ∃ added,
      (initLoop prog st us).newParameterArray = st.newParameterArray ++ added ∧
      List.Forall₂ (Matches prog) (us.filter isUserUniform) added := by
  induction us with
  | nil => intro st; exact ⟨[], by simp [initLoop], by simp⟩
  | cons u us ih =>
    intro st
    obtain ⟨added1, hnew1, hall1⟩ := ih (fun x hx => hsize x (List.mem_cons_of_mem _ hx))
      (initStep prog st u)
    rw [initLoop_cons]
    by_cases hu : isUserUniform u = true
    · rw [List.filter_cons_of_pos hu]
      cases hf : findOld u.name u.type (prog.uniformLocation u.name) st.old with
      | none =>
        have hst := initStep_fresh prog st u hu hf
        have hs := hsize u (List.mem_cons_self _ _) hu
        have hadd : addParameters prog st.heap u.name u.size u.type (prog.uniformLocation u.name) =
            [(GLSLParameter.mk3 st.heap u.name u.type (prog.uniformLocation u.name)).setValue
              (getParameterValue prog
                (GLSLParameter.mk3 st.heap u.name u.type (prog.uniformLocation u.name)))] := by
          simp [addParameters, hs]
        rw [hadd] at hst
        rw [hst] at hnew1 ⊢
        simp only [] at hnew1
        refine ⟨(GLSLParameter.mk3 st.heap u.name u.type (prog.uniformLocation u.name)).setValue
              (getParameterValue prog
                (GLSLParameter.mk3 st.heap u.name u.type (prog.uniformLocation u.name))) :: added1,
          by rw [hnew1]; simp, List.Forall₂.cons ⟨rfl, rfl, rfl⟩ hall1⟩
      | some r =>
        obtain ⟨q, old1⟩ := r
        have hst := initStep_found prog st u q old1 hu hf
        rw [hst] at hnew1 ⊢
        simp only [] at hnew1
        obtain ⟨o, ho, hq⟩ := findOld_some _ _ _ _ _ _ hf
        obtain ⟨_, hn, ht⟩ := firstOld_some _ _ _ _ ho
        refine ⟨q :: added1, by rw [hnew1]; simp, List.Forall₂.cons ?_ hall1⟩
        rw [hq]
        exact ⟨hn, ht, rfl⟩
    · have hu0 : isUserUniform u = false := by simpa using hu
      rw [List.filter_cons_of_neg hu]
      obtain ⟨_, h2, _⟩ := initStep_not_user prog st u hu0
      rw [h2] at hnew1
      exact ⟨added1, hnew1, hall1⟩

theorem initTextureUnits_matches (prog : Program) (t : Int) (output : Bool)
    (l : List GLSLParameter) :
    ∀ (unit : Int) (us : List ActiveUniform), List.Forall₂ (Matches prog) us l →
      List.Forall₂ (Matches prog) us (initTextureUnits t output unit l).1 := by
  induction l with
  | nil => intro unit us h; simpa [initTextureUnits] using h
  | cons x rest ih =>
    intro unit us h
    cases h with
    | cons hx hrest =>
      unfold initTextureUnits
      split
      · split
        · exact List.Forall₂.cons hx (ih _ _ hrest)
        · exact List.Forall₂.cons hx (ih _ _ hrest)
      · exact List.Forall₂.cons hx (ih _ _ hrest)

theorem initTextureUnits_idem (t : Int) (o1 o2 : Bool) (l : List GLSLParameter) :
    ∀ unit : Int, (initTextureUnits t o2 unit (initTextureUnits t o1 unit l).1).1
      = (initTextureUnits t o1 unit l).1 := by
  induction l with
  | nil => intro unit; simp [initTextureUnits]
  | cons x rest ih =>
    intro unit
    by_cases hx : x.isTexture = true
    · by_cases hlt : unit < t
      · have hx1 : (x.setTextureUnit unit).isTexture = true := hx
        have h1 : (initTextureUnits t o1 unit (x :: rest)).1 =
            x.setTextureUnit unit :: (initTextureUnits t o1 (unit + 1) rest).1 := by
          simp [initTextureUnits, hx, hlt]
        rw [h1]
        simp only [initTextureUnits, hx1, hlt, if_true]
        rw [ih]
        rfl
      · have h1 : (initTextureUnits t o1 unit (x :: rest)).1 =
            x :: (initTextureUnits t o1 unit rest).1 := by
          simp [initTextureUnits, hx, hlt]
        rw [h1]
        simp only [initTextureUnits, hx, hlt, if_true, if_false]
        rw [ih]
    · have h1 : (initTextureUnits t o1 unit (x :: rest)).1 =
          x :: (initTextureUnits t o1 unit rest).1 := by
        simp [initTextureUnits, hx]
      rw [h1]
      simp only [initTextureUnits, hx]
      simp only [Bool.false_eq_true, if_false]
      rw [ih]

theorem findOld_replicate (n : QString) (t : Nat) (l : Int) (p : GLSLParameter)
    (rest : List (Option GLSLParameter)) (hn : p.name = n) (ht : p.glType = t) :
    ∀ k : Nat, findOld n t l (List.replicate k none ++ some p :: rest) =
      some (p.setLocation l, List.replicate (k + 1) none ++ rest) := by
  intro k
  induction k with
  | zero => simp [findOld, hn, ht]
  | succ k ih =>
    rw [List.replicate_succ, List.cons_append, findOld, ih]
    simp [List.replicate_succ]

/-- Run on the array that an earlier run without arrays has left, the loop takes
every entry of the old array in turn and makes nothing. -/
theorem initLoop_again (prog : Program) (us : List ActiveUniform) :
    ∀ (l : List GLSLParameter) (k : Nat) (st : InitState),
      List.Forall₂ (Matches prog) (us.filter isUserUniform) l →
      st.old = List.replicate k none ++ l.map some →
      (initLoop prog st us).newParameterArray = st.newParameterArray ++ l ∧
      (initLoop prog st us).heap = st.heap := by
  induction us with
  | nil =>
    intro l k st h _
    simp only [List.filter_nil, List.forall₂_nil_left_iff] at h
    subst h
    simp [initLoop]
  | cons u us ih =>
    intro l k st h hold
    rw [initLoop_cons]
    by_cases hu : isUserUniform u = true
    · rw [List.filter_cons_of_pos hu] at h
      cases h with
      | @cons _ p _ rest hp hrest =>
        obtain ⟨hn, ht, hl⟩ := hp
        have hf : findOld u.name u.type (prog.uniformLocation u.name) st.old =
            some (p, List.replicate (k + 1) none ++ rest.map some) := by
          rw [hold, List.map_cons, findOld_replicate _ _ _ p _ hn ht k]
          have : p.setLocation (prog.uniformLocation u.name) = p := by
            rw [← hl]
            rfl
          rw [this]
        have hst := initStep_found prog st u p _ hu hf
        rw [hst]
        obtain ⟨h1, h2⟩ := ih rest (k + 1)
          { st with old := List.replicate (k + 1) none ++ rest.map some,
                    newParameterArray := st.newParameterArray ++ [p] } hrest rfl
        simp only [] at h1 h2
        exact ⟨by rw [h1]; simp, h2⟩
    · have hu0 : isUserUniform u = false := by simpa using hu
      rw [List.filter_cons_of_neg hu] at h
      obtain ⟨e1, e2, e3⟩ := initStep_not_user prog st u hu0
      obtain ⟨h1, h2⟩ := ih l k (initStep prog st u) h (by rw [e1]; exact hold)
      exact ⟨by rw [h1, e2], by rw [h2, e3]⟩

theorem build_effect_of_failure (gl : Driver) (output : Bool) (e : GLSLEffect)
    (h : (build gl output e).result = false) :
    (build gl output e).effect = withHandles gl e := by
  unfold build at h ⊢
  simp only [] at h ⊢
  split
  · rfl
  · split
    · rfl
    · split
      · rfl
      · rename_i h1 h2 h3
        simp [h1, h2, h3] at h

theorem build_effect_of_success (gl : Driver) (output : Bool) (e : GLSLEffect)
    (h : (build gl output e).result = true) :
    (build gl output e).effect =
      (initParameters (gl.link e.m_vertexShaderText e.m_fragmentShaderText)
        gl.maxTextureImageUnits output (withHandles gl e)).1 := by
  obtain ⟨h1, h2, h3⟩ := (build_result_true_iff gl output e).1 h
  unfold build
  simp only [h1, h2, h3, if_false]
  rfl

theorem initParameters_texts (prog : Program) (t : Int) (output : Bool) (e : GLSLEffect) :
    (initParameters prog t output e).1.m_vertexShaderText = e.m_vertexShaderText ∧
    (initParameters prog t output e).1.m_fragmentShaderText = e.m_fragmentShaderText := by
  unfold initParameters
  split <;> exact ⟨rfl, rfl⟩

theorem build_texts (gl : Driver) (output : Bool) (e : GLSLEffect) :
    (build gl output e).effect.m_vertexShaderText = e.m_vertexShaderText ∧
    (build gl output e).effect.m_fragmentShaderText = e.m_fragmentShaderText := by
  cases h : (build gl output e).result
  · rw [build_effect_of_failure gl output e h]
    exact ⟨rfl, rfl⟩
  · rw [build_effect_of_success gl output e h]
    exact initParameters_texts _ _ _ _

theorem build_result_again (gl : Driver) (o1 o2 : Bool) (e : GLSLEffect) :
    (build gl o2 (build gl o1 e).effect).result = (build gl o1 e).result := by
  have h1 := build_result_true_iff gl o1 e
  have h2 := build_result_true_iff gl o2 (build gl o1 e).effect
  rw [(build_texts gl o1 e).1, (build_texts gl o1 e).2] at h2
  have h3 := h2.trans h1.symm
  cases ha : (build gl o1 e).result <;> cases hb : (build gl o2 (build gl o1 e).effect).result
  · rfl
  · rw [ha, hb] at h3
    exact absurd (h3.1 rfl) (by simp)
  · rw [ha, hb] at h3
    exact absurd (h3.2 rfl) (by simp)
  · rfl

/-- Without arrays, a second run of `initParameters` on the effect that the first
run has left changes nothing. -/
theorem initParameters_again (prog : Program) (t : Int) (o1 o2 : Bool) (e : GLSLEffect)
    (hsize : ∀ u ∈ prog.activeUniforms, isUserUniform u = true → u.size = 1) :
    (initParameters prog t o2 (initParameters prog t o1 e).1).1 = (initParameters prog t o1 e).1 := by
  by_cases hp : e.m_program = 0
  · simp [initParameters, hp]
  · obtain ⟨added, hnew, hall⟩ := initLoop_matches prog prog.activeUniforms hsize (initState e)
    simp only [initState, List.nil_append] at hnew
    have hall1 := initTextureUnits_matches prog t o1 added 0 _ hall
    have h1 : (initParameters prog t o1 e).1 =
        { e with
          m_timeUniform := (initLoop prog (initState e) prog.activeUniforms).m_timeUniform,
          m_parameterArray := (initTextureUnits t o1 0 added).1,
          heap := (initLoop prog (initState e) prog.activeUniforms).heap } := by
      simp only [initParameters, hp, if_false, initState, hnew]
    rw [h1]
    obtain ⟨hagain, hheap⟩ := initLoop_again prog prog.activeUniforms
      (initTextureUnits t o1 0 added).1 0
      { old := (initTextureUnits t o1 0 added).1.map some, newParameterArray := [],
        m_timeUniform := -1,
        heap := (initLoop prog (initState e) prog.activeUniforms).heap } hall1 (by simp)
    have htime := initLoop_time prog prog.activeUniforms
      { old := (initTextureUnits t o1 0 added).1.map some, newParameterArray := [],
        m_timeUniform := -1,
        heap := (initLoop prog (initState e) prog.activeUniforms).heap } (initState e) rfl
    simp only [List.nil_append] at hagain hheap
    simp only [initParameters, hp, if_false]
    rw [hagain, hheap, htime, initTextureUnits_idem]

/-- C7 (the code departs from the claim): for a program with the array
`uniform float weight[3]` the second of two successful builds in succession
makes its three parameters anew, as the heap objects 3, 4 and 5 where the first
build had made the objects 0, 1 and 2. -/
theorem build_twice_recreates_array :
    (build (exDriver [exWeight]) false GLSLEffect.ctor).result = true ∧
    (build (exDriver [exWeight]) false
      (build (exDriver [exWeight]) false GLSLEffect.ctor).effect).result = true ∧
    (build (exDriver [exWeight]) false GLSLEffect.ctor).effect.m_parameterArray.map
      (fun p => p.obj) = [0, 1, 2] ∧
    (build (exDriver [exWeight]) false
      (build (exDriver [exWeight]) false GLSLEffect.ctor).effect).effect.m_parameterArray.map
      (fun p => p.obj) = [3, 4, 5] := by
  decide

/-- Idempotence without arrays: with the same driver and unchanged sources, the
second of two calls of `build` in succession returns what the first returned;
and when every enumerated user uniform has array size 1, the second call leaves
the effect as the first left it: the parameter list holds the same objects with
the same names, types and values in the same order, and nothing is made anew. -/
theorem build_twice (gl : Driver) (o1 o2 : Bool) (e : GLSLEffect) :
    (build gl o2 (build gl o1 e).effect).result = (build gl o1 e).result ∧
    ((∀ u ∈ (gl.link e.m_vertexShaderText e.m_fragmentShaderText).activeUniforms,
        isUserUniform u = true → u.size = 1) →
      (build gl o2 (build gl o1 e).effect).effect = (build gl o1 e).effect) := by
  refine ⟨build_result_again gl o1 o2 e, fun hsize => ?_⟩
  have hres := build_result_again gl o1 o2 e
  cases h : (build gl o1 e).result
  · rw [h] at hres
    rw [build_effect_of_failure gl o2 _ hres, build_effect_of_failure gl o1 e h]
    rfl
  · rw [h] at hres
    rw [build_effect_of_success gl o2 _ hres, (build_texts gl o1 e).1, (build_texts gl o1 e).2,
      build_effect_of_success gl o1 e h]
    have hw : withHandles gl (initParameters (gl.link e.m_vertexShaderText e.m_fragmentShaderText)
        gl.maxTextureImageUnits o1 (withHandles gl e)).1 =
        (initParameters (gl.link e.m_vertexShaderText e.m_fragmentShaderText)
          gl.maxTextureImageUnits o1 (withHandles gl e)).1 := by
      unfold initParameters
      split <;> rfl
    rw [hw]
    exact initParameters_again _ _ o1 o2 _ hsize

set_option maxRecDepth 100000 in
theorem build_twice_witness :
    (build (exDriver [exK, exTime, exTex]) true
      (build (exDriver [exK, exTime, exTex]) true exWithBrightness).effect).result
      = (build (exDriver [exK, exTime, exTex]) true exWithBrightness).result ∧
    (∀ u ∈ ((exDriver [exK, exTime, exTex]).link exWithBrightness.m_vertexShaderText
        exWithBrightness.m_fragmentShaderText).activeUniforms,
        isUserUniform u = true → u.size = 1) ∧
    (build (exDriver [exK, exTime, exTex]) true
      (build (exDriver [exK, exTime, exTex]) true exWithBrightness).effect).effect
      = (build (exDriver [exK, exTime, exTex]) true exWithBrightness).effect :=
  ⟨(build_twice (exDriver [exK, exTime, exTex]) true true exWithBrightness).1, by decide,
    (build_twice (exDriver [exK, exTime, exTex]) true true exWithBrightness).2 (by decide)⟩

/-! ## What a build sends to the message panel -/

theorem deleteProgram_not_output (e : GLSLEffect) :
    ∀ c ∈ (deleteProgram e).2, c.isOutput = false := by
  intro c hc
  rcases deleteProgram_calls e c hc with ⟨_, _, h⟩ | ⟨_, h⟩ <;> rw [h] <;> rfl

theorem not_log_of_not_output (c : Call) (h : c.isOutput = false) : c.isLog = false := by
  cases c <;> simp [Call.isOutput, Call.isLog] at h ⊢

theorem not_error_of_not_output (c : Call) (h : c.isOutput = false) : c.isError = false := by
  cases c <;> simp [Call.isOutput, Call.isError] at h ⊢

/-- What the loop over the texture parameters sends to the panel: errors only,
and nothing without a panel; the parameters do not depend on the panel. -/
theorem initTextureUnits_calls (t : Int) (l : List GLSLParameter) :
    ∀ unit : Int,
      (initTextureUnits t false unit l).1 = (initTextureUnits t true unit l).1 ∧
      (initTextureUnits t false unit l).2 = [] ∧
      (∀ c ∈ (initTextureUnits t true unit l).2, c.isError = true) := by
  induction l with
  | nil => intro unit; simp [initTextureUnits]
  | cons x rest ih =>
    intro unit
    unfold initTextureUnits
    split
    · split
      · obtain ⟨h1, h2, h3⟩ := ih (unit + 1)
        exact ⟨by simp [h1], h2, h3⟩
      · obtain ⟨h1, h2, h3⟩ := ih unit
        refine ⟨by simp [h1], by simp [h2], ?_⟩
        intro c hc
        simp only [if_true, List.singleton_append, List.mem_cons] at hc
        rcases hc with hc | hc
        · rw [hc]; rfl
        · exact h3 c hc
    · obtain ⟨h1, h2, h3⟩ := ih unit
      exact ⟨by simp [h1], h2, h3⟩

theorem initParameters_calls (prog : Program) (t : Int) (e : GLSLEffect) :
    (initParameters prog t false e).1 = (initParameters prog t true e).1 ∧
    (initParameters prog t false e).2 = [] ∧
    (∀ c ∈ (initParameters prog t true e).2, c.isError = true) := by
  unfold initParameters
  split
  · simp
  · obtain ⟨h1, h2, h3⟩ := initTextureUnits_calls t
      (initLoop prog
        { old := e.m_parameterArray.map some, newParameterArray := [], m_timeUniform := -1,
          heap := e.heap } prog.activeUniforms).newParameterArray 0
    exact ⟨by simp only [h1], h2, h3⟩

theorem filter_eq_nil_of_forall {α : Type} (p : α → Bool) (l : List α)
    (h : ∀ c ∈ l, p c = false) : l.filter p = [] := by
  rw [List.filter_eq_nil_iff]
  intro c hc
  rw [h c hc]
  exact Bool.false_ne_true

theorem compileCalls_logs (gl : Driver) (e : GLSLEffect) :
    (compileCalls gl true e).filter Call.isLog =
      [Call.outputLog (gl.compileVertex e.m_vertexShaderText).infoLog 0,
       Call.outputLog (gl.compileFragment e.m_fragmentShaderText).infoLog 1] := by
  simp [compileCalls, List.filter, Call.isLog]

theorem linkCalls_logs (gl : Driver) (e : GLSLEffect) :
    (linkCalls gl true e).filter Call.isLog =
      [Call.outputLog (gl.link e.m_vertexShaderText e.m_fragmentShaderText).infoLog (-1)] := by
  simp [linkCalls, List.filter, Call.isLog]

/-- C17: with a message panel, every `build` forwards the log of the vertex stage
with input index 0 and then the log of the fragment stage with input index 1,
whatever the compile results, and after them the link log with index -1 exactly
when both stages compiled; these are all the logs it forwards. The fragment
stage is compiled in every case. -/
theorem build_logs (gl : Driver) (e : GLSLEffect) :
    (build gl true e).calls.filter Call.isLog =
      [Call.outputLog (gl.compileVertex e.m_vertexShaderText).infoLog 0,
       Call.outputLog (gl.compileFragment e.m_fragmentShaderText).infoLog 1] ++
      (if (gl.compileVertex e.m_vertexShaderText).compileStatus ≠ GL_FALSE ∧
          (gl.compileFragment e.m_fragmentShaderText).compileStatus ≠ GL_FALSE then
        [Call.outputLog (gl.link e.m_vertexShaderText e.m_fragmentShaderText).infoLog (-1)]
       else []) ∧
    Call.glCompileShader gl.createFragmentShader ∈ (build gl true e).calls := by
  have hd : (deleteProgram e).2.filter Call.isLog = [] :=
    filter_eq_nil_of_forall _ _ (fun c hc =>
      not_log_of_not_output c (deleteProgram_not_output e c hc))
  have hc : Call.glCompileShader gl.createFragmentShader ∈
      (deleteProgram e).2 ++ compileCalls gl true e := by
    apply List.mem_append_right
    simp [compileCalls]
  have hi : ∀ prog : Program, ∀ e1 : GLSLEffect,
      (initParameters prog gl.maxTextureImageUnits true e1).2.filter Call.isLog = [] := by
    intro prog e1
    apply filter_eq_nil_of_forall
    intro c hc
    have := (initParameters_calls prog gl.maxTextureImageUnits e1).2.2 c hc
    cases c <;> simp [Call.isError, Call.isLog] at this ⊢
  unfold build
  simp only []
  split
  · rename_i h1
    simp only [List.filter_append, hd, compileCalls_logs, h1, ne_eq, not_true_eq_false,
      false_and, if_false, List.nil_append, List.append_nil, true_and]
    exact hc
  · split
    · rename_i h1 h2
      simp only [List.filter_append, hd, compileCalls_logs, h2, ne_eq, not_true_eq_false,
        and_false, if_false, List.nil_append, List.append_nil, true_and]
      exact hc
    · rename_i h1 h2
      split
      · simp only [List.filter_append, hd, compileCalls_logs, linkCalls_logs, ne_eq, h1, h2,
          not_false_eq_true, and_self, if_true, List.nil_append, true_and]
        exact List.mem_append_left _ hc
      · simp only [List.filter_append, hd, compileCalls_logs, linkCalls_logs, hi, ne_eq, h1, h2,
          not_false_eq_true, and_self, if_true, List.nil_append, List.append_nil, true_and]
        exact List.mem_append_left _ (List.mem_append_left _ hc)

theorem compileCalls_silent (gl : Driver) (e : GLSLEffect) :
    compileCalls gl false e = (compileCalls gl true e).filter (fun c => !c.isOutput) := by
  simp [compileCalls, List.filter, Call.isOutput]

theorem linkCalls_silent (gl : Driver) (e : GLSLEffect) :
    linkCalls gl false e = (linkCalls gl true e).filter (fun c => !c.isOutput) := by
  simp [linkCalls, List.filter, Call.isOutput]

/-- C18: `build` without a message panel returns what `build` with a panel
returns and leaves the same effect (handles, time uniform, parameters with
their names, types, values, locations and texture units); its calls are those of
the build with a panel less the calls on the panel, so none of them is a call on
a panel. -/
theorem build_silent (gl : Driver) (e : GLSLEffect) :
    (build gl false e).result = (build gl true e).result ∧
    (build gl false e).effect = (build gl true e).effect ∧
    (build gl false e).calls = (build gl true e).calls.filter (fun c => !c.isOutput) ∧
    (∀ c ∈ (build gl false e).calls, c.isOutput = false) := by
  have hd : (deleteProgram e).2.filter (fun c => !c.isOutput) = (deleteProgram e).2 := by
    rw [List.filter_eq_self]
    intro c hc
    rw [deleteProgram_not_output e c hc]
    rfl
  have hi : ∀ prog : Program, ∀ e1 : GLSLEffect,
      (initParameters prog gl.maxTextureImageUnits true e1).2.filter (fun c => !c.isOutput)
        = [] := by
    intro prog e1
    apply filter_eq_nil_of_forall
    intro c hc
    have := (initParameters_calls prog gl.maxTextureImageUnits e1).2.2 c hc
    cases c <;> simp [Call.isError, Call.isOutput] at this ⊢
  have h3 : (build gl false e).calls = (build gl true e).calls.filter (fun c => !c.isOutput) := by
    unfold build
    simp only []
    split
    · simp only [List.filter_append, hd, compileCalls_silent]
    · split
      · simp only [List.filter_append, hd, compileCalls_silent]
      · split
        · simp only [List.filter_append, hd, compileCalls_silent, linkCalls_silent]
        · simp only [List.filter_append, hd, compileCalls_silent, linkCalls_silent, hi,
            (initParameters_calls _ _ _).2.1, List.append_nil]
  refine ⟨?_, ?_, h3, ?_⟩
  · unfold build
    simp only []
    split
    · rfl
    · split
      · rfl
      · split <;> rfl
  · unfold build
    simp only []
    split
    · rfl
    · split
      · rfl
      · split
        · rfl
        · exact (initParameters_calls _ _ _).1
  · intro c hc
    rw [h3] at hc
    have := (List.mem_filter.1 hc).2
    simpa using this

/-! ## Reserved names -/

theorem elementName_not_reserved (name : QString) (i : Nat)
    (h : startsWith name "gl_".toList = false) :
    startsWith (elementName name i) "gl_".toList = false ∧
    QString.toLower (elementName name i) ≠ "time".toList := by
  have hb : "[".toList = ['['] := rfl
  have hg : "gl_".toList = ['g', 'l', '_'] := rfl
  constructor
  · unfold startsWith elementName at *
    rw [hb, hg] at *
    rcases name with _ | ⟨a, _ | ⟨b, _ | ⟨c, r⟩⟩⟩
    · simp [List.isPrefixOf]
    · simp [List.isPrefixOf]
    · simp [List.isPrefixOf]
    · simpa [List.isPrefixOf] using h
  · intro h1
    have hmem : '[' ∈ QString.toLower (elementName name i) := by
      unfold QString.toLower elementName
      rw [hb]
      simp only [List.map_append, List.mem_append, List.mem_map]
      left; left; right
      exact ⟨'[', by simp, by decide⟩
    rw [h1] at hmem
    revert hmem
    decide

/-- C11: after a successful build (of a program with a non-zero handle), whatever
the previous parameter list was, no parameter of the list has a name that
starts with `gl_` and none has a name equal to `time` when case is ignored. -/
theorem build_no_reserved_names (gl : Driver) (output : Bool) (e : GLSLEffect)
    (hres : (build gl output e).result = true) (hprog : gl.createProgram ≠ 0) :
    ∀ p ∈ (build gl output e).effect.m_parameterArray,
      startsWith p.name "gl_".toList = false ∧ QString.toLower p.name ≠ "time".toList := by
  intro p hp
  rw [build_success_parameters gl output e hres hprog] at hp
  obtain ⟨p0, hp0, k, hk⟩ := initTextureUnits_mem_inv gl.maxTextureImageUnits output _ 0 p hp
  obtain ⟨added, hnew, horig, _, _⟩ := initLoop_added
    (gl.link e.m_vertexShaderText e.m_fragmentShaderText)
    (gl.link e.m_vertexShaderText e.m_fragmentShaderText).activeUniforms (initState e)
  rw [hnew] at hp0
  simp only [initState, List.nil_append] at hp0
  obtain ⟨u, _, huser, ho⟩ := horig p0 hp0
  obtain ⟨hgl, ht⟩ := (isUserUniform_iff u).1 huser
  have hname : p.name = p0.name := by rw [hk]
  rw [hname]
  rcases origin_name _ _ _ _ _ ho with h | ⟨i, h⟩
  · rw [h]
    exact ⟨hgl, ht⟩
  · rw [h]
    exact elementName_not_reserved u.name i hgl

set_option maxRecDepth 100000 in
theorem build_no_reserved_names_witness :
    (build (exDriver [exK, exTime, exWeight]) true exWithReservedNames).result = true ∧
    (build (exDriver [exK, exTime, exWeight]) true exWithReservedNames
      ).effect.m_parameterArray.map (fun p => p.name)
      = ["k".toList, "weight[0]".toList, "weight[1]".toList, "weight[2]".toList] ∧
    ∀ p ∈ (build (exDriver [exK, exTime, exWeight]) true exWithReservedNames
        ).effect.m_parameterArray,
      startsWith p.name "gl_".toList = false ∧ QString.toLower p.name ≠ "time".toList :=
  ⟨by decide, by decide,
   build_no_reserved_names (exDriver [exK, exTime, exWeight]) true exWithReservedNames
    (by decide) (by decide)⟩

/-! ## Texture units -/

theorem initTextureUnits_units (t : Int) (output : Bool) (l : List GLSLParameter) :
    ∀ (unit : Int) (i : Nat) (p : GLSLParameter),
      ((initTextureUnits t output unit l).1.filter GLSLParameter.isTexture)[i]? = some p →
      unit + i < t → p.texUnit = unit + i := by
  induction l with
  | nil => intro unit i p h; simp [initTextureUnits] at h
  | cons x rest ih =>
    intro unit i p h hlt
    by_cases hx : x.isTexture = true
    · by_cases hu : unit < t
      · have hx1 : (x.setTextureUnit unit).isTexture = true := hx
        have h1 : (initTextureUnits t output unit (x :: rest)).1 =
            x.setTextureUnit unit :: (initTextureUnits t output (unit + 1) rest).1 := by
          simp [initTextureUnits, hx, hu]
        rw [h1, List.filter_cons_of_pos hx1] at h
        cases i with
        | zero =>
          simp only [List.getElem?_cons_zero, Option.some.injEq] at h
          rw [← h]
          simp [GLSLParameter.setTextureUnit]
        | succ j =>
          simp only [List.getElem?_cons_succ] at h
          have := ih (unit + 1) j p h (by push_cast at hlt; omega)
          rw [this]
          push_cast
          omega
      · exfalso
        have : (0 : Int) ≤ i := Int.ofNat_nonneg i
        omega
    · have h1 : (initTextureUnits t output unit (x :: rest)).1 =
          x :: (initTextureUnits t output unit rest).1 := by
        simp [initTextureUnits, hx]
      rw [h1, List.filter_cons_of_neg hx] at h
      exact ih unit i p h hlt

theorem initTextureUnits_errors (t : Int) (l : List GLSLParameter) :
    ∀ unit : Int,
      (initTextureUnits t true unit l).2 =
        (((initTextureUnits t true unit l).1.filter GLSLParameter.isTexture).drop
          (t - unit).toNat).map (fun p => textureLimitError p.name) := by
  induction l with
  | nil => intro unit; simp [initTextureUnits]
  | cons x rest ih =>
    intro unit
    by_cases hx : x.isTexture = true
    · by_cases hu : unit < t
      · have hx1 : (x.setTextureUnit unit).isTexture = true := hx
        have h1 : initTextureUnits t true unit (x :: rest) =
            (x.setTextureUnit unit :: (initTextureUnits t true (unit + 1) rest).1,
              (initTextureUnits t true (unit + 1) rest).2) := by
          simp [initTextureUnits, hx, hu]
        have hn : (t - unit).toNat = (t - (unit + 1)).toNat + 1 := by omega
        rw [h1]
        simp only []
        rw [List.filter_cons_of_pos hx1, hn, List.drop_succ_cons]
        exact ih (unit + 1)
      · have h1 : initTextureUnits t true unit (x :: rest) =
            (x :: (initTextureUnits t true unit rest).1,
              textureLimitError x.name :: (initTextureUnits t true unit rest).2) := by
          simp [initTextureUnits, hx, hu, textureLimitError]
        have hn : (t - unit).toNat = 0 := by omega
        rw [h1]
        simp only []
        rw [List.filter_cons_of_pos hx, hn, List.drop_zero, List.map_cons, ih unit, hn,
          List.drop_zero]
    · have h1 : initTextureUnits t true unit (x :: rest) =
          (x :: (initTextureUnits t true unit rest).1, (initTextureUnits t true unit rest).2) := by
        simp [initTextureUnits, hx]
      rw [h1]
      simp only []
      rw [List.filter_cons_of_neg hx]
      exact ih unit

theorem compileCalls_not_error (gl : Driver) (output : Bool) (e : GLSLEffect) :
    (compileCalls gl output e).filter Call.isError = [] := by
  cases output <;> simp [compileCalls, List.filter, Call.isError]

theorem linkCalls_not_error (gl : Driver) (output : Bool) (e : GLSLEffect) :
    (linkCalls gl output e).filter Call.isError = [] := by
  cases output <;> simp [linkCalls, List.filter, Call.isError]

/-- The errors that a successful `build` sends to the panel are those of the loop
over the texture parameters. -/
theorem build_success_errors (gl : Driver) (output : Bool) (e : GLSLEffect)
    (hres : (build gl output e).result = true) (hprog : gl.createProgram ≠ 0) :
    (build gl output e).calls.filter Call.isError =
      (initTextureUnits gl.maxTextureImageUnits output 0
        (initLoop (gl.link e.m_vertexShaderText e.m_fragmentShaderText) (initState e)
          (gl.link e.m_vertexShaderText e.m_fragmentShaderText).activeUniforms
          ).newParameterArray).2.filter Call.isError := by
  obtain ⟨h1, h2, h3⟩ := (build_result_true_iff gl output e).1 hres
  have hd : (deleteProgram e).2.filter Call.isError = [] :=
    filter_eq_nil_of_forall _ _ (fun c hc =>
      not_error_of_not_output c (deleteProgram_not_output e c hc))
  unfold build
  simp only [h1, h2, h3, if_false, List.filter_append, hd, compileCalls_not_error,
    linkCalls_not_error, List.nil_append]
  simp [initParameters, hprog, initState, deleteProgram]

/-- C12: after a successful build (of a program with a non-zero handle) on
hardware with `C` texture image units, `C` not negative, the `i`-th texture
parameter of the list, counted from 0, has the texture unit `i` for every
`i < C`; the errors sent to the panel are, in order, one "Texture unit limit
hit" error naming each texture parameter at position `C` or later, that is
`max(0, T - C)` errors for `T` texture parameters, and none without a panel. -/
theorem build_texture_units (gl : Driver) (output : Bool) (e : GLSLEffect)
    (hres : (build gl output e).result = true) (hprog : gl.createProgram ≠ 0)
    (hcap : 0 ≤ gl.maxTextureImageUnits) :
    (∀ (i : Nat) (p : GLSLParameter),
      ((build gl output e).effect.m_parameterArray.filter GLSLParameter.isTexture)[i]? = some p →
      (i : Int) < gl.maxTextureImageUnits → p.texUnit = i) ∧
    (build gl output e).calls.filter Call.isError =
      (if output then
        (((build gl output e).effect.m_parameterArray.filter GLSLParameter.isTexture).drop
          gl.maxTextureImageUnits.toNat).map (fun p => textureLimitError p.name)
       else []) ∧
    ((((build gl output e).effect.m_parameterArray.filter GLSLParameter.isTexture).drop
        gl.maxTextureImageUnits.toNat).length : Int) =
      max 0 ((((build gl output e).effect.m_parameterArray.filter
        GLSLParameter.isTexture).length : Int) - gl.maxTextureImageUnits) := by
  rw [build_success_errors gl output e hres hprog,
    build_success_parameters gl output e hres hprog]
  refine ⟨?_, ?_, ?_⟩
  · intro i p h hlt
    have := initTextureUnits_units gl.maxTextureImageUnits output _ 0 i p h (by omega)
    rw [this]
    omega
  · cases output
    · rw [(initTextureUnits_calls _ _ 0).2.1]
      rfl
    · have hall := (initTextureUnits_calls gl.maxTextureImageUnits
        (initLoop (gl.link e.m_vertexShaderText e.m_fragmentShaderText) (initState e)
          (gl.link e.m_vertexShaderText e.m_fragmentShaderText).activeUniforms
          ).newParameterArray 0).2.2
      rw [List.filter_eq_self.2 hall, initTextureUnits_errors]
      simp
  · rw [List.length_drop]
    omega

set_option maxRecDepth 100000 in
theorem build_texture_units_witness :
    (∀ (i : Nat) (p : GLSLParameter),
      ((build (exDriverOneUnit [exTex, exK, exTex2]) true GLSLEffect.ctor
        ).effect.m_parameterArray.filter GLSLParameter.isTexture)[i]? = some p →
      (i : Int) < (exDriverOneUnit [exTex, exK, exTex2]).maxTextureImageUnits → p.texUnit = i) ∧
    (build (exDriverOneUnit [exTex, exK, exTex2]) true GLSLEffect.ctor).calls.filter Call.isError =
      (if true then
        (((build (exDriverOneUnit [exTex, exK, exTex2]) true GLSLEffect.ctor
          ).effect.m_parameterArray.filter GLSLParameter.isTexture).drop
          (exDriverOneUnit [exTex, exK, exTex2]).maxTextureImageUnits.toNat).map
            (fun p => textureLimitError p.name)
       else []) ∧
    ((((build (exDriverOneUnit [exTex, exK, exTex2]) true GLSLEffect.ctor
        ).effect.m_parameterArray.filter GLSLParameter.isTexture).drop
        (exDriverOneUnit [exTex, exK, exTex2]).maxTextureImageUnits.toNat).length : Int) =
      max 0 ((((build (exDriverOneUnit [exTex, exK, exTex2]) true GLSLEffect.ctor
        ).effect.m_parameterArray.filter GLSLParameter.isTexture).length : Int) -
          (exDriverOneUnit [exTex, exK, exTex2]).maxTextureImageUnits) :=
  build_texture_units (exDriverOneUnit [exTex, exK, exTex2]) true GLSLEffect.ctor
    (by decide) (by decide) (by decide)

/-! ## Rendering -/

set_option maxRecDepth 100000 in
/-- C13 (the code departs from the claim): on hardware with one texture image unit
a build of a program with the samplers `tex` and `tex2` gives `tex` the unit 0
and reports that `tex2` is ignored; `begin()` then writes the sampler uniform
of `tex2`, activates texture unit 0 and binds the texture of `tex2` there, as
it does for `tex`. -/
theorem begin_binds_ignored_texture :
    (build (exDriverOneUnit [exTex, exTex2]) true GLSLEffect.ctor).calls.filter Call.isError
      = [textureLimitError "tex2".toList] ∧
    exTwoTextures.m_parameterArray.map (fun p => (p.name, p.location, p.texUnit))
      = [("tex".toList, 3, 0), ("tex2".toList, 4, 0)] ∧
    begin 0 exTwoTextures = some
      [Call.glEnable GL_CULL_FACE, Call.glEnable GL_DEPTH_TEST, Call.glDepthFunc GL_LEQUAL,
       Call.glUseProgramObject 3,
       Call.glUniformi 3 [UniformArg.unit 0], Call.glActiveTexture GL_TEXTURE0_ARB,
       Call.glBindTexture GLTexture.default,
       Call.glUniformi 4 [UniformArg.unit 0], Call.glActiveTexture GL_TEXTURE0_ARB,
       Call.glBindTexture GLTexture.default] := by
  decide

/-! ## The text written by `save` -/

theorem not_mem_ite {c : Prop} [Decidable c] (x : Char) (a b : QString)
    (ha : x ∉ a) (hb : x ∉ b) : x ∉ (if c then a else b) := by
  split <;> assumption

theorem getLast_line (l : QString) : (l ++ ";\n".toList).getLast? = some '\n' := by
  have : l ++ ";\n".toList = (l ++ [';']) ++ ['\n'] := by
    rw [List.append_assoc]
    rfl
  rw [this, List.getLast?_concat]

theorem getTypeName_no_newline (t : Nat) : '\n' ∉ getTypeName t := by
  unfold getTypeName
  repeat (apply not_mem_ite _ _ _ (by decide))
  decide

theorem join_no_newline (sep : QString) (hsep : '\n' ∉ sep) :
    ∀ l : List QString, (∀ s ∈ l, '\n' ∉ s) → '\n' ∉ QStringList.join sep l := by
  intro l
  induction l with
  | nil => intro _; simp [QStringList.join]
  | cons s rest ih =>
    intro h
    cases rest with
    | nil =>
      simpa [QStringList.join] using h s (List.mem_cons_self _ _)
    | cons t rest1 =>
      have h1 := h s (List.mem_cons_self _ _)
      have h2 := ih (fun x hx => h x (List.mem_cons_of_mem _ hx))
      simp only [QStringList.join, List.mem_append, not_or]
      exact ⟨⟨h1, hsep⟩, h2⟩

/-- The three shapes of the text that `getParameterAssignment` returns. -/
theorem getParameterAssignment_eq (q : QLocale) (param : GLSLParameter)
    (h : isScalarType param.glType ∨ isVectorType param.glType ∨ isSamplerType param.glType) :
    getParameterAssignment q param =
      getTypeName param.glType ++ " ".toList ++ param.name ++ " = ".toList ++
        valueLiteral q param ++ ";\n".toList := by
  unfold getParameterAssignment valueLiteral
  by_cases h1 : isScalarType param.glType
  · have h1a := h1
    unfold isScalarType at h1a
    simp only [h1a, h1, if_true]
  · have h1a := h1
    unfold isScalarType at h1a
    by_cases h2 : isVectorType param.glType
    · have h2a := h2
      unfold isVectorType at h2a
      simp only [h1a, h1, h2a, h2, if_true, if_false, List.append_assoc]
      rfl
    · have h2a := h2
      unfold isVectorType at h2a
      have h3 : isSamplerType param.glType := by
        rcases h with h | h | h
        · exact absurd h h1
        · exact absurd h h2
        · exact h
      have h3a := h3
      unfold isSamplerType at h3a
      simp only [h1a, h1, h2a, h2, h3a, if_true, if_false, List.append_assoc]
      rfl

theorem isWord_not_isSpace (c : Char) (h : QChar.isWord c = true) : QChar.isSpace c = false := by
  unfold QChar.isWord at h
  unfold QChar.isSpace
  simp only [Bool.or_eq_true, Bool.and_eq_true, decide_eq_true_eq, beq_iff_eq] at h
  simp only [Bool.or_eq_false_iff, Bool.and_eq_false_iff, decide_eq_false_iff_not, beq_eq_false_iff_ne]
  omega

theorem dropWhile_append_stop (p : Char → Bool) (a b : List Char) (ha : ∀ c ∈ a, p c = true)
    (hb : ∀ c ∈ b.head?, p c = false) : (a ++ b).dropWhile p = b := by
  induction a with
  | nil =>
    cases b with
    | nil => rfl
    | cons x b => simp [List.dropWhile, hb x (by simp)]
  | cons x a ih =>
    simp only [List.cons_append, List.dropWhile, ha x (List.mem_cons_self _ _)]
    exact ih fun c hc => ha c (List.mem_cons_of_mem _ hc)

theorem takeWhile_append_stop (p : Char → Bool) (a b : List Char) (ha : ∀ c ∈ a, p c = true)
    (hb : ∀ c ∈ b.head?, p c = false) : (a ++ b).takeWhile p = a := by
  induction a with
  | nil =>
    cases b with
    | nil => rfl
    | cons x b => simp [List.takeWhile, hb x (by simp)]
  | cons x a ih =>
    simp only [List.cons_append, List.takeWhile, ha x (List.mem_cons_self _ _)]
    exact congrArg _ (ih fun c hc => ha c (List.mem_cons_of_mem _ hc))

theorem mem_takeWhile_true (p : Char → Bool) (l : List Char) :
    ∀ c ∈ l.takeWhile p, p c = true := by
  intro c hc
  exact List.mem_takeWhile_imp hc

theorem head_dropWhile_false (p : Char → Bool) (l : List Char) :
    ∀ c ∈ (l.dropWhile p).head?, p c = false := by
  induction l with
  | nil => simp
  | cons x l ih =>
    by_cases hx : p x = true
    · simpa [List.dropWhile, hx] using ih
    · simp [List.dropWhile, hx]

theorem paramRegExp_isParameterLine (line type name value : QString)
    (h : paramRegExp line = some (type, name, value)) : IsParameterLine line type name value := by
  unfold paramRegExp at h
  dsimp only at h
  split at h
  · cases h
  · rename_i hne
    simp only [not_or] at hne
    obtain ⟨hw1, hsp, hw2⟩ := hne
    split at h
    · rename_i rest hrest
      split at h
      · rename_i v hv
        simp only [Option.some.injEq, Prod.mk.injEq] at h
        obtain ⟨ht, hn, hval⟩ := h
        refine ⟨line.takeWhile QChar.isSpace,
          ((line.dropWhile QChar.isSpace).dropWhile QChar.isWord).takeWhile QChar.isSpace,
          ((((line.dropWhile QChar.isSpace).dropWhile QChar.isWord).dropWhile
            QChar.isSpace).dropWhile QChar.isWord).takeWhile QChar.isSpace,
          (rest.reverse.takeWhile QChar.isSpace).reverse,
          ?_, mem_takeWhile_true _ _, ?_, ?_, hsp, mem_takeWhile_true _ _, ?_, ?_,
          mem_takeWhile_true _ _, ?_⟩
        · have e0 := (List.takeWhile_append_dropWhile QChar.isSpace line).symm
          have e1 := (List.takeWhile_append_dropWhile QChar.isWord
            (line.dropWhile QChar.isSpace)).symm
          have e2 := (List.takeWhile_append_dropWhile QChar.isSpace
            ((line.dropWhile QChar.isSpace).dropWhile QChar.isWord)).symm
          have e3 := (List.takeWhile_append_dropWhile QChar.isWord
            (((line.dropWhile QChar.isSpace).dropWhile QChar.isWord).dropWhile QChar.isSpace)).symm
          have e4 := (List.takeWhile_append_dropWhile QChar.isSpace
            ((((line.dropWhile QChar.isSpace).dropWhile QChar.isWord).dropWhile
              QChar.isSpace).dropWhile QChar.isWord)).symm
          have e5 := (List.takeWhile_append_dropWhile QChar.isSpace rest.reverse).symm
          rw [hv] at e5
          have e6 : rest = value ++ ";".toList ++
              (rest.reverse.takeWhile QChar.isSpace).reverse := by
            have := congrArg List.reverse e5
            rw [List.reverse_reverse, List.reverse_append, List.reverse_cons, hval] at this
            exact this
          rw [hrest] at e4
          rw [← ht, ← hn]
          conv_lhs => rw [e0, e1, e2, e3, e4, e6]
          simp only [List.append_assoc]
          rfl
        · rw [← ht]; exact hw1
        · rw [← ht]; exact mem_takeWhile_true _ _
        · rw [← hn]; exact hw2
        · rw [← hn]; exact mem_takeWhile_true _ _
        · intro c hc
          exact mem_takeWhile_true _ _ c (List.mem_reverse.1 hc)
      · cases h
    · cases h

theorem head_append_all (P : Char → Prop) (a b : List Char) (ha : a ≠ [])
    (hP : ∀ c ∈ a, P c) : ∀ c ∈ (a ++ b).head?, P c := by
  cases a with
  | nil => exact absurd rfl ha
  | cons x a =>
    intro c hc
    simp only [List.cons_append, List.head?_cons, Option.mem_def, Option.some.injEq] at hc
    rw [← hc]
    exact hP x (List.mem_cons_self _ _)

theorem head_append_cons (P : Char → Prop) (a b : List Char) (x : Char)
    (hP : ∀ c ∈ a, P c) (hx : P x) : ∀ c ∈ (a ++ x :: b).head?, P c := by
  cases a with
  | nil =>
    intro c hc
    simp only [List.nil_append, List.head?_cons, Option.mem_def, Option.some.injEq] at hc
    rw [← hc]
    exact hx
  | cons y a =>
    intro c hc
    simp only [List.cons_append, List.head?_cons, Option.mem_def, Option.some.injEq] at hc
    rw [← hc]
    exact hP y (List.mem_cons_self _ _)

theorem isSpace_not_isWord (c : Char) (h : QChar.isSpace c = true) : QChar.isWord c = false := by
  cases hw : QChar.isWord c
  · rfl
  · rw [isWord_not_isSpace c hw] at h
    cases h

theorem isParameterLine_paramRegExp (line type name value : QString)
    (h : IsParameterLine line type name value) :
    paramRegExp line = some (type, name, value) := by
  obtain ⟨ws0, ws1, ws2, ws3, hline, h0, ht, htw, h1, h1s, hn, hnw, h2, h3⟩ := h
  have hl : line = ws0 ++ (type ++ (ws1 ++ (name ++ (ws2 ++ '=' :: (value ++ ';' :: ws3))))) := by
    rw [hline]
    simp only [List.append_assoc]
    rfl
  have d0 : line.dropWhile QChar.isSpace
      = type ++ (ws1 ++ (name ++ (ws2 ++ '=' :: (value ++ ';' :: ws3)))) := by
    rw [hl]
    exact dropWhile_append_stop _ _ _ h0
      (head_append_all _ _ _ ht fun c hc => isWord_not_isSpace c (htw c hc))
  have hs1 : ∀ c ∈ (ws1 ++ (name ++ (ws2 ++ '=' :: (value ++ ';' :: ws3)))).head?,
      QChar.isWord c = false :=
    head_append_all _ _ _ h1 fun c hc => isSpace_not_isWord c (h1s c hc)
  have hs2 : ∀ c ∈ (name ++ (ws2 ++ '=' :: (value ++ ';' :: ws3))).head?,
      QChar.isSpace c = false :=
    head_append_all _ _ _ hn fun c hc => isWord_not_isSpace c (hnw c hc)
  have hs3 : ∀ c ∈ (ws2 ++ '=' :: (value ++ ';' :: ws3)).head?, QChar.isWord c = false :=
    head_append_cons _ _ _ _ (fun c hc => isSpace_not_isWord c (h2 c hc)) (by decide)
  have hs4 : ∀ c ∈ ('=' :: (value ++ ';' :: ws3)).head?, QChar.isSpace c = false := by
    intro c hc
    simp only [List.head?_cons, Option.mem_def, Option.some.injEq] at hc
    rw [← hc]
    decide
  have hr : (value ++ ';' :: ws3).reverse = ws3.reverse ++ ';' :: value.reverse := by
    simp
  have hs5 : ∀ c ∈ (';' :: value.reverse).head?, QChar.isSpace c = false := by
    intro c hc
    simp only [List.head?_cons, Option.mem_def, Option.some.injEq] at hc
    rw [← hc]
    decide
  have h3r : ∀ c ∈ ws3.reverse, QChar.isSpace c = true := fun c hc =>
    h3 c (List.mem_reverse.1 hc)
  unfold paramRegExp
  dsimp only
  rw [d0, takeWhile_append_stop _ _ _ htw hs1, dropWhile_append_stop _ _ _ htw hs1,
    takeWhile_append_stop _ _ _ h1s hs2, dropWhile_append_stop _ _ _ h1s hs2,
    takeWhile_append_stop _ _ _ hnw hs3, dropWhile_append_stop _ _ _ hnw hs3,
    dropWhile_append_stop _ _ _ h2 hs4]
  rw [if_neg (by simp only [not_or]; exact ⟨ht, h1, hn⟩)]
  simp only [hr, dropWhile_append_stop _ _ _ h3r hs5, List.reverse_reverse]

/-- The pattern of `parseParameter` matches exactly the lines of the form
`type name = value;`, and captures the three texts. -/
theorem paramRegExp_eq_some_iff (line type name value : QString) :
    paramRegExp line = some (type, name, value) ↔ IsParameterLine line type name value :=
  ⟨paramRegExp_isParameterLine line type name value,
   isParameterLine_paramRegExp line type name value⟩

theorem paramRegExp_eq_none_iff (line : QString) : paramRegExp line = none ↔ ¬ HasForm line := by
  constructor
  · rintro h ⟨t, n, v, hf⟩
    rw [isParameterLine_paramRegExp line t n v hf] at h
    cases h
  · intro h
    cases hp : paramRegExp line with
    | none => rfl
    | some r =>
      obtain ⟨t, n, v⟩ := r
      exact absurd ⟨t, n, v, paramRegExp_isParameterLine line t n v hp⟩ h

theorem loadRegExp_isLoad (s path : QString) (h : loadRegExp s = some path) : IsLoad s path := by
  unfold loadRegExp at h
  dsimp only at h
  split at h
  · rename_i hpre
    split at h
    · rename_i p hp
      simp only [Option.some.injEq] at h
      refine ⟨s.takeWhile QChar.isSpace,
        (((s.dropWhile QChar.isSpace).drop 6).reverse.takeWhile QChar.isSpace).reverse, ?_,
        mem_takeWhile_true _ _, fun c hc => mem_takeWhile_true _ _ c (List.mem_reverse.1 hc)⟩
      have e0 := (List.takeWhile_append_dropWhile QChar.isSpace s).symm
      have e1 : s.dropWhile QChar.isSpace
          = "load(\"".toList ++ (s.dropWhile QChar.isSpace).drop 6 := by
        unfold startsWith at hpre
        obtain ⟨t, ht⟩ := List.isPrefixOf_iff_prefix.1 hpre
        rw [← ht]
        simp
      have e2 := (List.takeWhile_append_dropWhile QChar.isSpace
        ((s.dropWhile QChar.isSpace).drop 6).reverse).symm
      rw [hp] at e2
      have e3 : (s.dropWhile QChar.isSpace).drop 6 = path ++ "\")".toList ++
          (((s.dropWhile QChar.isSpace).drop 6).reverse.takeWhile QChar.isSpace).reverse := by
        have := congrArg List.reverse e2
        rw [List.reverse_reverse, List.reverse_append, List.reverse_cons, List.reverse_cons,
          h] at this
        exact this.trans (by simp only [List.append_assoc]; rfl)
      conv_lhs => rw [e0, e1, e3]
      simp only [List.append_assoc]
    · cases h
  · cases h

theorem isLoad_loadRegExp (s path : QString) (h : IsLoad s path) : loadRegExp s = some path := by
  obtain ⟨ws1, ws2, hs, h1, h2⟩ := h
  have hl : s = ws1 ++ 'l' :: ("oad(\"".toList ++ (path ++ '"' :: ')' :: ws2)) := by
    rw [hs]
    simp only [List.append_assoc]
    rfl
  have hh : ∀ c ∈ ('l' :: ("oad(\"".toList ++ (path ++ '"' :: ')' :: ws2))).head?,
      QChar.isSpace c = false := by
    intro c hc
    simp only [List.head?_cons, Option.mem_def, Option.some.injEq] at hc
    rw [← hc]
    decide
  have d0 : s.dropWhile QChar.isSpace = "load(\"".toList ++ (path ++ '"' :: ')' :: ws2) := by
    rw [hl, dropWhile_append_stop _ _ _ h1 hh]
    rfl
  have hr : (path ++ '"' :: ')' :: ws2).reverse = ws2.reverse ++ ')' :: '"' :: path.reverse := by
    simp
  have hs5 : ∀ c ∈ (')' :: '"' :: path.reverse).head?, QChar.isSpace c = false := by
    intro c hc
    simp only [List.head?_cons, Option.mem_def, Option.some.injEq] at hc
    rw [← hc]
    decide
  have h2r : ∀ c ∈ ws2.reverse, QChar.isSpace c = true := fun c hc =>
    h2 c (List.mem_reverse.1 hc)
  have hpre : startsWith ("load(\"".toList ++ (path ++ '"' :: ')' :: ws2)) "load(\"".toList
      = true := by
    unfold startsWith
    exact List.isPrefixOf_iff_prefix.2 ⟨_, rfl⟩
  have hdrop : ("load(\"".toList ++ (path ++ '"' :: ')' :: ws2)).drop 6
      = path ++ '"' :: ')' :: ws2 := rfl
  unfold loadRegExp
  dsimp only
  rw [d0, if_pos hpre, hdrop]
  simp only [hr, dropWhile_append_stop _ _ _ h2r hs5, List.reverse_reverse]

/-- The pattern for the value of a texture matches exactly the texts of the form
`load("path")`, and captures the path. -/
theorem loadRegExp_eq_some_iff (s path : QString) : loadRegExp s = some path ↔ IsLoad s path :=
  ⟨loadRegExp_isLoad s path, isLoad_loadRegExp s path⟩

theorem loadRegExp_eq_none_iff (s : QString) : loadRegExp s = none ↔ ¬ HasLoadForm s := by
  constructor
  · rintro h ⟨p, hp⟩
    rw [isLoad_loadRegExp s p hp] at h
    cases h
  · intro h
    cases hp : loadRegExp s with
    | none => rfl
    | some p => exact absurd ⟨p, loadRegExp_isLoad s p hp⟩ h

theorem isParameterLine_not_comment (line type name value : QString)
    (h : IsParameterLine line type name value) : startsWith line "//".toList = false := by
  obtain ⟨ws0, ws1, ws2, ws3, hline, h0, ht, htw, _⟩ := h
  have hh : ∀ c ∈ line.head?, c ≠ '/' := by
    rw [hline]
    simp only [List.append_assoc]
    cases ws0 with
    | nil =>
      rw [List.nil_append]
      exact head_append_all (fun c => c ≠ '/') _ _ ht fun c hc hx => by
        have := htw c hc
        rw [hx] at this
        revert this
        decide
    | cons x ws0 =>
      exact head_append_all (fun c => c ≠ '/') _ _ (List.cons_ne_nil _ _) fun c hc hx => by
        have := h0 c hc
        rw [hx] at this
        revert this
        decide
  cases line with
  | nil => rfl
  | cons c l =>
    have hc : c ≠ '/' := hh c rfl
    have hc1 : ('/' == c) = false := by
      rw [beq_eq_false_iff_ne]
      exact fun hx => hc hx.symm
    simp only [startsWith, String.toList, List.isPrefixOf, hc1, Bool.false_and]

theorem loadStep_parameters (q : QLocale) (st : LoadState) (l : QByteArray)
    (hst : st.readsParameters) :
    loadStep q st l =
      if startsWith l ['['] then ⟨l, .none, st.effect⟩
      else ⟨l, .parameters, parseParameter q (QString.fromByteArray l) st.effect⟩ := by
  unfold loadStep
  rcases hst with h | ⟨h1, h2⟩
  · rw [h]
  · rw [h1]
    dsimp only
    rw [h2]

theorem parseParameter_of_none (q : QLocale) (line : QString) (e : GLSLEffect)
    (h : startsWith line "//".toList = true ∨ paramRegExp line = none) :
    parseParameter q line e = e := by
  unfold parseParameter
  split
  · rfl
  · rcases h with h | h
    · rename_i hn
      exact absurd h hn
    · rw [h]

/-- C19 as stated fails: a parameter line that starts with white space does not
have the stated form, which starts with the type, and does not begin with `//`;
`parseParameter` adds its parameter to the list, and so does `load` for a file
that holds the line in its `[Parameters]` section. -/
theorem parseParameter_malformed_counterexample :
    startsWith exIndented "//".toList = false ∧ ¬ HasStatedForm exIndented ∧
    (parseParameter exLocale exIndented GLSLEffect.ctor).m_parameterArray
      = [(GLSLParameter.mk3 0 "k".toList GL_FLOAT (-1)).setValue
          (.double (exLocale.toDouble "1".toList))] ∧
    (load exLocale ("[Parameters]\n".toList ++ exIndented) GLSLEffect.ctor).m_parameterArray
      ≠ GLSLEffect.ctor.m_parameterArray := by
  refine ⟨by decide, ?_, by decide, by decide⟩
  rintro ⟨type, ws1, name, ws2, value, ws3, hline, _, ht, htw, _⟩
  cases type with
  | nil => exact ht rfl
  | cons c t =>
    have hc := htw c (List.mem_cons_self _ _)
    have hh := congrArg List.head? hline
    simp only [exIndented, List.nil_append, List.cons_append, List.head?_cons] at hh
    have hc2 : c = ' ' := by
      have := Option.some.inj hh
      exact this.symm
    rw [hc2] at hc
    revert hc
    decide

/-- C19 (amended): for every line that begins with `//` or that does not have
the form `type name = value;` (optional white space, a word, white space, a
word, optional white space, `=`, any text, `;`, optional trailing white space),
`parseParameter` leaves the effect, and so its parameter list, unchanged; and
when `load` reads such a line in the `[Parameters]` section the effect is
unchanged and the loop goes on with the lines that follow, inside the section
unless the line starts with `[`. -/
theorem parseParameter_malformed (q : QLocale) (line : QString) (e : GLSLEffect)
    (h : startsWith line "//".toList = true ∨ ¬ HasForm line) :
    parseParameter q line e = e ∧
    (parseParameter q line e).m_parameterArray = e.m_parameterArray ∧
    ∀ (l : QByteArray) (st : LoadState) (rest : List QByteArray),
      QString.fromByteArray l = line → st.readsParameters →
      loadLoop q st (l :: rest) =
        loadLoop q ⟨l, if startsWith l ['['] then .none else .parameters, st.effect⟩ rest := by
  have hp : ∀ e, parseParameter q line e = e := fun e =>
    parseParameter_of_none q line e (h.imp id (paramRegExp_eq_none_iff line).2)
  refine ⟨hp e, by rw [hp e], ?_⟩
  intro l st rest hl hst
  rw [loadLoop_cons, loadStep_parameters q st l hst, hl, hp]
  split <;> rfl

theorem parseParameter_malformed_witness :
    (startsWith exMalformed "//".toList = true ∨ ¬ HasForm exMalformed) ∧
    parseParameter exLocale exMalformed exABk = exABk ∧
    loadLoop exLocale ⟨s_parametersTag, .none, exABk⟩ [exMalformed, exIndented] =
      loadLoop exLocale ⟨exMalformed, .parameters, exABk⟩ [exIndented] ∧
    (load exLocale ("[Parameters]\n".toList ++ QString.toLatin1 exMalformed ++
        "float k = 1;\n".toList) GLSLEffect.ctor).m_parameterArray
      = (load exLocale ("[Parameters]\n".toList ++ "float k = 1;\n".toList)
          GLSLEffect.ctor).m_parameterArray :=
  ⟨Or.inr ((paramRegExp_eq_none_iff exMalformed).1 (by decide)),
   (parseParameter_malformed exLocale exMalformed exABk
      (Or.inr ((paramRegExp_eq_none_iff exMalformed).1 (by decide)))).1,
   (parseParameter_malformed exLocale exMalformed exABk
      (Or.inr ((paramRegExp_eq_none_iff exMalformed).1 (by decide)))).2.2
        exMalformed ⟨s_parametersTag, .none, exABk⟩ [exIndented] (by decide)
        (Or.inr ⟨rfl, by decide⟩),
   by decide⟩

theorem dropWhile_concat_stop (p : Char → Bool) (x : Char) (hx : p x = false) :
    ∀ l : List Char, ∃ r, (l ++ [x]).dropWhile p = r ++ [x] := by
  intro l
  induction l with
  | nil => exact ⟨[], by simp [List.dropWhile, hx]⟩
  | cons y l ih =>
    by_cases hy : p y = true
    · obtain ⟨r, hr⟩ := ih
      exact ⟨r, by simpa [List.dropWhile, hy] using hr⟩
    · exact ⟨y :: l, by simp [List.dropWhile, hy]⟩

theorem trimmed_head (s rest : QString) (x : Char) (hs : s.dropWhile QChar.isSpace = x :: rest)
    (hx : QChar.isSpace x = false) : ∃ r, QString.trimmed s = x :: r := by
  unfold QString.trimmed
  rw [hs, List.reverse_cons]
  obtain ⟨r, hr⟩ := dropWhile_concat_stop QChar.isSpace x hx rest.reverse
  exact ⟨r.reverse, by rw [hr]; simp⟩

theorem isLoad_not_startsWith (value path type : QString) (h : IsLoad value path)
    (ht : type ∈ textureTypeNames) : startsWith (QString.trimmed value) type = false := by
  obtain ⟨ws1, ws2, hs, h1, h2⟩ := h
  have hl : value = ws1 ++ 'l' :: ("oad(\"".toList ++ (path ++ '"' :: ')' :: ws2)) := by
    rw [hs]
    simp only [List.append_assoc]
    rfl
  have hh : ∀ c ∈ ('l' :: ("oad(\"".toList ++ (path ++ '"' :: ')' :: ws2))).head?,
      QChar.isSpace c = false := by
    intro c hc
    simp only [List.head?_cons, Option.mem_def, Option.some.injEq] at hc
    rw [← hc]
    decide
  obtain ⟨r, hr⟩ := trimmed_head value _ 'l'
    (by rw [hl, dropWhile_append_stop _ _ _ h1 hh]) (by decide)
  rw [hr]
  simp only [textureTypeNames, List.mem_cons, List.mem_singleton, List.not_mem_nil,
    or_false] at ht
  rcases ht with h | h | h | h | h <;> rw [h] <;> rfl

/-- C20 as stated fails: the line `sampler2DShadow s = 5;` declares a sampler
type and its value is not of the form `load("path")`, and `parseParameter` adds
a parameter for it. -/
theorem parseParameter_texture_counterexample :
    IsParameterLine exShadowLine "sampler2DShadow".toList "s".toList " 5".toList ∧
    ¬ HasLoadForm " 5".toList ∧
    (parseParameter exLocale exShadowLine GLSLEffect.ctor).m_parameterArray
      = [GLSLParameter.mk3 0 "s".toList GL_SAMPLER_2D_SHADOW_ARB (-1)] :=
  ⟨paramRegExp_isParameterLine _ _ _ _ (by decide),
   (loadRegExp_eq_none_iff _).1 (by decide), by decide⟩

/-- C20 (amended): for every parameter line `type name = value;` whose type is
one of sampler1D, sampler2D, sampler3D, samplerCUBE and samplerRECT:
when the value is not of the form `load("path")` and, trimmed, does not begin
with the type name, `parseParameter` leaves the parameter list unchanged; when
the value has that form, the list gains at its end one parameter, of that name
and type, for which `isTexture()` holds and whose value is the texture opened
from the path. -/
theorem parseParameter_texture (q : QLocale) (line type name value : QString) (e : GLSLEffect)
    (hline : IsParameterLine line type name value) (htype : type ∈ textureTypeNames) :
    (¬ HasLoadForm value → startsWith (QString.trimmed value) type = false →
      (parseParameter q line e).m_parameterArray = e.m_parameterArray) ∧
    (∀ path, IsLoad value path →
      (GLSLParameter.mk3 e.heap name (getType type) (-1)).isTexture = true ∧
      (parseParameter q line e).m_parameterArray = e.m_parameterArray ++
        [(GLSLParameter.mk3 e.heap name (getType type) (-1)).setValue
          (.texture (GLTexture.open path))]) := by
  have hc := isParameterLine_not_comment line type name value hline
  have hr := isParameterLine_paramRegExp line type name value hline
  have hty : getType type ≠ GL_FLOAT ∧ getType type ≠ GL_INT ∧ getType type ≠ GL_BOOL ∧
      (getType type == GL_SAMPLER_1D_ARB || getType type == GL_SAMPLER_2D_ARB ||
        getType type == GL_SAMPLER_3D_ARB || getType type == GL_SAMPLER_CUBE_ARB ||
        getType type == GL_SAMPLER_2D_RECT_ARB) = true := by
    simp only [textureTypeNames, List.mem_cons, List.mem_singleton, List.not_mem_nil,
      or_false] at htype
    rcases htype with h | h | h | h | h <;> rw [h] <;> decide
  obtain ⟨hf, hi, hb, htex0⟩ := hty
  have htex : (GLSLParameter.mk3 e.heap name (getType type) (-1)).isTexture = true := htex0
  have key : ∀ (hsw : startsWith (QString.trimmed value) type = false),
      parseParameter q line e =
        match loadRegExp value with
        | none => { e with heap := e.heap + 1 }
        | some path =>
          { e with
            m_parameterArray := e.m_parameterArray ++
              [(GLSLParameter.mk3 e.heap name (getType type) (-1)).setValue
                (.texture (GLTexture.open path))],
            heap := e.heap + 1 } := by
    intro hsw
    unfold parseParameter
    rw [hc, hr]
    have hg : (GLSLParameter.mk3 e.heap name (getType type) (-1)).glType = getType type := rfl
    simp only [Bool.false_eq_true, if_false, hg, hf, hi, hb, hsw, htex, if_true]
  constructor
  · intro hnl hsw
    rw [key hsw, (loadRegExp_eq_none_iff value).2 hnl]
  · intro path hp
    refine ⟨htex, ?_⟩
    rw [key (isLoad_not_startsWith value path type hp htype), isLoad_loadRegExp value path hp]

theorem parseParameter_texture_witness :
    IsParameterLine exTextureNumberLine "sampler2D".toList "tex".toList " 5".toList ∧
    ¬ HasLoadForm " 5".toList ∧
    (parseParameter exLocale exTextureNumberLine exABk).m_parameterArray
      = exABk.m_parameterArray ∧
    IsParameterLine exTextureLine "sampler2D".toList "tex".toList " load(\"a.png\")".toList ∧
    IsLoad " load(\"a.png\")".toList "a.png".toList ∧
    (parseParameter exLocale exTextureLine exABk).m_parameterArray
      = exABk.m_parameterArray ++
        [(GLSLParameter.mk3 1 "tex".toList GL_SAMPLER_2D_ARB (-1)).setValue
          (.texture (GLTexture.open "a.png".toList))] :=
  ⟨paramRegExp_isParameterLine _ _ _ _ (by decide),
   (loadRegExp_eq_none_iff _).1 (by decide),
   (parseParameter_texture exLocale exTextureNumberLine "sampler2D".toList "tex".toList
      " 5".toList exABk (paramRegExp_isParameterLine _ _ _ _ (by decide)) (by decide)).1
      ((loadRegExp_eq_none_iff _).1 (by decide)) (by decide),
   paramRegExp_isParameterLine _ _ _ _ (by decide),
   loadRegExp_isLoad _ _ (by decide),
   ((parseParameter_texture exLocale exTextureLine "sampler2D".toList "tex".toList
      " load(\"a.png\")".toList exABk (paramRegExp_isParameterLine _ _ _ _ (by decide))
      (by decide)).2 "a.png".toList (loadRegExp_isLoad _ _ (by decide))).2⟩

/-! ## The life of the handles -/

theorem Live.run_append (cs ds : List Call) :
    ∀ s : Live, Live.run s (cs ++ ds) = (Live.run s cs).bind fun s1 => Live.run s1 ds := by
  induction cs with
  | nil => intro s; rfl
  | cons c cs ih =>
    intro s
    simp only [List.cons_append, Live.run]
    cases s.step c with
    | none => rfl
    | some s1 => exact ih s1

theorem Live.step_of_not_life (s : Live) (c : Call) (h : c.isLife = false) :
    s.step c = some s := by
  cases c <;> first | rfl | cases h

theorem Live.run_of_not_life (cs : List Call) (h : ∀ c ∈ cs, c.isLife = false) :
    ∀ s : Live, Live.run s cs = some s := by
  induction cs with
  | nil => intro s; rfl
  | cons c cs ih =>
    intro s
    simp only [Live.run, Live.step_of_not_life s c (h c (List.mem_cons_self _ _))]
    exact ih (fun d hd => h d (List.mem_cons_of_mem _ hd)) s

/-- The calls of `deleteProgram` delete every object the effect holds, and
nothing else. -/
theorem deleteProgram_live (e : GLSLEffect) :
    Live.run (Live.of e) (deleteProgram e).2 = some Live.empty := by
  unfold deleteProgram
  have hp1 : 0 = e.m_program ↔ e.m_program = 0 := eq_comm
  have hv1 : 0 = e.m_vertexShader ↔ e.m_vertexShader = 0 := eq_comm
  have hf1 : 0 = e.m_fragmentShader ↔ e.m_fragmentShader = 0 := eq_comm
  by_cases hp : e.m_program = 0 <;> by_cases hv : e.m_vertexShader = 0 <;>
    by_cases hf : e.m_fragmentShader = 0 <;>
    simp [Live.run, Live.step, Live.of, Live.empty, hp, hv, hf, hp1, hv1, hf1]

theorem deleteProgram_handles (e : GLSLEffect) : Live.of (deleteProgram e).1 = Live.empty := rfl

theorem compileCalls_live (gl : Driver) (output : Bool) (e : GLSLEffect) (hgl : gl.Fresh) :
    Live.run Live.empty (compileCalls gl output e) = some (Live.of (withHandles gl e)) := by
  obtain ⟨h1, h2⟩ := hgl
  have hv1 : 0 = gl.createVertexShader ↔ gl.createVertexShader = 0 := eq_comm
  have hf1 : 0 = gl.createFragmentShader ↔ gl.createFragmentShader = 0 := eq_comm
  have hp1 : 0 = gl.createProgram ↔ gl.createProgram = 0 := eq_comm
  have hv : Live.step Live.empty (.glCreateShaderObject GL_VERTEX_SHADER_ARB gl.createVertexShader)
      = some ⟨0, gl.createVertexShader, 0⟩ := by
    by_cases h : gl.createVertexShader = 0 <;>
      simp [Live.step, Live.holds, Live.empty, h, hv1]
  have hf : Live.step ⟨0, gl.createVertexShader, 0⟩
      (.glCreateShaderObject GL_FRAGMENT_SHADER_ARB gl.createFragmentShader)
      = some ⟨0, gl.createVertexShader, gl.createFragmentShader⟩ := by
    by_cases h : gl.createFragmentShader = 0
    · simp [Live.step, Live.holds, h, GL_FRAGMENT_SHADER_ARB, GL_VERTEX_SHADER_ARB]
    · simp [Live.step, Live.holds, h, hf1, Ne.symm (h1 h), GL_FRAGMENT_SHADER_ARB,
        GL_VERTEX_SHADER_ARB]
  have hp : Live.step ⟨0, gl.createVertexShader, gl.createFragmentShader⟩
      (.glCreateProgramObject gl.createProgram)
      = some ⟨gl.createProgram, gl.createVertexShader, gl.createFragmentShader⟩ := by
    by_cases h : gl.createProgram = 0
    · simp [Live.step, Live.holds, h]
    · simp [Live.step, Live.holds, h, hp1, Ne.symm (h2 h).1, Ne.symm (h2 h).2]
  unfold compileCalls
  simp only [List.append_assoc, List.cons_append, List.nil_append, Live.run, hv, hf, hp,
    Option.bind_some, Option.some_bind]
  apply Live.run_of_not_life
  cases output <;> simp [Call.isLife]

theorem linkCalls_not_life (gl : Driver) (output : Bool) (e : GLSLEffect) :
    ∀ c ∈ linkCalls gl output e, c.isLife = false := by
  unfold linkCalls
  cases output <;> simp [Call.isLife]

theorem not_life_of_error (c : Call) (h : c.isError = true) : c.isLife = false := by
  cases c <;> first | rfl | cases h

theorem initParameters_not_life (prog : Program) (t : Int) (output : Bool) (e : GLSLEffect) :
    ∀ c ∈ (initParameters prog t output e).2, c.isLife = false := by
  obtain ⟨_, h2, h3⟩ := initParameters_calls prog t e
  cases output with
  | false => rw [h2]; intro c hc; cases hc
  | true => exact fun c hc => not_life_of_error c (h3 c hc)

theorem initParameters_handles (prog : Program) (t : Int) (output : Bool) (e : GLSLEffect) :
    Live.of (initParameters prog t output e).1 = Live.of e := by
  unfold initParameters
  split <;> rfl

/-- One `build` deletes the objects the effect holds, then creates those it
holds afterwards. -/
theorem build_live (gl : Driver) (output : Bool) (e : GLSLEffect) (hgl : gl.Fresh) :
    Live.run (Live.of e) (build gl output e).calls = some (Live.of (build gl output e).effect) := by
  have h0 : Live.run (Live.of e) ((deleteProgram e).2 ++ compileCalls gl output e)
      = some (Live.of (withHandles gl e)) := by
    rw [Live.run_append, deleteProgram_live, Option.some_bind, compileCalls_live gl output e hgl]
  have h1 : Live.run (Live.of e)
      ((deleteProgram e).2 ++ compileCalls gl output e ++ linkCalls gl output e)
      = some (Live.of (withHandles gl e)) := by
    rw [Live.run_append, h0, Option.some_bind,
      Live.run_of_not_life _ (linkCalls_not_life gl output e)]
  unfold build
  dsimp only
  split
  · exact h0
  · split
    · exact h0
    · split
      · exact h1
      · dsimp only
        rw [Live.run_append, h1, Option.some_bind,
          Live.run_of_not_life _ (initParameters_not_life _ _ _ _), initParameters_handles]
        rfl

theorem runBuilds_live (bs : List (Driver × Bool)) :
    ∀ e : GLSLEffect, (∀ b ∈ bs, b.1.Fresh) →
      Live.run (Live.of e) (runBuilds e bs).2 = some (Live.of (runBuilds e bs).1) := by
  induction bs with
  | nil => intro e _; rfl
  | cons b rest ih =>
    intro e h
    simp only [runBuilds]
    rw [Live.run_append, build_live b.1 b.2 e (h b (List.mem_cons_self _ _)), Option.some_bind]
    exact ih _ fun c hc => h c (List.mem_cons_of_mem _ hc)

theorem runBuilds_append (pre post : List (Driver × Bool)) :
    ∀ e : GLSLEffect, runBuilds e (pre ++ post) =
      ((runBuilds (runBuilds e pre).1 post).1,
        (runBuilds e pre).2 ++ (runBuilds (runBuilds e pre).1 post).2) := by
  induction pre with
  | nil => intro e; simp [runBuilds]
  | cons b rest ih =>
    intro e
    show runBuilds e (b :: (rest ++ post)) = _
    simp only [runBuilds, ih, List.append_assoc]

theorem build_calls_prefix (gl : Driver) (output : Bool) (e : GLSLEffect) :
    ∃ rest, (build gl output e).calls = (deleteProgram e).2 ++ compileCalls gl output e ++ rest := by
  unfold build
  dsimp only
  split
  · exact ⟨[], by simp⟩
  · split
    · exact ⟨[], by simp⟩
    · split
      · exact ⟨_, rfl⟩
      · exact ⟨linkCalls gl output e ++ _, by simp only [List.append_assoc]; rfl⟩

theorem deleteProgram_not_create (e : GLSLEffect) :
    ∀ c ∈ (deleteProgram e).2, c.isCreate = false := by
  intro c hc
  rcases deleteProgram_calls e c hc with ⟨_, _, h⟩ | ⟨_, h⟩ <;> rw [h] <;> rfl

/-- The discipline rejects a second object of one kind, a handle deleted twice
and an object that is never deleted. -/
theorem Live.run_rejects :
    Live.run Live.empty [.glCreateProgramObject 3, .glCreateProgramObject 6] = none ∧
    Live.run Live.empty [.glCreateProgramObject 3, .glDeleteObject 3, .glDeleteObject 3] = none ∧
    Live.run Live.empty [.glCreateProgramObject 3] ≠ some Live.empty := by
  decide

/-- C16: in the calls of the whole life of an effect (construction, any
sequence of builds, each with or without a panel and with a driver that
compiles and links or fails as it likes, and destruction), provided the driver
hands out fresh handles: every create call finds no object of its kind alive,
every delete call deletes an object that is alive, and at the end no object is
alive, so that every object created is deleted exactly once and at most one
program and one shader per stage are alive at any time. Moreover every build
of the sequence starts with the calls of `deleteProgram`, none of which creates
an object and after which none of the objects the effect held is alive, and
only then makes its three create calls. -/
theorem build_handle_lifecycle (bs : List (Driver × Bool)) (hfresh : ∀ b ∈ bs, b.1.Fresh) :
    Live.run Live.empty (lifetime bs) = some Live.empty ∧
    ∀ (pre post : List (Driver × Bool)) (gl : Driver) (output : Bool),
      bs = pre ++ (gl, output) :: post →
      Live.run Live.empty (runBuilds GLSLEffect.ctor pre).2
        = some (Live.of (runBuilds GLSLEffect.ctor pre).1) ∧
      Live.run (Live.of (runBuilds GLSLEffect.ctor pre).1)
        (deleteProgram (runBuilds GLSLEffect.ctor pre).1).2 = some Live.empty ∧
      (∀ c ∈ (deleteProgram (runBuilds GLSLEffect.ctor pre).1).2, c.isCreate = false) ∧
      ∃ rest tail,
        (build gl output (runBuilds GLSLEffect.ctor pre).1).calls =
          (deleteProgram (runBuilds GLSLEffect.ctor pre).1).2 ++
          compileCalls gl output (runBuilds GLSLEffect.ctor pre).1 ++ rest ∧
        lifetime bs = (runBuilds GLSLEffect.ctor pre).2 ++
          (build gl output (runBuilds GLSLEffect.ctor pre).1).calls ++ tail := by
  constructor
  · unfold lifetime GLSLEffect.dtor
    rw [Live.run_append]
    have h := runBuilds_live bs GLSLEffect.ctor hfresh
    have h0 : Live.of GLSLEffect.ctor = Live.empty := rfl
    rw [h0] at h
    rw [h, Option.some_bind, deleteProgram_live]
  · intro pre post gl output hbs
    have hpre : ∀ b ∈ pre, b.1.Fresh := fun b hb => hfresh b (by rw [hbs]; simp [hb])
    have h := runBuilds_live pre GLSLEffect.ctor hpre
    have h0 : Live.of GLSLEffect.ctor = Live.empty := rfl
    rw [h0] at h
    obtain ⟨rest, hrest⟩ := build_calls_prefix gl output (runBuilds GLSLEffect.ctor pre).1
    refine ⟨h, deleteProgram_live _, deleteProgram_not_create _, rest,
      (runBuilds (build gl output (runBuilds GLSLEffect.ctor pre).1).effect post).2 ++
        (runBuilds GLSLEffect.ctor bs).1.dtor, hrest, ?_⟩
    have hc : (runBuilds GLSLEffect.ctor bs).2 = (runBuilds GLSLEffect.ctor pre).2 ++
        ((build gl output (runBuilds GLSLEffect.ctor pre).1).calls ++
          (runBuilds (build gl output (runBuilds GLSLEffect.ctor pre).1).effect post).2) := by
      rw [hbs, runBuilds_append]
      rfl
    unfold lifetime
    rw [hc]
    simp only [List.append_assoc]

theorem build_handle_lifecycle_witness :
    (∀ b ∈ exBuilds, b.1.Fresh) ∧
    Live.run Live.empty (lifetime exBuilds) = some Live.empty ∧
    (runBuilds GLSLEffect.ctor [(exDriver [exK], true)]).1.m_program = 3 ∧
    Live.run (Live.of (runBuilds GLSLEffect.ctor [(exDriver [exK], true)]).1)
      (deleteProgram (runBuilds GLSLEffect.ctor [(exDriver [exK], true)]).1).2
      = some Live.empty :=
  ⟨by decide, (build_handle_lifecycle exBuilds (by decide)).1, by decide,
   ((build_handle_lifecycle exBuilds (by decide)).2 [(exDriver [exK], true)]
      [(exDriver [exK], true)] exDriverNoLink false rfl).2.1⟩

/-! ## The table of the types -/

theorem getTypeName_of_not_listed (t : Nat) (h : t ∉ uniformTypes) : getTypeName t = [] := by
  simp only [uniformTypes, List.mem_cons, List.mem_singleton, List.not_mem_nil, or_false,
    not_or] at h
  obtain ⟨h1, h2, h3, h4, h5, h6, h7, h8, h9, h10, h11, h12, h13, h14, h15, h16, h17, h18, h19, h20, h21, h22, h23⟩ := h
  unfold getTypeName
  rw [if_neg h1, if_neg h2, if_neg h3, if_neg h4, if_neg h5, if_neg h6, if_neg h7, if_neg h8, if_neg h9, if_neg h10, if_neg h11, if_neg h12, if_neg h13, if_neg h14, if_neg h15, if_neg h16, if_neg h17, if_neg h18, if_neg h19, if_neg h20, if_neg h21, if_neg h22, if_neg h23]

theorem getType_of_not_listed (s : QString) (h : s ∉ typeNames) : getType s = GL_ZERO := by
  simp only [typeNames, List.mem_cons, List.mem_singleton, List.not_mem_nil, or_false,
    not_or] at h
  obtain ⟨h1, h2, h3, h4, h5, h6, h7, h8, h9, h10, h11, h12, h13, h14, h15, h16, h17, h18, h19, h20, h21, h22, h23⟩ := h
  unfold getType
  rw [if_neg h1, if_neg h2, if_neg h3, if_neg h4, if_neg h5, if_neg h6, if_neg h7, if_neg h8, if_neg h9, if_neg h10, if_neg h11, if_neg h12, if_neg h13, if_neg h14, if_neg h15, if_neg h16, if_neg h17, if_neg h18, if_neg h19, if_neg h20, if_neg h21, if_neg h22, if_neg h23]

set_option maxRecDepth 100000 in
/-- C26: `getType (getTypeName t) = t` for each of the 23 types of `getTypeName`
and `getTypeName (getType s) = s` for each of the 23 names of `getType`; the
two tables correspond entry by entry; `getTypeName` gives the empty text for
every other type code and `getType` gives 0 for every other text. -/
theorem getType_getTypeName :
    (∀ t ∈ uniformTypes, getType (getTypeName t) = t) ∧
    (∀ s ∈ typeNames, getTypeName (getType s) = s) ∧
    uniformTypes.map getTypeName = typeNames ∧
    uniformTypes.length = 23 ∧ uniformTypes.Nodup ∧ typeNames.length = 23 ∧ typeNames.Nodup ∧
    (∀ t, t ∉ uniformTypes → getTypeName t = []) ∧
    (∀ s, s ∉ typeNames → getType s = 0) := by
  refine ⟨by decide, by decide, by decide, by decide, by decide, by decide, by decide,
    getTypeName_of_not_listed, getType_of_not_listed⟩

/-! ## A failed build and the parameters -/

/-- C27: when `build` returns false, the parameter list and the recorded location
of the time uniform are what they were before the call, and so are
`parameterCount()` and `isAnimated()`. -/
theorem build_failure_keeps_parameters (gl : Driver) (output : Bool) (e : GLSLEffect)
    (h : (build gl output e).result = false) :
    (build gl output e).effect.m_parameterArray = e.m_parameterArray ∧
    (build gl output e).effect.m_timeUniform = e.m_timeUniform ∧
    parameterCount (build gl output e).effect = parameterCount e ∧
    isAnimated (build gl output e).effect = isAnimated e := by
  obtain ⟨h1, h2⟩ := build_failure_frame gl output e h
  refine ⟨h1, h2, ?_, ?_⟩
  · unfold parameterCount
    rw [h1]
  · unfold isAnimated
    rw [h2]

theorem build_failure_keeps_parameters_witness :
    (build (exDriver [exTime]) true exAnimatedThenBroken).result = false ∧
    (build exDriverNoLink true exWithBrightness).result = false ∧
    (build exDriverNoLink true exWithBrightness).effect.m_parameterArray = [exBrightness] ∧
    isAnimated (build (exDriver [exTime]) true exAnimatedThenBroken).effect
      = isAnimated exAnimatedThenBroken :=
  ⟨by decide, by decide,
   (build_failure_keeps_parameters exDriverNoLink true exWithBrightness (by decide)).1,
   (build_failure_keeps_parameters (exDriver [exTime]) true exAnimatedThenBroken
      (by decide)).2.2.2⟩

/-! ## Lines that `parseParameter` does not drop -/

/-- What `parseParameter` does with a line of the form `type name = value;`. -/
theorem parseParameter_line (q : QLocale) (line type name value : QString) (e : GLSLEffect)
    (hline : IsParameterLine line type name value) :
    parseParameter q line e =
      if getType type = GL_FLOAT then
        { e with
          m_parameterArray := e.m_parameterArray ++
            [(GLSLParameter.mk3 e.heap name (getType type) (-1)).setValue
              (.double (q.toDouble (QString.trimmed value)))],
          heap := e.heap + 1 }
      else if getType type = GL_INT then
        { e with
          m_parameterArray := e.m_parameterArray ++
            [(GLSLParameter.mk3 e.heap name (getType type) (-1)).setValue
              (.int (QString.toInt (QString.trimmed value)))],
          heap := e.heap + 1 }
      else if getType type = GL_BOOL then
        { e with
          m_parameterArray := e.m_parameterArray ++
            [(GLSLParameter.mk3 e.heap name (getType type) (-1)).setValue
              (.bool (QString.trimmed value = "true".toList))],
          heap := e.heap + 1 }
      else if startsWith (QString.trimmed value) type then
        { e with
          m_parameterArray := e.m_parameterArray ++
            [(GLSLParameter.mk3 e.heap name (getType type) (-1)).setValue
              (parsedComponents q type value)],
          heap := e.heap + 1 }
      else if (GLSLParameter.mk3 e.heap name (getType type) (-1)).isTexture then
        match loadRegExp value with
        | none => { e with heap := e.heap + 1 }
        | some path =>
          { e with
            m_parameterArray := e.m_parameterArray ++
              [(GLSLParameter.mk3 e.heap name (getType type) (-1)).setValue
                (.texture (GLTexture.open path))],
            heap := e.heap + 1 }
      else
        { e with
          m_parameterArray := e.m_parameterArray ++
            [GLSLParameter.mk3 e.heap name (getType type) (-1)],
          heap := e.heap + 1 } := by
  have hc := isParameterLine_not_comment line type name value hline
  have hr := isParameterLine_paramRegExp line type name value hline
  have hg : (GLSLParameter.mk3 e.heap name (getType type) (-1)).glType = getType type := rfl
  unfold parseParameter
  rw [hc, hr]
  simp only [Bool.false_eq_true, if_false, hg]
  split
  · rfl
  · split
    · rfl
    · split
      · rfl
      · split
        · rename_i hsw
          unfold parsedComponents
          rw [if_pos hsw]
        · rfl

theorem digitsValue_foldl_none (cs : List Char) :
    cs.foldl (fun (acc : Option Nat) c => acc.bind fun n =>
      if c.isDigit then some (10 * n + (c.toNat - 48)) else none) none = none := by
  induction cs with
  | nil => rfl
  | cons c cs ih => simpa [List.foldl] using ih

theorem digitsValue_foldl_some (cs : List Char) :
    ∀ (a : Option Nat) (n : Nat),
      cs.foldl (fun (acc : Option Nat) c => acc.bind fun n =>
        if c.isDigit then some (10 * n + (c.toNat - 48)) else none) a = some n →
      ∀ c ∈ cs, c.isDigit = true := by
  induction cs with
  | nil => intro a n _ c hc; cases hc
  | cons x cs ih =>
    intro a n h c hc
    simp only [List.foldl] at h
    cases a with
    | none =>
      rw [Option.none_bind, digitsValue_foldl_none] at h
      cases h
    | some m =>
      by_cases hx : x.isDigit = true
      · rcases List.mem_cons.1 hc with h1 | h1
        · rw [h1]; exact hx
        · exact ih _ n h c h1
      · rw [Option.some_bind, if_neg hx, digitsValue_foldl_none] at h
        cases h

theorem digitsValue_some (ds : List Char) (n : Nat) (h : digitsValue ds = some n) :
    ds ≠ [] ∧ ∀ c ∈ ds, c.isDigit = true := by
  cases ds with
  | nil => cases h
  | cons x xs =>
    refine ⟨List.cons_ne_nil _ _, ?_⟩
    unfold digitsValue at h
    exact digitsValue_foldl_some (x :: xs) (some 0) n h

/-- `QString::toInt` gives 0 for a text that is not a number. -/
theorem toInt_of_not_integer (s : QString) (h : ¬ IsIntegerText s) : QString.toInt s = 0 := by
  have key : ∀ (sign ds : List Char), QString.trimmed s = sign ++ ds →
      (sign = [] ∨ sign = ['-'] ∨ sign = ['+']) → digitsValue ds = none := by
    intro sign ds hs hsign
    cases hd : digitsValue ds with
    | none => rfl
    | some n =>
      obtain ⟨h1, h2⟩ := digitsValue_some ds n hd
      exact absurd ⟨sign, ds, hs, hsign, h1, h2⟩ h
  unfold QString.toInt
  dsimp only
  split
  · rename_i ds hs
    rw [key ['-'] ds hs (Or.inr (Or.inl rfl))]
  · rename_i ds hs
    rw [key ['+'] ds hs (Or.inr (Or.inr rfl))]
  · rw [key [] (QString.trimmed s) rfl (Or.inl rfl)]

/-- C29: a line of the form `type name = value;` whose type word is none of the
23 type names adds exactly one parameter, at the end of the list, with the name
of the line and the type code 0; an `int` line adds one parameter whose value is
what `QString::toInt` reads, which is 0 when the text is not a number; a `float`
line adds one parameter whose value is what `QString::toDouble` returns, and
that value is the double 0.0 when the text is not a number: for every reading
`read` with an `ok` flag that the conversion follows (the number read, 0.0 on a
failure), a text on which `read` fails gives the value 0.0. -/
theorem parseParameter_not_dropped (q : QLocale) (line type name value : QString)
    (e : GLSLEffect) (hline : IsParameterLine line type name value) :
    (type ∉ typeNames →
      (parseParameter q line e).m_parameterArray = e.m_parameterArray ++
        [(GLSLParameter.mk3 e.heap name 0 (-1)).setValue (parsedComponents q type value)]) ∧
    (type = "int".toList →
      (parseParameter q line e).m_parameterArray = e.m_parameterArray ++
        [(GLSLParameter.mk3 e.heap name GL_INT (-1)).setValue
          (.int (QString.toInt (QString.trimmed value)))] ∧
      (¬ IsIntegerText (QString.trimmed value) →
        (parseParameter q line e).m_parameterArray = e.m_parameterArray ++
          [(GLSLParameter.mk3 e.heap name GL_INT (-1)).setValue (.int 0)])) ∧
    (type = "float".toList →
      (parseParameter q line e).m_parameterArray = e.m_parameterArray ++
        [(GLSLParameter.mk3 e.heap name GL_FLOAT (-1)).setValue
          (.double (q.toDouble (QString.trimmed value)))] ∧
      (∀ read : QString → Option QDouble, q.ReadsWith read →
        read (QString.trimmed value) = none →
        (parseParameter q line e).m_parameterArray = e.m_parameterArray ++
          [(GLSLParameter.mk3 e.heap name GL_FLOAT (-1)).setValue (.double ⟨0⟩)])) := by
  have hp := parseParameter_line q line type name value e hline
  refine ⟨?_, ?_, ?_⟩
  · intro ht
    have h0 : getType type = 0 := getType_of_not_listed type ht
    rw [hp, h0]
    have hf : ¬ (0 : Nat) = GL_FLOAT := by decide
    have hi : ¬ (0 : Nat) = GL_INT := by decide
    have hb : ¬ (0 : Nat) = GL_BOOL := by decide
    have htex : (GLSLParameter.mk3 e.heap name 0 (-1)).isTexture = false := rfl
    rw [if_neg hf, if_neg hi, if_neg hb, htex]
    unfold parsedComponents
    split
    · rfl
    · rfl
  · intro ht
    have h0 : getType type = GL_INT := by rw [ht]; decide
    have h1 : (parseParameter q line e).m_parameterArray = e.m_parameterArray ++
        [(GLSLParameter.mk3 e.heap name GL_INT (-1)).setValue
          (.int (QString.toInt (QString.trimmed value)))] := by
      rw [hp, h0]
      have hf : ¬ GL_INT = GL_FLOAT := by decide
      rw [if_neg hf, if_pos rfl]
    refine ⟨h1, fun hn => ?_⟩
    rw [h1, toInt_of_not_integer _ hn]
  · intro ht
    have h0 : getType type = GL_FLOAT := by rw [ht]; decide
    have h1 : (parseParameter q line e).m_parameterArray = e.m_parameterArray ++
        [(GLSLParameter.mk3 e.heap name GL_FLOAT (-1)).setValue
          (.double (q.toDouble (QString.trimmed value)))] := by
      rw [hp, h0, if_pos rfl]
    refine ⟨h1, fun read hread hn => ?_⟩
    have hz : q.toDouble (QString.trimmed value) = ⟨0⟩ := by
      rw [hread (QString.trimmed value), hn]
      rfl
    rw [h1, hz]

theorem parseParameter_not_dropped_witness :
    IsParameterLine exUnknownTypeLine "double".toList "d".toList " 1.5".toList ∧
    "double".toList ∉ typeNames ∧
    (parseParameter exLocale exUnknownTypeLine exABk).m_parameterArray = exABk.m_parameterArray ++
      [GLSLParameter.mk3 1 "d".toList 0 (-1)] ∧
    IsParameterLine exIntWordLine "int".toList "n".toList " many".toList ∧
    (parseParameter exLocale exIntWordLine exABk).m_parameterArray = exABk.m_parameterArray ++
      [(GLSLParameter.mk3 1 "n".toList GL_INT (-1)).setValue (.int 0)] ∧
    IsParameterLine exFloatWordLine "float".toList "f".toList " much".toList ∧
    exLocaleRead.ReadsWith exRead ∧
    exRead (QString.trimmed " much".toList) = none ∧
    (parseParameter exLocaleRead exFloatWordLine exABk).m_parameterArray =
      exABk.m_parameterArray ++
        [(GLSLParameter.mk3 1 "f".toList GL_FLOAT (-1)).setValue (.double ⟨0⟩)] :=
  ⟨paramRegExp_isParameterLine _ _ _ _ (by decide), by decide,
   (parseParameter_not_dropped exLocale exUnknownTypeLine "double".toList "d".toList
      " 1.5".toList exABk (paramRegExp_isParameterLine _ _ _ _ (by decide))).1 (by decide),
   paramRegExp_isParameterLine _ _ _ _ (by decide),
   ((parseParameter_not_dropped exLocale exIntWordLine "int".toList "n".toList
      " many".toList exABk (paramRegExp_isParameterLine _ _ _ _ (by decide))).2.1 rfl).1,
   paramRegExp_isParameterLine _ _ _ _ (by decide),
   fun _ => rfl,
   by decide,
   ((parseParameter_not_dropped exLocaleRead exFloatWordLine "float".toList "f".toList
      " much".toList exABk (paramRegExp_isParameterLine _ _ _ _ (by decide))).2.2 rfl).2
      exRead (fun _ => rfl) (by decide)⟩
/-! ## Constructor lines -/

theorem indexOf_append_cons (a b : QString) (x : Char) (ha : x ∉ a) :
    QString.indexOf (a ++ x :: b) x = a.length := by
  have h : ∀ a : QString, x ∉ a → (a ++ x :: b).indexOf? x = some a.length := by
    intro a
    induction a with
    | nil => intro _; simp [List.indexOf?, List.findIdx?_cons]
    | cons y a ih =>
      intro ha
      have hy : (y == x) = false := by
        rw [beq_eq_false_iff_ne]
        exact fun h => ha (by rw [h]; exact List.mem_cons_self _ _)
      have := ih (fun hz => ha (List.mem_cons_of_mem _ hz))
      simp only [List.indexOf?] at this ⊢
      simp only [List.cons_append, List.findIdx?_cons, hy, List.findIdx?_succ, this]
      simp
  unfold QString.indexOf
  rw [h a ha]

theorem split_cons (sep c : Char) (cs : QString) :
    QString.split sep (c :: cs) =
      match QString.split sep cs with
      | [] => [[c]]
      | w :: ws => if c = sep then [] :: w :: ws else (c :: w) :: ws := by
  rw [QString.split]

theorem split_ne_nil (sep : Char) : ∀ s : QString, QString.split sep s ≠ [] := by
  intro s
  induction s with
  | nil => simp [QString.split]
  | cons c cs ih =>
    rw [split_cons]
    split
    · simp
    · split <;> simp

theorem split_of_not_mem (sep : Char) : ∀ s : QString, sep ∉ s → QString.split sep s = [s] := by
  intro s
  induction s with
  | nil => intro _; rfl
  | cons c cs ih =>
    intro h
    have hc : ¬ c = sep := fun hx => h (by rw [hx]; exact List.mem_cons_self _ _)
    have := ih (fun hx => h (List.mem_cons_of_mem _ hx))
    rw [split_cons, this]
    simp only [if_neg hc]

theorem split_append_sep (sep : Char) (r : QString) :
    ∀ a : QString, sep ∉ a → QString.split sep (a ++ sep :: r) = a :: QString.split sep r := by
  intro a
  induction a with
  | nil =>
    intro _
    show QString.split sep (sep :: r) = _
    rw [split_cons]
    cases hr : QString.split sep r with
    | nil => exact absurd hr (split_ne_nil sep r)
    | cons w ws => simp only [if_true]
  | cons c cs ih =>
    intro h
    have hc : ¬ c = sep := fun hx => h (by rw [hx]; exact List.mem_cons_self _ _)
    have := ih (fun hx => h (List.mem_cons_of_mem _ hx))
    show QString.split sep (c :: (cs ++ sep :: r)) = _
    rw [split_cons, this]
    simp only [if_neg hc]

/-- Splitting at the commas gives back the texts that were joined with commas. -/
theorem split_join (args : List QString) (hne : args ≠ []) (h : ∀ a ∈ args, ',' ∉ a) :
    QString.split ',' (QStringList.join ",".toList args) = args := by
  induction args with
  | nil => exact absurd rfl hne
  | cons a rest ih =>
    cases rest with
    | nil =>
      show QString.split ',' a = [a]
      exact split_of_not_mem ',' a (h a (List.mem_cons_self _ _))
    | cons b rest =>
      show QString.split ',' (a ++ ",".toList ++ QStringList.join ",".toList (b :: rest)) = _
      have e1 : a ++ ",".toList ++ QStringList.join ",".toList (b :: rest)
          = a ++ ',' :: QStringList.join ",".toList (b :: rest) := by
        rw [List.append_assoc]
        rfl
      rw [e1, split_append_sep ',' _ a (h a (List.mem_cons_self _ _)),
        ih (List.cons_ne_nil _ _) (fun x hx => h x (List.mem_cons_of_mem _ hx))]

theorem join_not_mem (c : Char) (sep : QString) (hsep : c ∉ sep) :
    ∀ l : List QString, (∀ s ∈ l, c ∉ s) → c ∉ QStringList.join sep l := by
  intro l
  induction l with
  | nil => intro _; simp [QStringList.join]
  | cons s rest ih =>
    intro h
    cases rest with
    | nil =>
      simpa [QStringList.join] using h s (List.mem_cons_self _ _)
    | cons t rest1 =>
      have h1 := h s (List.mem_cons_self _ _)
      have h2 := ih (fun x hx => h x (List.mem_cons_of_mem _ hx))
      simp only [QStringList.join, List.mem_append, not_or]
      exact ⟨⟨h1, hsep⟩, h2⟩

theorem dropWhile_all (p : Char → Bool) (l : List Char) (h : ∀ c ∈ l, p c = true) :
    l.dropWhile p = [] := by
  have := dropWhile_append_stop p l [] h (by simp)
  simpa using this

/-- Trimming takes the white space off both ends of a text that neither starts
nor ends with white space. -/
theorem trimmed_append (ws1 ws2 body : QString) (x y : Char) (mid : QString)
    (hbody : body = x :: mid ++ [y])
    (h1 : ∀ c ∈ ws1, QChar.isSpace c = true) (h2 : ∀ c ∈ ws2, QChar.isSpace c = true)
    (hx : QChar.isSpace x = false) (hy : QChar.isSpace y = false) :
    QString.trimmed (ws1 ++ body ++ ws2) = body := by
  unfold QString.trimmed
  have hh : ∀ c ∈ (body ++ ws2).head?, QChar.isSpace c = false := by
    intro c hc
    rw [hbody] at hc
    simp only [List.cons_append, List.head?_cons, Option.mem_def, Option.some.injEq] at hc
    rw [← hc]
    exact hx
  rw [List.append_assoc, dropWhile_append_stop _ _ _ h1 hh]
  have hr : (body ++ ws2).reverse = ws2.reverse ++ y :: (x :: mid).reverse := by
    rw [hbody]
    simp
  have hh2 : ∀ c ∈ (y :: (x :: mid).reverse).head?, QChar.isSpace c = false := by
    intro c hc
    simp only [List.head?_cons, Option.mem_def, Option.some.injEq] at hc
    rw [← hc]
    exact hy
  rw [hr, dropWhile_append_stop _ _ _ (fun c hc => h2 c (List.mem_reverse.1 hc)) hh2, hbody]
  simp

theorem mid_constructor (type J : QString) :
    QString.mid (type ++ '(' :: (J ++ [')'])) ((type.length : Int) + 1)
      (((type.length + 1 + J.length : Nat) : Int) - (type.length : Int) - 1) = J := by
  have hs : type ++ '(' :: (J ++ [')']) = (type ++ ['(']) ++ (J ++ [')']) := by simp
  have hlen : (type ++ '(' :: (J ++ [')'])).length = type.length + 1 + J.length + 1 := by
    simp only [List.length_append, List.length_cons, List.length_nil]
    omega
  unfold QString.mid
  rw [hlen]
  have c1 : ¬ ((type.length : Int) + 1 ≥ ((type.length + 1 + J.length + 1 : Nat) : Int)) := by
    push_cast
    omega
  have c2 : ¬ (((type.length + 1 + J.length : Nat) : Int) - (type.length : Int) - 1 < 0) := by
    push_cast
    omega
  have c3 : ¬ ((type.length : Int) + 1 < 0) := by omega
  have c4 : ¬ (((type.length + 1 + J.length : Nat) : Int) - (type.length : Int) - 1 +
      ((type.length : Int) + 1) > ((type.length + 1 + J.length + 1 : Nat) : Int)) := by
    push_cast
    omega
  simp only [if_neg c1, if_neg c2, if_neg c3, if_neg c4]
  have t1 : ((type.length : Int) + 1).toNat = (type ++ ['(']).length := by
    simp only [List.length_append, List.length_cons, List.length_nil]
    omega
  have t2 : (((type.length + 1 + J.length : Nat) : Int) - (type.length : Int) - 1).toNat
      = J.length := by
    push_cast
    omega
  rw [t1, t2, hs, List.drop_left, List.take_left]

theorem vectorTypeName_facts (type : QString) (h : type ∈ vectorTypeNames) :
    '(' ∉ type ∧ ')' ∉ type ∧ getType type ≠ GL_FLOAT ∧ getType type ≠ GL_INT ∧
    getType type ≠ GL_BOOL ∧ isVectorType (getType type) := by
  simp only [vectorTypeNames, List.mem_cons, List.mem_singleton, List.not_mem_nil,
    or_false] at h
  rcases h with h | h | h | h | h | h | h | h | h | h | h | h <;> rw [h] <;> decide

/-- C21: for a line `T n = T(a1,...,ak);` (white space allowed around the value)
where `T` is the name of a vector or matrix type, `k` is at least 1 and no `ai`
holds a comma or a closing bracket, `parseParameter` adds at the end of the list
one parameter named `n` of type `getType T` whose value is the list of the `k`
components, the `i`-th being `ai` read by `QString::toDouble` for the `vec` and
`mat` types, by `QString::toInt` for the `ivec` types, and the truth value of
"`ai` trimmed is `true`" for the `bvec` types. -/
theorem parseParameter_constructor (q : QLocale) (line type name value : QString)
    (args : List QString) (e : GLSLEffect)
    (hline : IsParameterLine line type name value) (htype : type ∈ vectorTypeNames)
    (hvalue : ∃ ws1 ws2, value = ws1 ++ constructorText type args ++ ws2 ∧
      (∀ c ∈ ws1, QChar.isSpace c = true) ∧ (∀ c ∈ ws2, QChar.isSpace c = true))
    (hne : args ≠ []) (hargs : ∀ a ∈ args, ',' ∉ a ∧ ')' ∉ a) :
    (∃ components : List QScalar,
      (parseParameter q line e).m_parameterArray = e.m_parameterArray ++
        [(GLSLParameter.mk3 e.heap name (getType type) (-1)).setValue (.list components)] ∧
      components.length = args.length ∧
      (type ∈ ["vec2".toList, "vec3".toList, "vec4".toList, "mat2".toList, "mat3".toList,
          "mat4".toList] →
        components = args.map fun a => QScalar.double (q.toDouble a)) ∧
      (type ∈ ["ivec2".toList, "ivec3".toList, "ivec4".toList] →
        components = args.map fun a => QScalar.int (QString.toInt a)) ∧
      (type ∈ ["bvec2".toList, "bvec3".toList, "bvec4".toList] →
        components = args.map fun a => QScalar.bool (QString.trimmed a = "true".toList))) := by
  obtain ⟨hopen, hclose, hf, hi, hb, _⟩ := vectorTypeName_facts type htype
  obtain ⟨ws1, ws2, hv, h1, h2⟩ := hvalue
  have hline0 := hline
  obtain ⟨_, _, _, _, _, _, htne, htw, _⟩ := hline
  have hbody : constructorText type args
      = type ++ '(' :: (QStringList.join ",".toList args ++ [')']) := by
    unfold constructorText
    simp only [List.append_assoc]
    rfl
  obtain ⟨x, rest, hx⟩ : ∃ x rest, type = x :: rest := by
    cases type with
    | nil => exact absurd rfl htne
    | cons x rest => exact ⟨x, rest, rfl⟩
  have hxs : QChar.isSpace x = false :=
    isWord_not_isSpace x (htw x (by rw [hx]; exact List.mem_cons_self _ _))
  have htrim : QString.trimmed value = constructorText type args := by
    rw [hv]
    apply trimmed_append ws1 ws2 _ x ')'
      (rest ++ '(' :: QStringList.join ",".toList args) _ h1 h2 hxs (by decide)
    rw [hbody, hx]
    simp
  have hsw : startsWith (QString.trimmed value) type = true := by
    rw [htrim, hbody]
    unfold startsWith
    exact List.isPrefixOf_iff_prefix.2 ⟨_, rfl⟩
  have hjc : ')' ∉ QStringList.join ",".toList args :=
    join_not_mem ')' _ (by decide) args fun a ha => (hargs a ha).2
  have hio : QString.indexOf (QString.trimmed value) '(' = (type.length : Int) := by
    rw [htrim, hbody, indexOf_append_cons type _ '(' hopen]
  have hic : QString.indexOf (QString.trimmed value) ')'
      = ((type.length + 1 + (QStringList.join ",".toList args).length : Nat) : Int) := by
    have e1 : type ++ '(' :: (QStringList.join ",".toList args ++ [')'])
        = (type ++ '(' :: QStringList.join ",".toList args) ++ ')' :: [] := by simp
    have hn : ')' ∉ type ++ '(' :: QStringList.join ",".toList args := by
      simp only [List.mem_append, List.mem_cons, not_or]
      exact ⟨hclose, by decide, hjc⟩
    rw [htrim, hbody, e1, indexOf_append_cons _ _ ')' hn]
    simp only [List.length_append, List.length_cons]
    push_cast
    omega
  have hcomp : parsedComponents q type value =
      .list (args.map (parseComponent q (getBaseType (getType type)))) := by
    unfold parsedComponents
    rw [if_pos hsw, hio, hic]
    rw [htrim, hbody, mid_constructor, split_join args hne fun a ha => (hargs a ha).1]
  refine ⟨args.map (parseComponent q (getBaseType (getType type))), ?_, by simp, ?_, ?_, ?_⟩
  · rw [parseParameter_line q line type name value e hline0,
      if_neg hf, if_neg hi, if_neg hb, if_pos hsw, hcomp]
  · intro ht
    simp only [List.mem_cons, List.mem_singleton, List.not_mem_nil, or_false] at ht
    have hbase : getBaseType (getType type) = GL_FLOAT := by
      rcases ht with h | h | h | h | h | h <;> rw [h] <;> decide
    rw [hbase]
    apply List.map_congr_left
    intro a _
    unfold parseComponent
    rw [if_pos rfl]
  · intro ht
    simp only [List.mem_cons, List.mem_singleton, List.not_mem_nil, or_false] at ht
    have hbase : getBaseType (getType type) = GL_INT := by
      rcases ht with h | h | h <;> rw [h] <;> decide
    rw [hbase]
    apply List.map_congr_left
    intro a _
    unfold parseComponent
    rw [if_neg (by decide), if_pos rfl]
  · intro ht
    simp only [List.mem_cons, List.mem_singleton, List.not_mem_nil, or_false] at ht
    have hbase : getBaseType (getType type) = GL_BOOL := by
      rcases ht with h | h | h <;> rw [h] <;> decide
    rw [hbase]
    apply List.map_congr_left
    intro a _
    unfold parseComponent
    rw [if_neg (by decide), if_neg (by decide), if_pos rfl]

theorem parseParameter_constructor_witness :
    IsParameterLine exIVec3Line "ivec3".toList "v".toList " ivec3(1, -2, x)".toList ∧
    (parseParameter exLocale exIVec3Line exABk).m_parameterArray = exABk.m_parameterArray ++
      [(GLSLParameter.mk3 1 "v".toList GL_INT_VEC3_ARB (-1)).setValue
        (.list [.int 1, .int (-2), .int 0])] ∧
    ∃ components : List QScalar,
      (parseParameter exLocale exIVec3Line exABk).m_parameterArray = exABk.m_parameterArray ++
        [(GLSLParameter.mk3 exABk.heap "v".toList (getType "ivec3".toList) (-1)).setValue
          (.list components)] ∧
      components.length = ["1".toList, " -2".toList, " x".toList].length ∧
      ("ivec3".toList ∈ ["vec2".toList, "vec3".toList, "vec4".toList, "mat2".toList,
          "mat3".toList, "mat4".toList] →
        components = ["1".toList, " -2".toList, " x".toList].map fun a =>
          QScalar.double (exLocale.toDouble a)) ∧
      ("ivec3".toList ∈ ["ivec2".toList, "ivec3".toList, "ivec4".toList] →
        components = ["1".toList, " -2".toList, " x".toList].map fun a =>
          QScalar.int (QString.toInt a)) ∧
      ("ivec3".toList ∈ ["bvec2".toList, "bvec3".toList, "bvec4".toList] →
        components = ["1".toList, " -2".toList, " x".toList].map fun a =>
          QScalar.bool (QString.trimmed a = "true".toList)) :=
  ⟨paramRegExp_isParameterLine _ _ _ _ (by decide), by decide,
   parseParameter_constructor exLocale exIVec3Line "ivec3".toList "v".toList
    " ivec3(1, -2, x)".toList ["1".toList, " -2".toList, " x".toList] exABk
    (paramRegExp_isParameterLine _ _ _ _ (by decide)) (by decide)
    ⟨" ".toList, [], by decide, by decide, by decide⟩ (by decide) (by decide)⟩

/-! ## The round trip of the sources -/

theorem startsWith_bracket_iff (l : QByteArray) :
    startsWith l ['['] = false ↔ l.head? ≠ some '[' := by
  cases l with
  | nil => simp [startsWith, List.isPrefixOf]
  | cons x xs =>
    simp only [startsWith, List.isPrefixOf, Bool.and_true, List.head?_cons, ne_eq,
      Option.some.injEq, beq_eq_false_iff_ne]
    exact ⟨fun h h1 => h h1.symm, fun h h1 => h h1.symm⟩

theorem readLines_cons_newline (cs : QByteArray) :
    readLines ('\n' :: cs) = ['\n'] :: readLines cs := by
  rw [readLines]
  simp

theorem readLines_cons_other (c : Char) (cs : QByteArray) (hc : c ≠ '\n') :
    readLines (c :: cs) =
      match readLines cs with
      | [] => [[c]]
      | l :: ls => (c :: l) :: ls := by
  rw [readLines]
  simp [hc]

theorem readLines_head (c : Char) (cs : QByteArray) :
    ∃ l ls, readLines (c :: cs) = l :: ls ∧ l.head? = some c := by
  by_cases hc : c = '\n'
  · rw [hc, readLines_cons_newline]
    exact ⟨_, _, rfl, rfl⟩
  · rw [readLines_cons_other c cs hc]
    cases readLines cs with
    | nil => exact ⟨_, _, rfl, rfl⟩
    | cons l ls => exact ⟨_, _, rfl, rfl⟩

theorem readLines_tail_newline :
    ∀ t : QByteArray, (∀ l ∈ (readLines t).tail, l.head? ≠ some '[') →
      ∀ l ∈ (readLines (t ++ ['\n'])).tail, l.head? ≠ some '[' := by
  intro t
  induction t with
  | nil =>
    intro _ l hl
    rw [List.nil_append, readLines_cons_newline] at hl
    simp [readLines] at hl
  | cons c cs ih =>
    intro h l hl
    by_cases hc : c = '\n'
    · rw [hc, readLines_cons_newline, List.tail_cons] at h
      rw [hc, List.cons_append, readLines_cons_newline, List.tail_cons] at hl
      cases cs with
      | nil =>
        rw [List.nil_append, readLines_cons_newline] at hl
        simp only [readLines, List.mem_singleton] at hl
        rw [hl]
        decide
      | cons d ds =>
        obtain ⟨l0, ls0, e0, h0⟩ := readLines_head d ds
        obtain ⟨l1, ls1, e1, h1⟩ := readLines_head d (ds ++ ['\n'])
        rw [List.cons_append, e1] at hl
        rcases List.mem_cons.1 hl with hl1 | hl1
        · rw [hl1, h1, ← h0]
          exact h l0 (by rw [e0]; exact List.mem_cons_self _ _)
        · have h2 := ih (fun x hx => h x (List.mem_of_mem_tail hx))
          apply h2
          rw [List.cons_append, e1]
          exact hl1
    · rw [List.cons_append, readLines_cons_other c _ hc] at hl
      rw [readLines_cons_other c cs hc] at h
      have h2 : ∀ l ∈ (readLines cs).tail, l.head? ≠ some '[' := by
        intro x hx
        cases hr : readLines cs with
        | nil => rw [hr] at hx; cases hx
        | cons l0 ls0 =>
          rw [hr] at hx h
          exact h x hx
      have h3 := ih h2
      cases hr : readLines (cs ++ ['\n']) with
      | nil => rw [hr] at hl; cases hl
      | cons l1 ls1 =>
        rw [hr] at hl h3
        exact h3 l hl

theorem readLines_newline_heads (t : QByteArray)
    (h : ∀ l ∈ readLines t, startsWith l ['['] = false) :
    ∀ l ∈ readLines (t ++ ['\n']), startsWith l ['['] = false := by
  intro l hl
  rw [startsWith_bracket_iff]
  have h1 : ∀ l ∈ readLines t, l.head? ≠ some '[' := fun x hx =>
    (startsWith_bracket_iff x).1 (h x hx)
  cases t with
  | nil =>
    rw [List.nil_append, readLines_cons_newline] at hl
    simp only [readLines, List.mem_singleton] at hl
    rw [hl]
    decide
  | cons c cs =>
    obtain ⟨l0, ls0, e0, h0⟩ := readLines_head c cs
    obtain ⟨l1, ls1, e1, h2⟩ := readLines_head c (cs ++ ['\n'])
    have h3 := readLines_tail_newline (c :: cs) (fun x hx => h1 x (List.mem_of_mem_tail hx))
    rw [List.cons_append, e1] at hl h3
    rcases List.mem_cons.1 hl with hl1 | hl1
    · rw [hl1, h2, ← h0]
      exact h1 l0 (by rw [e0]; exact List.mem_cons_self _ _)
    · exact h3 l hl1

theorem withNewline_endsWith (text : QByteArray) : endsWithChar (withNewline text) '\n' = true := by
  unfold withNewline
  split
  · assumption
  · simp [endsWithChar]

theorem withNewline_lines (text : QByteArray)
    (h : ∀ l ∈ readLines text, startsWith l ['['] = false) :
    ∀ l ∈ readLines (withNewline text), startsWith l ['['] = false := by
  unfold withNewline
  split
  · exact h
  · exact readLines_newline_heads text h

theorem withNewline_of_endsWith (text : QByteArray) (h : endsWithChar text '\n' = true) :
    withNewline text = text := by
  unfold withNewline
  rw [if_pos h]

/-- The bytes of `save`: the two shader sections, each source with a newline at
its end, and the parameters. -/
theorem save_eq (q : QLocale) (e : GLSLEffect) :
    saveShaders e = s_vertexShaderTag ++ withNewline e.m_vertexShaderText ++
      s_fragmentShaderTag ++ withNewline e.m_fragmentShaderText ∧
    save q e = saveShaders e ++
      (if parameterCount e > 0 then s_parametersTag ++ saveParameters q e.m_parameterArray
       else []) := by
  constructor
  · unfold saveShaders withNewline
    cases endsWithChar e.m_vertexShaderText '\n' <;>
      cases endsWithChar e.m_fragmentShaderText '\n' <;> simp
  · rfl

/-- Loading the bytes of `save` gives the sources as `save` wrote them. -/
theorem load_save_withNewline (q : QLocale) (e e0 : GLSLEffect)
    (hvl : ∀ l ∈ readLines e.m_vertexShaderText, startsWith l ['['] = false)
    (hfl : ∀ l ∈ readLines e.m_fragmentShaderText, startsWith l ['['] = false)
    (hp : ∀ l ∈ readLines (saveParameters q e.m_parameterArray),
      sectionOf l ≠ .vertex ∧ sectionOf l ≠ .fragment) :
    (load q (save q e) e0).m_vertexShaderText = withNewline e.m_vertexShaderText ∧
    (load q (save q e) e0).m_fragmentShaderText = withNewline e.m_fragmentShaderText := by
  have hv := withNewline_endsWith e.m_vertexShaderText
  have hf := withNewline_endsWith e.m_fragmentShaderText
  have hvl1 := withNewline_lines _ hvl
  have hfl1 := withNewline_lines _ hfl
  have hvt : endsWithChar s_vertexShaderTag '\n' = true := by decide
  have hft : endsWithChar s_fragmentShaderTag '\n' = true := by decide
  have hpt : endsWithChar s_parametersTag '\n' = true := by decide
  have hvr : readLines s_vertexShaderTag = [s_vertexShaderTag] := by decide
  have hfr : readLines s_fragmentShaderTag = [s_fragmentShaderTag] := by decide
  have hpr : readLines s_parametersTag = [s_parametersTag] := by decide
  have hlines : ∃ tail : List QByteArray,
      readLines (save q e) = s_vertexShaderTag :: (readLines (withNewline e.m_vertexShaderText) ++
        s_fragmentShaderTag :: (readLines (withNewline e.m_fragmentShaderText) ++ tail)) ∧
      (tail = [] ∨ tail = s_parametersTag :: readLines (saveParameters q e.m_parameterArray)) := by
    rw [(save_eq q e).2, (save_eq q e).1]
    simp only [List.append_assoc]
    rw [readLines_append_of_endsWith _ _ hvt, readLines_append_of_endsWith _ _ hv,
      readLines_append_of_endsWith _ _ hft, readLines_append_of_endsWith _ _ hf, hvr, hfr]
    split
    · refine ⟨_, rfl, Or.inr ?_⟩
      rw [readLines_append_of_endsWith _ _ hpt, hpr]
      rfl
    · exact ⟨[], by simp [readLines], Or.inl rfl⟩
  obtain ⟨tail, hl, htail⟩ := hlines
  unfold load
  rw [hl, loadLoop_cons]
  have h0 : loadStep q ⟨[], .none,
      { e0 with m_vertexShaderText := [], m_fragmentShaderText := [] }⟩ s_vertexShaderTag
      = ⟨s_vertexShaderTag, .none,
        { e0 with m_vertexShaderText := [], m_fragmentShaderText := [] }⟩ := by
    have : sectionOf [] = .none := by decide
    simp [loadStep, this]
  rw [h0]
  obtain ⟨line1, h1⟩ := loadLoop_vertex_section q
    { e0 with m_vertexShaderText := [], m_fragmentShaderText := [] }
    (withNewline e.m_vertexShaderText)
    (s_fragmentShaderTag :: (readLines (withNewline e.m_fragmentShaderText) ++ tail)) hv hvl1
  rw [h1, loadLoop_cons]
  have hb : startsWith s_fragmentShaderTag ['['] = true := by decide
  simp only [loadStep, hb, if_true]
  obtain ⟨line2, h2⟩ := loadLoop_fragment_section q
    { e0 with m_vertexShaderText := [] ++ withNewline e.m_vertexShaderText,
              m_fragmentShaderText := [] }
    (withNewline e.m_fragmentShaderText) tail hf hfl1
  rw [h2]
  rcases htail with rfl | rfl
  · simp [loadLoop]
  · rw [loadLoop_cons]
    have hb2 : startsWith s_parametersTag ['['] = true := by decide
    simp only [loadStep, hb2, if_true]
    have hsec : sectionOf s_parametersTag ≠ .vertex ∧ sectionOf s_parametersTag ≠ .fragment := by
      decide
    have h3 := loadLoop_parameters_texts q _ hp
      ⟨s_parametersTag, .none,
        { e0 with m_vertexShaderText := [] ++ withNewline e.m_vertexShaderText,
                  m_fragmentShaderText := [] ++ withNewline e.m_fragmentShaderText }⟩
      (Or.inl ⟨rfl, hsec⟩)
    simpa using h3

set_option maxRecDepth 100000 in
/-- C30 as stated fails: the sources `A` and `B`, each on a line of its own, are
not empty, end with a newline and have no line that starts with `[`; the
effect holds a texture whose file name has the line `[VertexShader]`, and
loading the bytes of `save` puts the rest of the assignment into the vertex
source. -/
theorem save_load_roundtrip_counterexample :
    exTexturePathLines.m_vertexShaderText = "A\n".toList ∧
    exTexturePathLines.m_fragmentShaderText = "B\n".toList ∧
    save exLocale exTexturePathLines =
      "[VertexShader]\nA\n[FragmentShader]\nB\n[Parameters]\nsampler2D tex = load(\"a\n[VertexShader]\nX\");\n".toList ∧
    (load exLocale (save exLocale exTexturePathLines) GLSLEffect.ctor).m_vertexShaderText
      = "A\nX\");\n".toList ∧
    saveShaders (load exLocale (save exLocale exTexturePathLines) GLSLEffect.ctor)
      ≠ saveShaders exTexturePathLines := by
  decide

/-- C30 (amended): for an effect whose sources have no line that starts with `[`
and whose assignment lines do not start with the tag `[VertexShader]` or
`[FragmentShader]`: when each source ends with a newline, loading the bytes
written by `save` into any effect gives back both sources; and in every case
the effect so loaded is saved with the same shader sections as the first
save wrote, its sources being the saved ones with the newline that `save` put
at their end. -/
theorem save_load_roundtrip (q : QLocale) (e e0 : GLSLEffect)
    (hvl : ∀ l ∈ readLines e.m_vertexShaderText, startsWith l ['['] = false)
    (hfl : ∀ l ∈ readLines e.m_fragmentShaderText, startsWith l ['['] = false)
    (hp : ∀ l ∈ readLines (saveParameters q e.m_parameterArray),
      sectionOf l ≠ .vertex ∧ sectionOf l ≠ .fragment) :
    (endsWithChar e.m_vertexShaderText '\n' = true →
      endsWithChar e.m_fragmentShaderText '\n' = true →
      (load q (save q e) e0).m_vertexShaderText = e.m_vertexShaderText ∧
      (load q (save q e) e0).m_fragmentShaderText = e.m_fragmentShaderText) ∧
    saveShaders (load q (save q e) e0) = saveShaders e ∧
    (∃ rest, save q (load q (save q e) e0) = saveShaders e ++ rest) ∧
    (∃ rest, save q e = saveShaders e ++ rest) := by
  obtain ⟨h1, h2⟩ := load_save_withNewline q e e0 hvl hfl hp
  have hs : saveShaders (load q (save q e) e0) = saveShaders e := by
    rw [(save_eq q (load q (save q e) e0)).1, (save_eq q e).1, h1, h2,
      withNewline_of_endsWith _ (withNewline_endsWith _),
      withNewline_of_endsWith _ (withNewline_endsWith _)]
  refine ⟨?_, hs, ?_, ⟨_, (save_eq q e).2⟩⟩
  · intro hv hf
    rw [h1, h2, withNewline_of_endsWith _ hv, withNewline_of_endsWith _ hf]
    exact ⟨rfl, rfl⟩
  · have h3 := (save_eq q (load q (save q e) e0)).2
    rw [hs] at h3
    exact ⟨_, h3⟩

theorem save_load_roundtrip_witness :
    (load exLocale (save exLocale exBrokenWithParameter) exABk).m_vertexShaderText
      = exBrokenWithParameter.m_vertexShaderText ∧
    (load exLocale (save exLocale exBrokenWithParameter) exABk).m_fragmentShaderText
      = exBrokenWithParameter.m_fragmentShaderText ∧
    saveShaders (load exLocale (save exLocale exABk) exBrokenWithParameter) = saveShaders exABk ∧
    saveShaders exABk = "[VertexShader]\nA\n[FragmentShader]\nB\n".toList :=
  ⟨((save_load_roundtrip exLocale exBrokenWithParameter exABk (by decide) (by decide)
      (by decide)).1 (by decide) (by decide)).1,
   ((save_load_roundtrip exLocale exBrokenWithParameter exABk (by decide) (by decide)
      (by decide)).1 (by decide) (by decide)).2,
   (save_load_roundtrip exLocale exABk exBrokenWithParameter (by decide) (by decide)
      (by decide)).2.1,
   by decide⟩

/-! ## What `begin` writes -/

theorem setVector_of_list (call : List UniformArg → Call) (conv : Source → UniformArg) (n : Nat)
    (l : List QScalar) (h : l.length = n) :
    setVector call conv n (.list l) = some [call (l.map fun s => conv (.element s))] := by
  simp only [setVector, h, if_true]

theorem setVectorOrColor_of_list (location : Int) (n : Nat) (l : List QScalar)
    (h : l.length = n) :
    setVectorOrColor location n (.list l) =
      some [Call.glUniformf location (l.map fun s => UniformArg.toFloat (.element s))] := by
  simp only [setVectorOrColor, h, if_true]

/-- What `setParameter` does for a parameter whose value has the shape of its
type. -/
theorem setParameter_writes (p : GLSLParameter)
    (hshape : isPlainVectorType p.glType → HasVectorValue p) :
    ∃ cs, setParameter p = some cs ∧ WritesParameter p cs := by
  by_cases hs : isScalarType p.glType
  · refine ⟨[uniformWrite p [.variant p.value]], ?_, fun _ => rfl, ?_, ?_, ?_, ?_⟩
    · unfold isScalarType at hs
      unfold setParameter uniformWrite
      rcases hs with h | h | h <;> rw [h] <;> rfl
    · intro hv
      exfalso
      unfold isScalarType at hs
      unfold isPlainVectorType at hv
      rcases hs with h | h | h <;> rw [h] at hv <;> revert hv <;> decide
    · intro hv
      exfalso
      unfold isScalarType at hs
      unfold isMatrixType isShadowSamplerType at hv
      rcases hs with h | h | h <;> rw [h] at hv <;> revert hv <;> decide
    · intro hv
      exfalso
      unfold isScalarType at hs
      unfold GLSLParameter.isTexture at hv
      rcases hs with h | h | h <;> rw [h] at hv <;> revert hv <;> decide
    · intro hv
      exfalso
      unfold isScalarType at hs
      rcases hs with h | h | h <;> rw [h] at hv <;> revert hv <;> decide
  · by_cases hv : isPlainVectorType p.glType
    · obtain ⟨l, hl, hlen⟩ := hshape hv
      refine ⟨[uniformWrite p (l.map Source.element)], ?_, fun h => absurd h hs,
        fun _ => ⟨l, hl, hlen, rfl⟩, ?_, ?_, ?_⟩
      · unfold isPlainVectorType at hv
        unfold setParameter uniformWrite
        rw [hl]
        rcases hv with h | h | h | h | h | h | h | h | h <;> rw [h] at hlen ⊢ <;>
          simp only [] <;>
          exact (setVector_of_list _ _ _ l hlen).trans (by simp [List.map_map]; rfl)
      · intro hm
        exfalso
        unfold isPlainVectorType at hv
        unfold isMatrixType isShadowSamplerType at hm
        rcases hv with h | h | h | h | h | h | h | h | h <;> rw [h] at hm <;> revert hm <;>
          decide
      · intro hm
        exfalso
        unfold isPlainVectorType at hv
        unfold GLSLParameter.isTexture at hm
        rcases hv with h | h | h | h | h | h | h | h | h <;> rw [h] at hm <;> revert hm <;>
          decide
      · intro hm
        exfalso
        unfold isPlainVectorType at hv
        rcases hv with h | h | h | h | h | h | h | h | h <;> rw [h] at hm <;> revert hm <;>
          decide
    · have hs1 := hs
      have hv1 := hv
      unfold isScalarType at hs1
      unfold isPlainVectorType at hv1
      simp only [not_or] at hs1 hv1
      obtain ⟨a1, a2, a3⟩ := hs1
      obtain ⟨b1, b2, b3, b4, b5, b6, b7, b8, b9⟩ := hv1
      by_cases ht : p.isTexture = true
      · have ht1 := ht
        unfold GLSLParameter.isTexture at ht1
        simp only [Bool.or_eq_true, beq_iff_eq] at ht1
        refine ⟨[Call.glUniformi p.location [UniformArg.unit p.texUnit],
          Call.glActiveTexture (GL_TEXTURE0_ARB + p.texUnit),
          Call.glBindTexture p.value.toTexture], ?_, fun h => absurd h hs,
          fun h => absurd h hv, ?_, fun _ => rfl, ?_⟩
        · unfold setParameter
          rcases ht1 with (((h | h) | h) | h) | h <;> rw [h] <;> rfl
        · intro hm
          exfalso
          unfold isMatrixType isShadowSamplerType at hm
          rcases ht1 with (((h | h) | h) | h) | h <;> rw [h] at hm <;> revert hm <;> decide
        · intro hm
          exfalso
          rcases ht1 with (((h | h) | h) | h) | h <;> rw [h] at hm <;> revert hm <;> decide
      · refine ⟨[], ?_, fun h => absurd h hs, fun h => absurd h hv, fun _ => rfl,
          fun h => absurd h ht, fun _ => rfl⟩
        have ht1 := ht
        unfold GLSLParameter.isTexture at ht1
        simp only [Bool.or_eq_true, beq_iff_eq, not_or] at ht1
        obtain ⟨⟨⟨⟨c1, c2⟩, c3⟩, c4⟩, c5⟩ := ht1
        unfold setParameter
        simp only [a1, a2, a3, b1, b2, b3, b4, b5, b6, b7, b8, b9, c1, c2, c3, c4, c5, or_self,
          if_false]

theorem setUserParameters_writes (l : List GLSLParameter)
    (hshape : ∀ p ∈ l, isPlainVectorType p.glType → HasVectorValue p) :
    ∃ css, setUserParameters l = some css.flatten ∧ List.Forall₂ WritesParameter l css := by
  induction l with
  | nil => exact ⟨[], rfl, List.Forall₂.nil⟩
  | cons p rest ih =>
    obtain ⟨cs, h1, h2⟩ := setParameter_writes p (hshape p (List.mem_cons_self _ _))
    obtain ⟨css, h3, h4⟩ := ih fun x hx => hshape x (List.mem_cons_of_mem _ hx)
    refine ⟨cs :: css, ?_, List.Forall₂.cons h2 h4⟩
    unfold setUserParameters
    rw [h1, h3]
    rfl

set_option maxRecDepth 100000 in
/-- C25 as stated fails: a file gives the `vec3` parameter `v` the text `1`, which
is no list of components; after a successful build for a program with the
uniform `v` the effect is valid and holds `v` with no value, and `begin()`
binds the program and writes no uniform. -/
theorem begin_writes_counterexample :
    isValid exVec3NoList = true ∧
    exVec3NoList.m_parameterArray.map (fun p => (p.name, p.glType, p.value))
      = [("v".toList, GL_FLOAT_VEC3_ARB, QVariant.invalid)] ∧
    begin 0 exVec3NoList = some
      [Call.glEnable GL_CULL_FACE, Call.glEnable GL_DEPTH_TEST, Call.glDepthFunc GL_LEQUAL,
       Call.glUseProgramObject 3] := by
  decide

/-- C25 (amended): on a valid effect in which every parameter of a vector type
holds a list with as many elements as the type has components, `begin()`
enables culling and the depth test, binds the program, then makes for each
parameter in list order the calls `cs` described by `WritesParameter`: one
uniform write at the location of the parameter, with the component count and
the base type of its type, for a scalar and for a vector; nothing for a
matrix, for a shadow sampler and for a type code outside the table; the write
of the texture unit, its activation and the bind for a texture. Last comes the
write of the time uniform, exactly when a location is recorded. -/
theorem begin_writes (elapsed : Int) (e : GLSLEffect) (hvalid : isValid e = true)
    (hshape : ∀ p ∈ e.m_parameterArray, isPlainVectorType p.glType → HasVectorValue p) :
    ∃ css : List (List Call),
      List.Forall₂ WritesParameter e.m_parameterArray css ∧
      begin elapsed e = some
        ([Call.glEnable GL_CULL_FACE, Call.glEnable GL_DEPTH_TEST, Call.glDepthFunc GL_LEQUAL,
          Call.glUseProgramObject e.m_program] ++ css.flatten ++
          (if e.m_timeUniform = -1 then []
           else [Call.glUniformf e.m_timeUniform [UniformArg.seconds elapsed]])) := by
  obtain ⟨css, h1, h2⟩ := setUserParameters_writes e.m_parameterArray hshape
  refine ⟨css, h2, ?_⟩
  have hp : ¬ e.m_program = 0 := by
    unfold isValid at hvalid
    simpa using hvalid
  unfold begin setParameters
  rw [if_neg hp, h1]
  by_cases ht : e.m_timeUniform = -1
  · simp [ht]
  · simp [ht]

set_option maxRecDepth 100000 in
theorem begin_writes_witness :
    isValid exRendered = true ∧
    (∀ p ∈ exRendered.m_parameterArray, isPlainVectorType p.glType → HasVectorValue p) ∧
    ∃ css : List (List Call),
      List.Forall₂ WritesParameter exRendered.m_parameterArray css ∧
      begin 40 exRendered = some
        ([Call.glEnable GL_CULL_FACE, Call.glEnable GL_DEPTH_TEST, Call.glDepthFunc GL_LEQUAL,
          Call.glUseProgramObject exRendered.m_program] ++ css.flatten ++
          (if exRendered.m_timeUniform = -1 then []
           else [Call.glUniformf exRendered.m_timeUniform [UniformArg.seconds 40]])) :=
  ⟨by decide, by decide, begin_writes 40 exRendered (by decide) (by decide)⟩

/-! ## The factories and the application -/

/-- Every factory that `newFile` hands to `newEffect` is supported. -/
theorem newFile_supported (effectFactoryList : List EffectFactory) (dialog : Option QString)
    (f : EffectFactory) (h : QShaderEdit.newFile effectFactoryList dialog = some f) :
    f.isSupported = true ∧ (EffectFactory.createEffect f).isSome = true := by
  have key : f.isSupported = true := by
    unfold QShaderEdit.newFile at h
    dsimp only at h
    split at h
    · cases h
    · split at h
      · exact List.find?_some h
      · cases dialog with
        | none => cases h
        | some selection =>
          have := List.find?_some h
          simp only [Bool.and_eq_true] at this
          exact this.1
  refine ⟨key, ?_⟩
  unfold EffectFactory.createEffect
  rw [if_pos key]
  rfl

/-- C22 (the code departs from the claim): in a graphics context without the
shader extensions the registry holds the GLSL factory, which is not supported;
`QShaderEdit::load` of the file `a.glsl` finds it by its extension and calls
`createEffect()` on it, where the assertion fails. `newFile` never does so. -/
theorem load_creates_unsupported :
    exGLSLFactoryUnsupported.isSupported = false ∧
    QShaderEdit.load [exGLSLFactoryUnsupported] "a.glsl".toList
      = some exGLSLFactoryUnsupported ∧
    EffectFactory.createEffect exGLSLFactoryUnsupported = none ∧
    QShaderEdit.newFile [exGLSLFactoryUnsupported] (some "GLSL Shader".toList) = none := by
  decide

/-! ## The order of the new parameter list -/

theorem forall2_append_left {α β : Type} (R : α → β → Prop) :
    ∀ (l1 l2 : List α) (r : List β), List.Forall₂ R (l1 ++ l2) r →
      ∃ r1 r2, r = r1 ++ r2 ∧ List.Forall₂ R l1 r1 ∧ List.Forall₂ R l2 r2 := by
  intro l1
  induction l1 with
  | nil => intro l2 r h; exact ⟨[], r, rfl, List.Forall₂.nil, h⟩
  | cons a l1 ih =>
    intro l2 r h
    rw [List.cons_append, List.forall₂_cons_left_iff] at h
    obtain ⟨b, r0, hab, hrest, hr⟩ := h
    obtain ⟨r1, r2, h1, h2, h3⟩ := ih l2 r0 hrest
    exact ⟨b :: r1, r2, by rw [hr, h1]; rfl, List.Forall₂.cons hab h2, h3⟩

theorem forall2_flatten_left {α β : Type} (R : α → β → Prop) :
    ∀ (ls : List (List α)) (r : List β), List.Forall₂ R ls.flatten r →
      ∃ rs, r = rs.flatten ∧ List.Forall₂ (List.Forall₂ R) ls rs := by
  intro ls
  induction ls with
  | nil =>
    intro r h
    rw [List.flatten_nil, List.forall₂_nil_left_iff] at h
    exact ⟨[], by rw [h]; rfl, List.Forall₂.nil⟩
  | cons l ls ih =>
    intro r h
    rw [List.flatten_cons] at h
    obtain ⟨r1, r2, h1, h2, h3⟩ := forall2_append_left R l ls.flatten r h
    obtain ⟨rs, h4, h5⟩ := ih r2 h3
    exact ⟨r1 :: rs, by rw [h1, h4]; rfl, List.Forall₂.cons h2 h5⟩

theorem forall2_split {α β : Type} (R : α → β → Prop) (l1 l2 : List α) (a : α) (r : List β)
    (h : List.Forall₂ R (l1 ++ a :: l2) r) :
    ∃ r1 b r2, r = r1 ++ b :: r2 ∧ List.Forall₂ R l1 r1 ∧ R a b ∧ List.Forall₂ R l2 r2 := by
  obtain ⟨r1, r0, h1, h2, h3⟩ := forall2_append_left R l1 (a :: l2) r h
  rw [List.forall₂_cons_left_iff] at h3
  obtain ⟨b, r2, hab, h4, h5⟩ := h3
  exact ⟨r1, b, r2, by rw [h1, h5], h2, hab, h4⟩

theorem initTextureUnits_rel (t : Int) (output : Bool) (l : List GLSLParameter) :
    ∀ unit : Int, List.Forall₂ SameButUnit l (initTextureUnits t output unit l).1 := by
  induction l with
  | nil => intro unit; exact List.Forall₂.nil
  | cons p rest ih =>
    intro unit
    unfold initTextureUnits
    split
    · split
      · exact List.Forall₂.cons ⟨unit, rfl⟩ (ih (unit + 1))
      · exact List.Forall₂.cons ⟨p.texUnit, rfl⟩ (ih unit)
    · exact List.Forall₂.cons ⟨p.texUnit, rfl⟩ (ih unit)

theorem Block.mono (prog : Program) (old old1 : List (Option GLSLParameter)) (heap heap1 : Nat)
    (u : ActiveUniform) (b : List GLSLParameter)
    (hold : ∀ o, some o ∈ old1 → some o ∈ old) (hheap : heap ≤ heap1)
    (h : Block prog old1 heap1 u b) : Block prog old heap u b := by
  rcases h with ⟨o, ho, h1, h2, h3⟩ | ⟨h, hh, hb⟩
  · exact Or.inl ⟨o, hold o ho, h1, h2, h3⟩
  · exact Or.inr ⟨h, Nat.le_trans hheap hh, hb⟩

/-- The loop of `initParameters` appends, for each user uniform in the order of
the enumeration, the parameters of that uniform. -/
theorem initLoop_blocks (prog : Program) (us : List ActiveUniform) :
    ∀ st : InitState, ∃ blocks,
      (initLoop prog st us).newParameterArray = st.newParameterArray ++ blocks.flatten ∧
      List.Forall₂ (Block prog st.old st.heap) (us.filter isUserUniform) blocks := by
  induction us with
  | nil => intro st; exact ⟨[], by simp [initLoop], List.Forall₂.nil⟩
  | cons u us ih =>
    intro st
    rw [initLoop_cons]
    cases hu : isUserUniform u with
    | false =>
      obtain ⟨h1, h2, h3⟩ := initStep_not_user prog st u hu
      obtain ⟨blocks, hb1, hb2⟩ := ih (initStep prog st u)
      rw [h1, h3] at hb2
      rw [h2] at hb1
      refine ⟨blocks, hb1, ?_⟩
      rw [List.filter_cons_of_neg (by simp [hu])]
      exact hb2
    | true =>
      rw [List.filter_cons_of_pos hu]
      cases hf : findOld u.name u.type (prog.uniformLocation u.name) st.old with
      | some r =>
        obtain ⟨p, old1⟩ := r
        rw [initStep_found prog st u p old1 hu hf]
        obtain ⟨blocks, hb1, hb2⟩ := ih
          { st with old := old1, newParameterArray := st.newParameterArray ++ [p] }
        obtain ⟨q, hq1, hq2⟩ := findOld_some _ _ _ _ _ _ hf
        obtain ⟨hq3, hq4, hq5⟩ := firstOld_some _ _ _ _ hq1
        refine ⟨[p] :: blocks, ?_, List.Forall₂.cons (Or.inl ⟨q, hq3, hq4, hq5, by rw [hq2]⟩) ?_⟩
        · rw [hb1]
          simp
        · exact hb2.imp fun a b hab =>
            Block.mono prog st.old old1 st.heap st.heap a b
              (fun o ho => findOld_rest_mem _ _ _ _ _ _ hf o ho) (Nat.le_refl _) hab
      | none =>
        rw [initStep_fresh prog st u hu hf]
        obtain ⟨blocks, hb1, hb2⟩ := ih
          { st with
            newParameterArray := st.newParameterArray ++
              addParameters prog st.heap u.name u.size u.type (prog.uniformLocation u.name),
            heap := st.heap +
              (addParameters prog st.heap u.name u.size u.type
                (prog.uniformLocation u.name)).length }
        refine ⟨addParameters prog st.heap u.name u.size u.type (prog.uniformLocation u.name)
          :: blocks, ?_, List.Forall₂.cons (Or.inr ⟨st.heap, Nat.le_refl _, rfl⟩) ?_⟩
        · rw [hb1]
          simp
        · exact hb2.imp fun a b hab =>
            Block.mono prog st.old st.old st.heap _ a b (fun o ho => ho)
              (Nat.le_add_right _ _) hab

theorem digitChar_value (k : Nat) (h : k < 10) : (Nat.digitChar k).toNat - 48 = k := by
  interval_cases k <;> rfl

theorem toDigitsCore_value (fuel : Nat) :
    ∀ (n : Nat) (ds : List Char), n < fuel →
      (Nat.toDigitsCore 10 fuel n ds).foldl (fun acc c => 10 * acc + (c.toNat - 48)) 0
        = ds.foldl (fun acc c => 10 * acc + (c.toNat - 48)) n := by
  induction fuel with
  | zero => intro n ds h; exact absurd h (Nat.not_lt_zero n)
  | succ fuel ih =>
    intro n ds h
    unfold Nat.toDigitsCore
    dsimp only
    by_cases h0 : n / 10 = 0
    · rw [if_pos h0]
      have hn : n % 10 = n := Nat.mod_eq_of_lt ((Nat.div_eq_zero_iff (by decide)).1 h0)
      have hd : (Nat.digitChar (n % 10)).toNat - 48 = n := by
        rw [digitChar_value _ (Nat.mod_lt n (by decide)), hn]
      simp only [List.foldl, hd, Nat.mul_zero, Nat.zero_add]
    · rw [if_neg h0]
      have hlt : n / 10 < fuel := by omega
      rw [ih (n / 10) _ hlt]
      simp only [List.foldl, digitChar_value _ (Nat.mod_lt n (by decide))]
      have : 10 * (n / 10) + n % 10 = n := Nat.div_add_mod n 10
      rw [this]

theorem toDigits_injective (a b : Nat) (h : Nat.toDigits 10 a = Nat.toDigits 10 b) : a = b := by
  have ha := toDigitsCore_value (a + 1) a [] (Nat.lt_succ_self a)
  have hb := toDigitsCore_value (b + 1) b [] (Nat.lt_succ_self b)
  unfold Nat.toDigits at h
  rw [h, hb] at ha
  simpa using ha.symm

theorem elementName_injective (name : QString) (i j : Nat)
    (h : elementName name i = elementName name j) : i = j := by
  unfold elementName QString.number at h
  have hi : ¬ ((i : Int) < 0) := by omega
  have hj : ¬ ((j : Int) < 0) := by omega
  rw [if_neg hi, if_neg hj] at h
  simp only [List.append_assoc, Int.toNat_ofNat] at h
  have h1 := List.append_cancel_left h
  have h2 := List.append_cancel_left h1
  have h3 := List.append_cancel_right h2
  exact toDigits_injective i j h3

theorem elementName_bracket (name : QString) (i : Nat) : '[' ∈ elementName name i := by
  unfold elementName
  simp only [List.mem_append]
  left; left; right
  decide

theorem elementName_base (n m : QString) (i j : Nat) (hn : '[' ∉ n) (hm : '[' ∉ m)
    (h : elementName n i = elementName m j) : n = m := by
  apply prefix_bracket '[' n m (QString.number (j : Int) ++ "]".toList) hn hm
  have e1 : m ++ '[' :: (QString.number (j : Int) ++ "]".toList) = elementName m j := by
    unfold elementName
    simp only [List.append_assoc]
    rfl
  rw [e1, ← h]
  refine ⟨QString.number (i : Int) ++ "]".toList, ?_⟩
  unfold elementName
  simp only [List.append_assoc]
  rfl

theorem forall2_comp {α β γ : Type} (R : α → β → Prop) (S : β → γ → Prop) :
    ∀ (l1 : List α) (l2 : List β) (l3 : List γ), List.Forall₂ R l1 l2 → List.Forall₂ S l2 l3 →
      List.Forall₂ (fun a c => ∃ b, R a b ∧ S b c) l1 l3 := by
  intro l1
  induction l1 with
  | nil =>
    intro l2 l3 h1 h2
    rw [List.forall₂_nil_left_iff] at h1
    rw [h1, List.forall₂_nil_left_iff] at h2
    rw [h2]
    exact List.Forall₂.nil
  | cons a l1 ih =>
    intro l2 l3 h1 h2
    rw [List.forall₂_cons_left_iff] at h1
    obtain ⟨b, l2r, hab, h1r, hl2⟩ := h1
    rw [hl2, List.forall₂_cons_left_iff] at h2
    obtain ⟨c, l3r, hbc, h2r, hl3⟩ := h2
    rw [hl3]
    exact List.Forall₂.cons ⟨b, hab, hbc⟩ (ih l2r l3r h1r h2r)

/-- The parameter list after a successful build: for each user uniform, in the
order of the enumeration, the parameters of that uniform. -/
theorem build_success_blocks (gl : Driver) (output : Bool) (e : GLSLEffect)
    (hres : (build gl output e).result = true) (hprog : gl.createProgram ≠ 0) :
    ∃ blocks,
      (build gl output e).effect.m_parameterArray = blocks.flatten ∧
      List.Forall₂
        (BuiltBlock (gl.link e.m_vertexShaderText e.m_fragmentShaderText)
          (e.m_parameterArray.map some) e.heap)
        ((gl.link e.m_vertexShaderText e.m_fragmentShaderText).activeUniforms.filter
          isUserUniform) blocks := by
  obtain ⟨blocks0, h1, h2⟩ := initLoop_blocks
    (gl.link e.m_vertexShaderText e.m_fragmentShaderText)
    (gl.link e.m_vertexShaderText e.m_fragmentShaderText).activeUniforms (initState e)
  have h3 := initTextureUnits_rel gl.maxTextureImageUnits output
    (initLoop (gl.link e.m_vertexShaderText e.m_fragmentShaderText) (initState e)
      (gl.link e.m_vertexShaderText e.m_fragmentShaderText).activeUniforms).newParameterArray 0
  rw [← build_success_parameters gl output e hres hprog] at h3
  rw [h1] at h3
  simp only [initState, List.nil_append] at h3 h2
  obtain ⟨rs, h4, h5⟩ := forall2_flatten_left SameButUnit blocks0 _ h3
  exact ⟨rs, h4, forall2_comp _ _ _ _ _ h2 h5⟩

/-! ## The elements of an array -/

theorem forall2_map_self {α β : Type} (f : α → β) (l : List α) :
    List.Forall₂ (fun a b => b = f a) l (l.map f) := by
  induction l with
  | nil => exact List.Forall₂.nil
  | cons a l ih => exact List.Forall₂.cons rfl ih

theorem forall2_mem_right {α β : Type} (R : α → β → Prop) :
    ∀ (l : List α) (r : List β), List.Forall₂ R l r → ∀ b ∈ r, ∃ a ∈ l, R a b := by
  intro l
  induction l with
  | nil =>
    intro r h b hb
    rw [List.forall₂_nil_left_iff] at h
    rw [h] at hb
    cases hb
  | cons a l ih =>
    intro r h b hb
    rw [List.forall₂_cons_left_iff] at h
    obtain ⟨b0, r0, hab, hrest, hr⟩ := h
    rw [hr] at hb
    rcases List.mem_cons.1 hb with h1 | h1
    · exact ⟨a, List.mem_cons_self _ _, by rw [h1]; exact hab⟩
    · obtain ⟨a1, ha1, hr1⟩ := ih r0 hrest b h1
      exact ⟨a1, List.mem_cons_of_mem _ ha1, hr1⟩

theorem builtBlock_parameterFor (prog : Program) (old : List GLSLParameter) (heap : Nat)
    (u : ActiveUniform) (b : List GLSLParameter)
    (h : BuiltBlock prog (old.map some) heap u b) :
    ∀ p ∈ b, ParameterFor prog old heap u p := by
  intro p hp
  obtain ⟨b0, hblock, hrel⟩ := h
  obtain ⟨p0, hp0, k, hk⟩ := forall2_mem_right _ _ _ hrel p hp
  rcases hblock with ⟨o, ho, hn, ht, hb⟩ | ⟨h, hh, hb⟩
  · rw [List.mem_map] at ho
    obtain ⟨o1, ho1, ho2⟩ := ho
    rw [Option.some.inj ho2] at ho1
    rw [hb, List.mem_singleton] at hp0
    refine Or.inl ⟨o, ho1, ⟨hn, ht⟩, ⟨prog.uniformLocation u.name, k, ?_⟩, ?_⟩
    · rw [hk, hp0]
      rfl
    · rw [hk, hp0]
      rfl
  · rw [hb] at hp0
    obtain ⟨h1, _, h3, h4, h5, _⟩ := addParameters_spec _ _ _ _ _ _ _ hp0
    refine Or.inr ⟨?_, ?_, ?_, ?_⟩
    · rw [hk]
      exact Nat.le_trans hh h1
    · rw [hk]
      exact h3
    · rw [hk]
      exact h4
    · rw [hk]
      exact h5

/-- C24: after a successful build (of a program with a non-zero handle; the
objects of the previous list are numbered below the allocation counter): the
new list is the concatenation, in the order in which the program enumerates
its user uniforms, of the parameters that stand for each uniform; each of them
is a parameter of the previous list with the name and the type of the uniform,
or was made on the heap for the uniform; a parameter of the previous list that
no user uniform matches in name and type is not in the new list; and for every
user uniform the first parameter of the previous list with its name and type,
wherever it stands, is in the new list, at the location of the uniform. -/
theorem build_reconciles (gl : Driver) (output : Bool) (e : GLSLEffect)
    (hres : (build gl output e).result = true) (hprog : gl.createProgram ≠ 0)
    (hheap : ∀ o ∈ e.m_parameterArray, o.obj < e.heap) :
    (∃ blocks,
      (build gl output e).effect.m_parameterArray = blocks.flatten ∧
      List.Forall₂
        (fun u b => ∀ p ∈ b,
          ParameterFor (gl.link e.m_vertexShaderText e.m_fragmentShaderText)
            e.m_parameterArray e.heap u p)
        ((gl.link e.m_vertexShaderText e.m_fragmentShaderText).activeUniforms.filter
          isUserUniform) blocks) ∧
    (∀ p ∈ (build gl output e).effect.m_parameterArray,
      ∃ u ∈ (gl.link e.m_vertexShaderText e.m_fragmentShaderText).activeUniforms,
        isUserUniform u = true ∧
        ParameterFor (gl.link e.m_vertexShaderText e.m_fragmentShaderText)
          e.m_parameterArray e.heap u p) ∧
    (∀ o ∈ e.m_parameterArray,
      (∀ u ∈ (gl.link e.m_vertexShaderText e.m_fragmentShaderText).activeUniforms,
        isUserUniform u = true → ¬ MatchesUniform o u) →
      ∀ p ∈ (build gl output e).effect.m_parameterArray, ¬ SameButPlace o p) ∧
    (∀ u ∈ (gl.link e.m_vertexShaderText e.m_fragmentShaderText).activeUniforms,
      isUserUniform u = true →
      ∀ (pre post : List GLSLParameter) (o : GLSLParameter),
        e.m_parameterArray = pre ++ o :: post → MatchesUniform o u →
        (∀ o1 ∈ pre, ¬ MatchesUniform o1 u) →
        ∃ p ∈ (build gl output e).effect.m_parameterArray,
          SameButPlace o p ∧
          p.location = (gl.link e.m_vertexShaderText e.m_fragmentShaderText).uniformLocation
            u.name) := by
  obtain ⟨blocks, h1, h2⟩ := build_success_blocks gl output e hres hprog
  have h3 := h2.imp fun u b hb => builtBlock_parameterFor _ _ _ u b hb
  have hall : ∀ p ∈ (build gl output e).effect.m_parameterArray,
      ∃ u ∈ (gl.link e.m_vertexShaderText e.m_fragmentShaderText).activeUniforms,
        isUserUniform u = true ∧
        ParameterFor (gl.link e.m_vertexShaderText e.m_fragmentShaderText)
          e.m_parameterArray e.heap u p := by
    intro p hp
    rw [h1, List.mem_flatten] at hp
    obtain ⟨b, hb, hpb⟩ := hp
    obtain ⟨u, hu, hub⟩ := forall2_mem_right _ _ _ h3 b hb
    rw [List.mem_filter] at hu
    exact ⟨u, hu.1, hu.2, hub p hpb⟩
  refine ⟨⟨blocks, h1, h3⟩, hall, ?_, ?_⟩
  · intro o ho hno p hp hsame
    obtain ⟨l, k, hpo⟩ := hsame
    obtain ⟨u, hu, huser, hfor⟩ := hall p hp
    rcases hfor with ⟨o1, _, ⟨hn, ht⟩, ⟨l1, k1, hp1⟩, _⟩ | ⟨hobj, _⟩
    · apply hno u hu huser
      have e1 : o.name = o1.name := by
        have := congrArg GLSLParameter.name (hpo.symm.trans hp1)
        exact this
      have e2 : o.glType = o1.glType := by
        have := congrArg GLSLParameter.glType (hpo.symm.trans hp1)
        exact this
      exact ⟨e1.trans hn, e2.trans ht⟩
    · have e1 : p.obj = o.obj := by rw [hpo]
      have := hheap o ho
      omega
  · intro u hu huser pre post o hsplit hm hpre
    have hfirst : firstOld u.name u.type ((initState e).old) = some o := by
      simp only [initState]
      rw [firstOld_map_some, hsplit, List.find?_append]
      have hnone : List.find? (fun p => decide (p.name = u.name ∧ p.glType = u.type)) pre
          = none := by
        rw [List.find?_eq_none]
        intro x hx
        have := hpre x hx
        unfold MatchesUniform at this
        simpa using this
      rw [hnone]
      simp only [Option.none_or, List.find?_cons]
      have : decide (o.name = u.name ∧ o.glType = u.type) = true := by
        unfold MatchesUniform at hm
        simpa using hm
      rw [this]
    have hmem := initLoop_carry (gl.link e.m_vertexShaderText e.m_fragmentShaderText)
      (gl.link e.m_vertexShaderText e.m_fragmentShaderText).activeUniforms
      (initState e) u o hu huser hfirst
    obtain ⟨k, hk⟩ := initTextureUnits_mem gl.maxTextureImageUnits output _ 0 _ hmem
    rw [← build_success_parameters gl output e hres hprog] at hk
    exact ⟨_, hk, ⟨_, k, rfl⟩, rfl⟩

set_option maxRecDepth 100000 in
theorem build_reconciles_witness :
    (build (exDriver [exK, exBrightnessUniform]) true exWithBrightness).result = true ∧
    (build (exDriver [exK, exBrightnessUniform]) true exWithBrightness
      ).effect.m_parameterArray.map (fun p => (p.obj, p.name))
      = [(1, "k".toList), (0, "brightness".toList)] ∧
    ∃ p ∈ (build (exDriver [exK, exBrightnessUniform]) true exWithBrightness
        ).effect.m_parameterArray,
      SameButPlace exBrightness p ∧
      p.location = ((exDriver [exK, exBrightnessUniform]).link
        exWithBrightness.m_vertexShaderText
        exWithBrightness.m_fragmentShaderText).uniformLocation exBrightnessUniform.name :=
  ⟨by decide, by decide,
   (build_reconciles (exDriver [exK, exBrightnessUniform]) true exWithBrightness (by decide)
      (by decide) (by decide)).2.2.2 exBrightnessUniform (by decide) (by decide) [] []
      exBrightness rfl ⟨rfl, rfl⟩ (fun o1 h => absurd h (List.not_mem_nil o1))⟩

/-! ## The names of the parameters -/

theorem forall2_pairwise {α β : Type} (R : α → β → Prop) (S : α → α → Prop)
    (T : β → β → Prop) (hT : ∀ a a1 b b1, S a a1 → R a b → R a1 b1 → T b b1) :
    ∀ (l : List α) (r : List β), List.Forall₂ R l r → List.Pairwise S l → List.Pairwise T r := by
  intro l
  induction l with
  | nil =>
    intro r h _
    rw [List.forall₂_nil_left_iff] at h
    rw [h]
    exact List.Pairwise.nil
  | cons a l ih =>
    intro r h hp
    rw [List.forall₂_cons_left_iff] at h
    obtain ⟨b, r0, hab, hrest, hr⟩ := h
    rw [List.pairwise_cons] at hp
    rw [hr, List.pairwise_cons]
    refine ⟨?_, ih r0 hrest hp.2⟩
    intro b1 hb1
    obtain ⟨a1, ha1, hab1⟩ := forall2_mem_right R l r0 hrest b1 hb1
    exact hT a a1 b b1 (hp.1 a1 ha1) hab hab1

theorem sameButUnit_names (l r : List GLSLParameter) (h : List.Forall₂ SameButUnit l r) :
    r.map (fun p => p.name) = l.map (fun p => p.name) := by
  induction h with
  | nil => rfl
  | cons hab _ ih =>
    obtain ⟨k, hk⟩ := hab
    simp only [List.map_cons, ih, hk]

/-- The names in the block of a uniform: the name of the uniform, or the names
of its elements. -/
theorem builtBlock_names (prog : Program) (old : List (Option GLSLParameter)) (heap : Nat)
    (u : ActiveUniform) (b : List GLSLParameter) (h : BuiltBlock prog old heap u b) :
    b.map (fun p => p.name) = [u.name] ∨
    ∃ n : Nat, b.map (fun p => p.name) = (List.range n).map (elementName u.name) := by
  obtain ⟨b0, hblock, hrel⟩ := h
  rw [sameButUnit_names b0 b hrel]
  rcases hblock with ⟨o, _, hn, _, hb⟩ | ⟨h, _, hb⟩
  · left
    rw [hb]
    simp only [List.map_cons, List.map_nil]
    rw [← hn]
    rfl
  · rw [hb]
    unfold addParameters
    split
    · left
      rfl
    · right
      refine ⟨u.size.toNat, ?_⟩
      rw [List.map_map]
      rfl

theorem block_names_nodup (name : QString) (ns : List QString)
    (h : ns = [name] ∨ ∃ n : Nat, ns = (List.range n).map (elementName name)) : ns.Nodup := by
  rcases h with h | ⟨n, h⟩
  · rw [h]
    exact List.nodup_singleton _
  · rw [h]
    exact List.Nodup.map_on (fun i _ j _ hij => elementName_injective name i j hij)
      (List.nodup_range n)

theorem block_names_disjoint (n m : QString) (ns ms : List QString)
    (hne : n ≠ m) (hn : '[' ∉ n) (hm : '[' ∉ m)
    (h1 : ns = [n] ∨ ∃ k : Nat, ns = (List.range k).map (elementName n))
    (h2 : ms = [m] ∨ ∃ k : Nat, ms = (List.range k).map (elementName m)) :
    List.Disjoint ns ms := by
  rw [List.disjoint_left]
  intro x hx hy
  have hx1 : x = n ∨ ∃ i, x = elementName n i := by
    rcases h1 with h | ⟨k, h⟩
    · rw [h, List.mem_singleton] at hx
      exact Or.inl hx
    · rw [h, List.mem_map] at hx
      obtain ⟨i, _, hi⟩ := hx
      exact Or.inr ⟨i, hi.symm⟩
  have hy1 : x = m ∨ ∃ i, x = elementName m i := by
    rcases h2 with h | ⟨k, h⟩
    · rw [h, List.mem_singleton] at hy
      exact Or.inl hy
    · rw [h, List.mem_map] at hy
      obtain ⟨i, _, hi⟩ := hy
      exact Or.inr ⟨i, hi.symm⟩
  rcases hx1 with hx1 | ⟨i, hx1⟩
  · rcases hy1 with hy1 | ⟨j, hy1⟩
    · exact hne (hx1.symm.trans hy1)
    · apply hn
      rw [← hx1, hy1]
      exact elementName_bracket m j
  · rcases hy1 with hy1 | ⟨j, hy1⟩
    · apply hm
      rw [← hy1, hx1]
      exact elementName_bracket n i
    · exact hne (elementName_base n m i j hn hm (hx1.symm.trans hy1))

set_option maxRecDepth 100000 in
/-- C23 as stated fails: loading a file whose `[Parameters]` section sets `k`
twice into a new effect gives a list with two parameters named `k`; a build
that fails leaves them both. -/
theorem names_distinct_counterexample :
    (load exLocale exTwiceK GLSLEffect.ctor).m_parameterArray.map (fun p => p.name)
      = ["k".toList, "k".toList] ∧
    (build exDriverNoLink true (load exLocale exTwiceK GLSLEffect.ctor)).result = false ∧
    (build exDriverNoLink true (load exLocale exTwiceK GLSLEffect.ctor)
      ).effect.m_parameterArray.map (fun p => p.name) = ["k".toList, "k".toList] ∧
    ¬ ((load exLocale exTwiceK GLSLEffect.ctor).m_parameterArray.map
      (fun p => p.name)).Nodup := by
  decide

/-- C23 (amended): after every successful build (of a program with a non-zero
handle) whose user uniforms have pairwise distinct names, none of which holds
an opening square bracket, the names of the parameters in the list are
pairwise distinct, whatever the list was before the build. -/
theorem build_names_distinct (gl : Driver) (output : Bool) (e : GLSLEffect)
    (hres : (build gl output e).result = true) (hprog : gl.createProgram ≠ 0)
    (hnames : (((gl.link e.m_vertexShaderText e.m_fragmentShaderText).activeUniforms.filter
      isUserUniform).map fun u => u.name).Nodup)
    (hbracket : ∀ u ∈ (gl.link e.m_vertexShaderText e.m_fragmentShaderText).activeUniforms,
      isUserUniform u = true → '[' ∉ u.name) :
    ((build gl output e).effect.m_parameterArray.map fun p => p.name).Nodup := by
  obtain ⟨blocks, h1, h2⟩ := build_success_blocks gl output e hres hprog
  rw [h1, List.map_flatten, List.nodup_flatten]
  constructor
  · intro ns hns
    rw [List.mem_map] at hns
    obtain ⟨b, hb, hbn⟩ := hns
    obtain ⟨u, _, hub⟩ := forall2_mem_right _ _ _ h2 b hb
    rw [← hbn]
    exact block_names_nodup u.name _ (builtBlock_names _ _ _ u b hub)
  · rw [List.pairwise_map]
    have hp : List.Pairwise (fun u u1 : ActiveUniform =>
        u.name ≠ u1.name ∧ '[' ∉ u.name ∧ '[' ∉ u1.name)
        ((gl.link e.m_vertexShaderText e.m_fragmentShaderText).activeUniforms.filter
          isUserUniform) := by
      have h3 : List.Pairwise (fun u u1 : ActiveUniform => u.name ≠ u1.name)
          ((gl.link e.m_vertexShaderText e.m_fragmentShaderText).activeUniforms.filter
            isUserUniform) := by
        unfold List.Nodup at hnames
        rw [List.pairwise_map] at hnames
        exact hnames
      have hmem : ∀ u ∈ (gl.link e.m_vertexShaderText e.m_fragmentShaderText
          ).activeUniforms.filter isUserUniform, '[' ∉ u.name := by
        intro u hu
        rw [List.mem_filter] at hu
        exact hbracket u hu.1 hu.2
      exact (List.pairwise_and_iff.2 ⟨h3, List.pairwise_of_forall_mem_list
        (fun a ha b hb => (⟨hmem a ha, hmem b hb⟩ : '[' ∉ a.name ∧ '[' ∉ b.name))⟩).imp
        fun h => ⟨h.1, h.2.1, h.2.2⟩
    exact forall2_pairwise _ _ _
      (fun u u1 b b1 hs hb hb1 =>
        block_names_disjoint u.name u1.name _ _ hs.1 hs.2.1 hs.2.2
          (builtBlock_names _ _ _ u b hb) (builtBlock_names _ _ _ u1 b1 hb1))
      _ _ h2 hp

set_option maxRecDepth 100000 in
theorem build_names_distinct_witness :
    (build (exDriver [exK, exTime, exWeight]) true
      (load exLocale exTwiceK GLSLEffect.ctor)).result = true ∧
    (build (exDriver [exK, exTime, exWeight]) true
      (load exLocale exTwiceK GLSLEffect.ctor)).effect.m_parameterArray.map (fun p => p.name)
      = ["k".toList, "weight[0]".toList, "weight[1]".toList, "weight[2]".toList] ∧
    ((build (exDriver [exK, exTime, exWeight]) true
      (load exLocale exTwiceK GLSLEffect.ctor)).effect.m_parameterArray.map
        fun p => p.name).Nodup :=
  ⟨by decide, by decide,
   build_names_distinct (exDriver [exK, exTime, exWeight]) true
    (load exLocale exTwiceK GLSLEffect.ctor) (by decide) (by decide) (by decide) (by decide)⟩



end GLSL
